import Mathlib

/-!
# Rank-two tensor kernel of MOOSE

A shallow embedding of `framework/include/utils/RankTwoTensorImplementation.h` and of
`ADMortarConstraint::trimDerivative` (`framework/src/constraints/ADMortarConstraint.C`).

The scalar type `T` of `RankTwoTensorTempl<T>` is a type parameter `K` carrying a
field structure, so every formula is written once and can be run on `ℚ`.
The floating literals of the source (`0.5`, `1.0 / 3.0`, `6.0`, ...) are the
corresponding field elements (`1 / 2`, `1 / 3`, `6`, ...).

Storage follows the source: a rank-two tensor owns nine scalars `_coords`,
entry `(i, j)` living in slot `i * 3 + j`; a rank-four tensor owns eighty-one
scalars `_vals`, entry `(i, j, k, l)` living in slot `((i * 3 + j) * 3 + k) * 3 + l`.
A mutating method is a function returning the new receiver; `rotated` and
`rotateXyPlane`, whose claims speak about the receiver, return the pair
(receiver after the call, result). A routine that can call `mooseError` returns
`Except MooseError`. What the routines take from outside these sources enters as a
parameter: `std::cos` / `std::sin` for `rotateXyPlane`, the base-class
`TensorValue<T>::inverse()` for `inverse`, and for the eigen routines the LAPACK routine
`LAPACKsyev_` (a function from the calculation type and the input array to `info`, the
eigenvalues and the overwritten array), `std::sqrt`, the Eigen self-adjoint solver and
`MooseUtils::absoluteFuzzyEqual`. Which specialisation of a routine runs (`Real`, `ADReal`
or the generic template) is the argument `kind : ScalarKind`. A dual number `ADReal` is a
value with two parallel arrays of derivative indices and derivative values; the iterators of
`trimDerivative` are positions in these arrays.
-/

/-- Flat slot `i * N + j` of entry `(i, j)`, with `N = 3`. -/
def idx (i j : Fin 3) : Fin 9 := ⟨i.val * 3 + j.val, by omega⟩

/-- Flat slot of entry `(i, j, k, l)` of a rank-four tensor. -/
def idx4 (i j k l : Fin 3) : Fin 81 :=
  ⟨((i.val * 3 + j.val) * 3 + k.val) * 3 + l.val, by omega⟩

/-- Conversion of a C++ `bool` to a scalar, as in `0.5 * (i == k)` or `Real(i == j)`. -/
def boolToScalar {K : Type} [Field K] (p : Prop) [Decidable p] : K := if p then 1 else 0

/-- `Utility::pow<2>(x)`. -/
def pow2 {K : Type} [Field K] (x : K) : K := x * x

/-- The failures raised through `mooseError` by the fill routines. -/
inductive MooseError
  /-- "Expected an input vector size of ... to fill the RankTwoTensorTempl". -/
  | expectedInputVectorSize
  /-- "Please check the number of entries in the input vector ... It must be 1, 3, 6, or 9". -/
  | checkNumberOfEntries
  /-- "Only FIRST, THIRD, or SIXTH order scalar variable can be used ...". -/
  | scalarVariableOrder
  /-- "Dimensions of ColumnMajorMatrixTempl<T> are incompatible with RankTwoTensorTempl". -/
  | incompatibleDimensions
  /-- The `SingularMatrixError` with which, by the spec, the inverse of a tensor with zero
  determinant fails. -/
  | singularMatrixError
  /-- "The syev method is only supported for Real valued tensors". -/
  | syevOnlyReal
  /-- "... the PETSC LAPACK syev routine returned error code ..." raised by `syev`. -/
  | syevReturnedErrorCode
  /-- "symmetricEigenvaluesEigenvectors is only available for ordered tensor component
  types". -/
  | symmetricEigenvaluesEigenvectorsOrderedOnly
  /-- "getRUDecompositionRotation is only supported for Real valued tensors". -/
  | getRUDecompositionRotationOnlyReal
  /-- "... the PETSC LAPACK syev routine returned error code ..." raised by
  `getRUDecompositionRotation`. -/
  | getRUDecompositionRotationSyevErrorCode
  deriving DecidableEq, Repr

/-- The `calculation_type` string handed to `syev`: `"N"` (eigenvalues only) or `"V"`
(eigenvalues and eigenvectors). -/
inductive CalculationType
  | N
  | V
  deriving DecidableEq, Repr

/-- The scalar type a template is instantiated with: `Real` (`RankTwoTensor`), `ADReal`
(`ADRankTwoTensor`), or any other type; it selects the explicit specialisation, if any. -/
inductive ScalarKind
  | real
  | dual
  | other
  deriving DecidableEq, Repr

/-- `FillMethod`, with the tags of `fillMethodEnum()`:
`autodetect=0 isotropic1=1 diagonal3=3 symmetric6=6 general=9`. -/
inductive FillMethod
  | autodetect
  | isotropic1
  | diagonal3
  | symmetric6
  | general
  deriving DecidableEq, Repr

/-- The numeric value of a `FillMethod` tag, as compared with `input.size()`. -/
def FillMethod.toNat : FillMethod → Nat
  | FillMethod.autodetect => 0
  | FillMethod.isotropic1 => 1
  | FillMethod.diagonal3 => 3
  | FillMethod.symmetric6 => 6
  | FillMethod.general => 9

/-- `RankFourTensorTempl<T>`: the eighty-one scalars `_vals`. -/
structure RankFourTensorTempl (K : Type) where
  _vals : Fin 81 → K

namespace RankFourTensorTempl
variable {K : Type} [Field K]

/-- Modelled from the spec: the default constructor of `RankFourTensorTempl`
(RankFourTensor.h is outside the sources at hand) sets every scalar to zero. -/
def zero : RankFourTensorTempl K := ⟨fun _ => 0⟩

/-- Modelled from the spec: read access `d(i, j, k, l)` of `RankFourTensorTempl`
(RankFourTensor.h is outside the sources at hand), the scalar in slot
`((i * 3 + j) * 3 + k) * 3 + l`. -/
def get (self : RankFourTensorTempl K) (i j k l : Fin 3) : K := self._vals (idx4 i j k l)

/-- The assignment `_vals[index] = v` with a running `unsigned int index`. -/
def setVal (self : RankFourTensorTempl K) (index : Nat) (v : K) : RankFourTensorTempl K :=
  ⟨fun m => if m.val = index then v else self._vals m⟩

/-- Modelled from the spec: write access `d(i, j, k, l) = v` of `RankFourTensorTempl`
(RankFourTensor.h is outside the sources at hand). -/
def setAt (self : RankFourTensorTempl K) (i j k l : Fin 3) (v : K) : RankFourTensorTempl K :=
  ⟨Function.update self._vals (idx4 i j k l) v⟩

/-- The statement `d(i, j, k, l) += v`. -/
def addAt (self : RankFourTensorTempl K) (i j k l : Fin 3) (v : K) : RankFourTensorTempl K :=
  ⟨Function.update self._vals (idx4 i j k l) (self._vals (idx4 i j k l) + v)⟩

/-- The statement `d(i, j, k, l) -= v`. -/
def subAt (self : RankFourTensorTempl K) (i j k l : Fin 3) (v : K) : RankFourTensorTempl K :=
  ⟨Function.update self._vals (idx4 i j k l) (self._vals (idx4 i j k l) - v)⟩

/-- The loop nest `for i, for j, for k, for l: result._vals[index++] = f(i, j, k, l)`
run on a freshly constructed tensor with `unsigned int index = 0`. -/
def fillIndexed (f : Fin 3 → Fin 3 → Fin 3 → Fin 3 → K) : RankFourTensorTempl K :=
  let result : RankFourTensorTempl K := zero
  let index : Nat := 0
  let st := (List.finRange 3).foldl (fun st i =>
    (List.finRange 3).foldl (fun st j =>
      (List.finRange 3).foldl (fun st k =>
        (List.finRange 3).foldl (fun (st : RankFourTensorTempl K × Nat) l =>
          (st.1.setVal st.2 (f i j k l), st.2 + 1)) st) st) st) (result, index)
  st.1

end RankFourTensorTempl

/-- Flat slot of entry `(i, j, k)` of a rank-three tensor. -/
def idx3 (i j k : Fin 3) : Fin 27 := ⟨(i.val * 3 + j.val) * 3 + k.val, by omega⟩

/-- `RankThreeTensorTempl<T>`: the twenty-seven scalars `_vals`. -/
structure RankThreeTensorTempl (K : Type) where
  _vals : Fin 27 → K

namespace RankThreeTensorTempl
variable {K : Type} [Field K]

/-- Modelled from the spec: the default constructor of `RankThreeTensorTempl`
(RankThreeTensor.h is outside the sources at hand) sets every scalar to zero. -/
def zero : RankThreeTensorTempl K := ⟨fun _ => 0⟩

/-- Modelled from the spec: read access `d(i, j, k)` of `RankThreeTensorTempl`
(RankThreeTensor.h is outside the sources at hand), the scalar in slot
`(i * 3 + j) * 3 + k`. -/
def get (self : RankThreeTensorTempl K) (i j k : Fin 3) : K := self._vals (idx3 i j k)

/-- The statement `d(i, j, k) += v`. -/
def addAt (self : RankThreeTensorTempl K) (i j k : Fin 3) (v : K) : RankThreeTensorTempl K :=
  ⟨Function.update self._vals (idx3 i j k) (self._vals (idx3 i j k) + v)⟩

end RankThreeTensorTempl

/-- Modelled from the spec: `ColumnMajorMatrixTempl<T>` (ColumnMajorMatrix.h is outside the
sources at hand): `n()` rows, `m()` columns and the raw data, entry `(i, j)` being
`rawData[i + j * n()]`. -/
structure ColumnMajorMatrixTempl (K : Type) where
  n : Nat
  m : Nat
  rawData : Nat → K

/-- Modelled from the spec: read access `a(i, j)` of a `ColumnMajorMatrixTempl`
(ColumnMajorMatrix.h is outside the sources at hand). -/
def ColumnMajorMatrixTempl.get {K : Type} (a : ColumnMajorMatrixTempl K) (i j : Nat) : K :=
  a.rawData (i + j * a.n)

/-- `RankTwoTensorTempl<T>`: the nine scalars `_coords`, row-major. -/
structure RankTwoTensorTempl (K : Type) where
  _coords : Fin 9 → K

namespace RankTwoTensorTempl
variable {K : Type} [Field K]

/-- Modelled from the spec: read access `(*this)(i, j)` of libMesh tensors (outside the sources
at hand); storage is row-major, so this is the scalar `_coords[i * N + j]`. -/
def get (self : RankTwoTensorTempl K) (i j : Fin 3) : K := self._coords (idx i j)

/-- Modelled from the spec: write access `(*this)(i, j) = v` of libMesh tensors (outside the sources
at hand), the assignment `_coords[i * N + j] = v`. -/
def set (self : RankTwoTensorTempl K) (i j : Fin 3) (v : K) : RankTwoTensorTempl K :=
  ⟨Function.update self._coords (idx i j) v⟩

/-- The assignment `_coords[n] = v`. -/
def setCoord (self : RankTwoTensorTempl K) (n : Fin 9) (v : K) : RankTwoTensorTempl K :=
  ⟨Function.update self._coords n v⟩

/-- The default constructor `RankTwoTensorTempl()`: all nine scalars are `0.0`. -/
def zero : RankTwoTensorTempl K :=
  (List.finRange 9).foldl (fun self i => self.setCoord i 0) ⟨fun _ => 0⟩

/-- The constructor `RankTwoTensorTempl(initIdentity)`: `zero()` followed by
`(*this)(i, i) = 1.0` for the three diagonal entries. -/
def initIdentity : RankTwoTensorTempl K :=
  (List.finRange 3).foldl (fun self i => self.set i i 1) zero

/-- The tensor with the nine scalars `c0 .. c8` in slots `0 .. 8`. -/
def ofCoords (c0 c1 c2 c3 c4 c5 c6 c7 c8 : K) : RankTwoTensorTempl K :=
  ⟨fun n => match n with
    | ⟨0, _⟩ => c0 | ⟨1, _⟩ => c1 | ⟨2, _⟩ => c2
    | ⟨3, _⟩ => c3 | ⟨4, _⟩ => c4 | ⟨5, _⟩ => c5
    | ⟨6, _⟩ => c6 | ⟨7, _⟩ => c7 | ⟨_, _⟩ => c8⟩

/-- Modelled from the spec: `TypeTensor<T>::tr()` of libMesh (outside the sources
at hand), the sum of the three diagonal scalars. -/
def tr (self : RankTwoTensorTempl K) : K :=
  self._coords 0 + self._coords 4 + self._coords 8

/-- `trace()`. -/
def trace (self : RankTwoTensorTempl K) : K := self.tr

/-- Modelled from the spec: `TypeTensor<T>::contract` of libMesh (outside the sources
at hand), the full sum of the products of matching scalars. -/
def contract (self b : RankTwoTensorTempl K) : K :=
  (List.finRange 9).foldl (fun sum i => sum + self._coords i * b._coords i) 0

/-- `doubleContraction(b)`. -/
def doubleContraction (self b : RankTwoTensorTempl K) : K := self.contract b

/-- Modelled from the spec: `TensorValue<T>::transpose()` of libMesh (outside the sources
at hand): entry `(i, j)` of the result is entry `(j, i)` of the receiver. -/
def transpose (self : RankTwoTensorTempl K) : RankTwoTensorTempl K :=
  ofCoords (self.get 0 0) (self.get 1 0) (self.get 2 0)
           (self.get 0 1) (self.get 1 1) (self.get 2 1)
           (self.get 0 2) (self.get 1 2) (self.get 2 2)

/-- Modelled from the spec: `operator+` / `operator+=` of libMesh tensors (outside the sources
at hand), scalar by scalar. -/
def add (self a : RankTwoTensorTempl K) : RankTwoTensorTempl K :=
  ⟨fun n => self._coords n + a._coords n⟩

/-- Modelled from the spec: the product `factor * tensor` of libMesh (outside the sources
at hand), scalar by scalar. -/
def smul (factor : K) (a : RankTwoTensorTempl K) : RankTwoTensorTempl K :=
  ⟨fun n => a._coords n * factor⟩

/-- Modelled from the spec: the tensor product `a * b` of libMesh (outside the sources
at hand), the 3x3 matrix product: entry `(i, j)` is the sum over `k` of
`a(i, k) * b(k, j)`. -/
def mul (self p : RankTwoTensorTempl K) : RankTwoTensorTempl K :=
  let e : Fin 3 → Fin 3 → K := fun i j =>
    (List.finRange 3).foldl (fun sum k => sum + self.get i k * p.get k j) 0
  ofCoords (e 0 0) (e 0 1) (e 0 2) (e 1 0) (e 1 1) (e 1 2) (e 2 0) (e 2 1) (e 2 2)

/-- `addIa(a)`: adds `a` to the three diagonal entries. -/
def addIa (self : RankTwoTensorTempl K) (a : K) : RankTwoTensorTempl K :=
  (List.finRange 3).foldl (fun self i => self.set i i (self.get i i + a)) self

/-- `deviatoric()`. -/
def deviatoric (self : RankTwoTensorTempl K) : RankTwoTensorTempl K :=
  let deviatoric := self
  deviatoric.addIa (-1 / 3 * self.tr)

/-- `generalSecondInvariant()`. -/
def generalSecondInvariant (self : RankTwoTensorTempl K) : K :=
  self.get 0 0 * self.get 1 1 +
  self.get 0 0 * self.get 2 2 +
  self.get 1 1 * self.get 2 2 -
  self.get 0 1 * self.get 1 0 -
  self.get 0 2 * self.get 2 0 -
  self.get 1 2 * self.get 2 1

/-- `secondInvariant()`. -/
def secondInvariant (self : RankTwoTensorTempl K) : K :=
  let result := pow2 (self.get 0 0 - self.get 1 1) / 6
  let result := result + pow2 (self.get 0 0 - self.get 2 2) / 6
  let result := result + pow2 (self.get 1 1 - self.get 2 2) / 6
  let result := result + pow2 (self.get 0 1 + self.get 1 0) / 4
  let result := result + pow2 (self.get 0 2 + self.get 2 0) / 4
  let result := result + pow2 (self.get 1 2 + self.get 2 1) / 4
  result

/-- `dsecondInvariant()`. -/
def dsecondInvariant (self : RankTwoTensorTempl K) : RankTwoTensorTempl K :=
  smul (1 / 2) (self.deviatoric.add self.deviatoric.transpose)

/-- `d2secondInvariant()`: four nested loops writing `_vals[index++]`. -/
def d2secondInvariant (_self : RankTwoTensorTempl K) : RankFourTensorTempl K :=
  RankFourTensorTempl.fillIndexed (fun i j k l =>
    1 / 2 * boolToScalar (i = k) * boolToScalar (j = l) +
      1 / 2 * boolToScalar (i = l) * boolToScalar (j = k) -
      (1 / 3) * boolToScalar (i = j) * boolToScalar (k = l))

/-- The local `s` of the third-invariant routines:
`s = 0.5 * deviatoric(); s += s.transpose();`. -/
def symmetricDeviator (self : RankTwoTensorTempl K) : RankTwoTensorTempl K :=
  let s := smul (1 / 2) self.deviatoric
  s.add s.transpose

/-- `thirdInvariant()`. -/
def thirdInvariant (self : RankTwoTensorTempl K) : K :=
  let s := self.symmetricDeviator
  let result := s.get 0 0 * (s.get 1 1 * s.get 2 2 - s.get 2 1 * s.get 1 2)
  let result := result - s.get 1 0 * (s.get 0 1 * s.get 2 2 - s.get 2 1 * s.get 0 2)
  let result := result + s.get 2 0 * (s.get 0 1 * s.get 1 2 - s.get 1 1 * s.get 0 2)
  result

/-- `dthirdInvariant()`. -/
def dthirdInvariant (self : RankTwoTensorTempl K) : RankTwoTensorTempl K :=
  let s := self.symmetricDeviator
  let d : RankTwoTensorTempl K := zero
  let sec_over_three := self.secondInvariant / 3
  let d := d.set 0 0 (s.get 1 1 * s.get 2 2 - s.get 2 1 * s.get 1 2 + sec_over_three)
  let d := d.set 0 1 (s.get 2 0 * s.get 1 2 - s.get 1 0 * s.get 2 2)
  let d := d.set 0 2 (s.get 1 0 * s.get 2 1 - s.get 2 0 * s.get 1 1)
  let d := d.set 1 0 (s.get 2 1 * s.get 0 2 - s.get 0 1 * s.get 2 2)
  let d := d.set 1 1 (s.get 0 0 * s.get 2 2 - s.get 2 0 * s.get 0 2 + sec_over_three)
  let d := d.set 1 2 (s.get 2 0 * s.get 0 1 - s.get 0 0 * s.get 2 1)
  let d := d.set 2 0 (s.get 0 1 * s.get 1 2 - s.get 1 1 * s.get 0 2)
  let d := d.set 2 1 (s.get 1 0 * s.get 0 2 - s.get 0 0 * s.get 1 2)
  let d := d.set 2 2 (s.get 0 0 * s.get 1 1 - s.get 1 0 * s.get 0 1 + sec_over_three)
  d

/-- `d2thirdInvariant()`: the base formula written through `_vals[index++]`,
followed by the per-entry corrections. -/
def d2thirdInvariant (self : RankTwoTensorTempl K) : RankFourTensorTempl K :=
  let s := self.symmetricDeviator
  let d2 : RankFourTensorTempl K := RankFourTensorTempl.fillIndexed (fun i j k l =>
    boolToScalar (i = j) * s.get k l / 3 + boolToScalar (k = l) * s.get i j / 3)
  let d2 := d2.addAt 0 0 1 1 (s.get 2 2)
  let d2 := d2.subAt 0 0 1 2 (s.get 2 1)
  let d2 := d2.subAt 0 0 2 1 (s.get 1 2)
  let d2 := d2.addAt 0 0 2 2 (s.get 1 1)
  let d2 := d2.subAt 0 1 0 1 (s.get 2 2 / 2)
  let d2 := d2.subAt 0 1 1 0 (s.get 2 2 / 2)
  let d2 := d2.addAt 0 1 0 2 (s.get 1 2 / 2)
  let d2 := d2.addAt 0 1 2 0 (s.get 1 2 / 2)
  let d2 := d2.addAt 0 1 1 2 (s.get 2 0 / 2)
  let d2 := d2.addAt 0 1 2 1 (s.get 2 0 / 2)
  let d2 := d2.subAt 0 1 2 2 (s.get 1 0)
  let d2 := d2.addAt 0 2 0 1 (s.get 2 1 / 2)
  let d2 := d2.addAt 0 2 1 0 (s.get 2 1 / 2)
  let d2 := d2.subAt 0 2 0 2 (s.get 1 1 / 2)
  let d2 := d2.subAt 0 2 2 0 (s.get 1 1 / 2)
  let d2 := d2.subAt 0 2 1 1 (s.get 2 0)
  let d2 := d2.addAt 0 2 1 2 (s.get 1 0 / 2)
  let d2 := d2.addAt 0 2 2 1 (s.get 1 0 / 2)
  let d2 := d2.subAt 1 0 0 1 (s.get 2 2 / 2)
  let d2 := d2.subAt 1 0 1 0 (s.get 2 2 / 2)
  let d2 := d2.addAt 1 0 0 2 (s.get 1 2 / 2)
  let d2 := d2.addAt 1 0 2 0 (s.get 1 2 / 2)
  let d2 := d2.addAt 1 0 1 2 (s.get 2 0 / 2)
  let d2 := d2.addAt 1 0 2 1 (s.get 2 0 / 2)
  let d2 := d2.subAt 1 0 2 2 (s.get 1 0)
  let d2 := d2.addAt 1 1 0 0 (s.get 2 2)
  let d2 := d2.subAt 1 1 0 2 (s.get 2 0)
  let d2 := d2.subAt 1 1 2 0 (s.get 2 0)
  let d2 := d2.addAt 1 1 2 2 (s.get 0 0)
  let d2 := d2.subAt 1 2 0 0 (s.get 2 1)
  let d2 := d2.addAt 1 2 0 1 (s.get 2 0 / 2)
  let d2 := d2.addAt 1 2 1 0 (s.get 2 0 / 2)
  let d2 := d2.addAt 1 2 0 2 (s.get 0 1 / 2)
  let d2 := d2.addAt 1 2 2 0 (s.get 0 1 / 2)
  let d2 := d2.subAt 1 2 1 2 (s.get 0 0 / 2)
  let d2 := d2.subAt 1 2 2 1 (s.get 0 0 / 2)
  let d2 := d2.addAt 2 0 0 1 (s.get 2 1 / 2)
  let d2 := d2.addAt 2 0 1 0 (s.get 2 1 / 2)
  let d2 := d2.subAt 2 0 0 2 (s.get 1 1 / 2)
  let d2 := d2.subAt 2 0 2 0 (s.get 1 1 / 2)
  let d2 := d2.subAt 2 0 1 1 (s.get 2 0)
  let d2 := d2.addAt 2 0 1 2 (s.get 1 0 / 2)
  let d2 := d2.addAt 2 0 2 1 (s.get 1 0 / 2)
  let d2 := d2.subAt 2 1 0 0 (s.get 2 1)
  let d2 := d2.addAt 2 1 0 1 (s.get 2 0 / 2)
  let d2 := d2.addAt 2 1 1 0 (s.get 2 0 / 2)
  let d2 := d2.addAt 2 1 0 2 (s.get 0 1 / 2)
  let d2 := d2.addAt 2 1 2 0 (s.get 0 1 / 2)
  let d2 := d2.subAt 2 1 1 2 (s.get 0 0 / 2)
  let d2 := d2.subAt 2 1 2 1 (s.get 0 0 / 2)
  let d2 := d2.addAt 2 2 0 0 (s.get 1 1)
  let d2 := d2.subAt 2 2 0 1 (s.get 1 0)
  let d2 := d2.subAt 2 2 1 0 (s.get 1 0)
  let d2 := d2.addAt 2 2 1 1 (s.get 0 0)
  d2

/-- `rotate(R)`: the receiver becomes `temp`, filled entry by entry with the
nine-term sum, then copied back scalar by scalar. -/
def rotate (self R : RankTwoTensorTempl K) : RankTwoTensorTempl K :=
  let temp : RankTwoTensorTempl K := zero
  let temp := (List.finRange 3).foldl (fun temp i =>
    (List.finRange 3).foldl (fun (temp : RankTwoTensorTempl K) j =>
      let tmp :=
        R._coords (idx i 0) * R._coords (idx j 0) * self.get 0 0 +
        R._coords (idx i 0) * R._coords (idx j 1) * self.get 0 1 +
        R._coords (idx i 0) * R._coords (idx j 2) * self.get 0 2 +
        R._coords (idx i 1) * R._coords (idx j 0) * self.get 1 0 +
        R._coords (idx i 1) * R._coords (idx j 1) * self.get 1 1 +
        R._coords (idx i 1) * R._coords (idx j 2) * self.get 1 2 +
        R._coords (idx i 2) * R._coords (idx j 0) * self.get 2 0 +
        R._coords (idx i 2) * R._coords (idx j 1) * self.get 2 1 +
        R._coords (idx i 2) * R._coords (idx j 2) * self.get 2 2
      temp.setCoord (idx i j) tmp) temp) temp
  (List.finRange 9).foldl (fun self i => self.setCoord i (temp._coords i)) self

/-- `rotated(R) const`: copies the receiver into `result`, rotates `result` and
returns it. The pair is (receiver after the call, returned tensor). -/
def rotated (self R : RankTwoTensorTempl K) : RankTwoTensorTempl K × RankTwoTensorTempl K :=
  let result := self
  let result := result.rotate R
  (self, result)

/-- The constructor `RankTwoTensorTempl(S11, S22, S33, S23, S13, S12)`; the base-class
constructor leaves zeros before the nine assignments. -/
def construct6 (S11 S22 S33 S23 S13 S12 : K) : RankTwoTensorTempl K :=
  let self : RankTwoTensorTempl K := zero
  let self := self.set 0 0 S11
  let self := self.set 1 1 S22
  let self := self.set 2 2 S33
  let self := self.set 2 1 S23
  let self := self.set 1 2 (self.get 2 1)
  let self := self.set 2 0 S13
  let self := self.set 0 2 (self.get 2 0)
  let self := self.set 1 0 S12
  let self := self.set 0 1 (self.get 1 0)
  self

/-- The constructor `RankTwoTensorTempl(S11, S21, S31, S12, S22, S32, S13, S23, S33)`; the
base-class constructor leaves zeros before the nine assignments. -/
def construct9 (S11 S21 S31 S12 S22 S32 S13 S23 S33 : K) : RankTwoTensorTempl K :=
  let self : RankTwoTensorTempl K := zero
  let self := self.set 0 0 S11
  let self := self.set 1 0 S21
  let self := self.set 2 0 S31
  let self := self.set 0 1 S12
  let self := self.set 1 1 S22
  let self := self.set 2 1 S32
  let self := self.set 0 2 S13
  let self := self.set 1 2 S23
  let self := self.set 2 2 S33
  self

/-- `initializeFromRows(row0, row1, row2)`; a vector is its three components. -/
def initializeFromRows (row0 row1 row2 : Fin 3 → K) : RankTwoTensorTempl K :=
  construct9 (row0 0) (row1 0) (row2 0) (row0 1) (row1 1) (row2 1) (row0 2) (row1 2) (row2 2)

/-- `initializeFromColumns(col0, col1, col2)`. -/
def initializeFromColumns (col0 col1 col2 : Fin 3 → K) : RankTwoTensorTempl K :=
  construct9 (col0 0) (col0 1) (col0 2) (col1 0) (col1 1) (col1 2) (col2 0) (col2 1) (col2 2)

/-- `fillFromInputVector(input, fill_method)`: the new receiver, or the error raised. -/
def fillFromInputVector (self : RankTwoTensorTempl K) (input : List K)
    (fill_method : FillMethod) : Except MooseError (RankTwoTensorTempl K) :=
  if fill_method ≠ FillMethod.autodetect ∧ fill_method.toNat ≠ input.length then
    Except.error MooseError.expectedInputVectorSize
  else
    match input with
    | [i0] =>
      let self : RankTwoTensorTempl K := zero
      let self := self.set 0 0 i0
      let self := self.set 1 1 i0
      let self := self.set 2 2 i0
      Except.ok self
    | [i0, i1, i2] =>
      let self : RankTwoTensorTempl K := zero
      let self := self.set 0 0 i0
      let self := self.set 1 1 i1
      let self := self.set 2 2 i2
      Except.ok self
    | [i0, i1, i2, i3, i4, i5] =>
      let self := self.set 0 0 i0
      let self := self.set 1 1 i1
      let self := self.set 2 2 i2
      let self := self.set 2 1 i3
      let self := self.set 1 2 (self.get 2 1)
      let self := self.set 2 0 i4
      let self := self.set 0 2 (self.get 2 0)
      let self := self.set 1 0 i5
      let self := self.set 0 1 (self.get 1 0)
      Except.ok self
    | [i0, i1, i2, i3, i4, i5, i6, i7, i8] =>
      let self := self.set 0 0 i0
      let self := self.set 1 0 i1
      let self := self.set 2 0 i2
      let self := self.set 0 1 i3
      let self := self.set 1 1 i4
      let self := self.set 2 1 i5
      let self := self.set 0 2 i6
      let self := self.set 1 2 i7
      let self := self.set 2 2 i8
      Except.ok self
    | _ => Except.error MooseError.checkNumberOfEntries

/-- `fillFromScalarVariable(scalar_variable)`: the new receiver, or the error raised. -/
def fillFromScalarVariable (self : RankTwoTensorTempl K) (scalar_variable : List K) :
    Except MooseError (RankTwoTensorTempl K) :=
  match scalar_variable with
  | [v0] =>
    let self : RankTwoTensorTempl K := zero
    let self := self.set 0 0 v0
    Except.ok self
  | [v0, v1, v2] =>
    let self : RankTwoTensorTempl K := zero
    let self := self.set 0 0 v0
    let self := self.set 1 1 v1
    let self := self.set 1 0 v2
    let self := self.set 0 1 (self.get 1 0)
    Except.ok self
  | [v0, v1, v2, v3, v4, v5] =>
    let self := self.set 0 0 v0
    let self := self.set 1 1 v1
    let self := self.set 2 2 v2
    let self := self.set 2 1 v3
    let self := self.set 1 2 (self.get 2 1)
    let self := self.set 2 0 v4
    let self := self.set 0 2 (self.get 2 0)
    let self := self.set 1 0 v5
    let self := self.set 0 1 (self.get 1 0)
    Except.ok self
  | _ => Except.error MooseError.scalarVariableOrder

/-- `column(c)`: the loop `result(i) = (*this)(i, c)` on a zero vector. -/
def column (self : RankTwoTensorTempl K) (c : Fin 3) : Fin 3 → K :=
  let result : Fin 3 → K := fun _ => 0
  (List.finRange 3).foldl (fun result i => Function.update result i (self.get i c)) result

/-- `rotateXyPlane(a)`, with `std::cos` and `std::sin` passed in. The pair is
(receiver after the call, returned tensor `b`). -/
def rotateXyPlane (cos sin : K → K) (self : RankTwoTensorTempl K) (a : K) :
    RankTwoTensorTempl K × RankTwoTensorTempl K :=
  let c := cos a
  let s := sin a
  let x := self.get 0 0 * c * c + self.get 1 1 * s * s + 2 * self.get 0 1 * c * s
  let y := self.get 0 0 * s * s + self.get 1 1 * c * c - 2 * self.get 0 1 * c * s
  let xy := (self.get 1 1 - self.get 0 0) * c * s + self.get 0 1 * (c * c - s * s)
  let b := self
  let b := b.set 0 0 x
  let b := b.set 1 1 y
  let b := b.set 0 1 xy
  let b := b.set 1 0 (b.get 0 1)
  (self, b)

/-- `outerProduct(b)`: two loops over the nine slots writing `_vals[index++]`. -/
def outerProduct (self b : RankTwoTensorTempl K) : RankFourTensorTempl K :=
  let result : RankFourTensorTempl K := RankFourTensorTempl.zero
  let index : Nat := 0
  let st := (List.finRange 9).foldl (fun st ij =>
    let a := self._coords ij
    (List.finRange 9).foldl (fun (st : RankFourTensorTempl K × Nat) kl =>
      (st.1.setVal st.2 (a * b._coords kl), st.2 + 1)) st) (result, index)
  st.1

/-- `inverse()`: the body is `return TensorValue<T>::inverse();`, the base-class routine
being passed in as `baseInverse`. -/
def inverse (baseInverse : RankTwoTensorTempl K → Except MooseError (RankTwoTensorTempl K))
    (self : RankTwoTensorTempl K) : Except MooseError (RankTwoTensorTempl K) :=
  baseInverse self

/-- Modelled from the spec: `TensorValue<T>::inverse()` of libMesh (outside the sources
at hand): "inverse fails with a `SingularMatrixError` when the determinant is (numerically)
zero"; for a non-zero determinant it is the standard inverse, the cofactor formula times the
reciprocal of the determinant. -/
def tensorValueInverse [DecidableEq K] (self : RankTwoTensorTempl K) :
    Except MooseError (RankTwoTensorTempl K) :=
  let A11 := self.get 0 0
  let A12 := self.get 0 1
  let A13 := self.get 0 2
  let A21 := self.get 1 0
  let A22 := self.get 1 1
  let A23 := self.get 1 2
  let A31 := self.get 2 0
  let A32 := self.get 2 1
  let A33 := self.get 2 2
  let my_det := A11 * (A33 * A22 - A32 * A23) - A21 * (A33 * A12 - A32 * A13) +
    A31 * (A23 * A12 - A22 * A13)
  if my_det = 0 then
    Except.error MooseError.singularMatrixError
  else
    let my_det_inv := 1 / my_det
    Except.ok (ofCoords
      ((A33 * A22 - A32 * A23) * my_det_inv) (-(A33 * A12 - A32 * A13) * my_det_inv)
      ((A23 * A12 - A22 * A13) * my_det_inv)
      (-(A33 * A21 - A31 * A23) * my_det_inv) ((A33 * A11 - A31 * A13) * my_det_inv)
      (-(A23 * A11 - A21 * A13) * my_det_inv)
      ((A32 * A21 - A31 * A22) * my_det_inv) (-(A32 * A11 - A31 * A12) * my_det_inv)
      ((A22 * A11 - A21 * A12) * my_det_inv))

/-- `operator=(const ColumnMajorMatrixTempl<T> & a)`: the new receiver, or the error raised. -/
def assignColumnMajorMatrix (self : RankTwoTensorTempl K) (a : ColumnMajorMatrixTempl K) :
    Except MooseError (RankTwoTensorTempl K) :=
  if a.n ≠ 3 ∨ a.m ≠ 3 then
    Except.error MooseError.incompatibleDimensions
  else
    let cmm_rawdata := a.rawData
    Except.ok ((List.finRange 3).foldl (fun self i =>
      (List.finRange 3).foldl (fun (self : RankTwoTensorTempl K) j =>
        self.setCoord (idx i j) (cmm_rawdata (i.val + j.val * 3))) self) self)

/-- `dtrace()`. -/
def dtrace (_self : RankTwoTensorTempl K) : RankTwoTensorTempl K :=
  construct9 1 0 0 0 1 0 0 0 1

/-- `mixedProductIkJl(b)`. -/
def mixedProductIkJl (self b : RankTwoTensorTempl K) : RankFourTensorTempl K :=
  let result : RankFourTensorTempl K := RankFourTensorTempl.zero
  let index : Nat := 0
  let st := (List.finRange 3).foldl (fun st i =>
    (List.finRange 3).foldl (fun st j =>
      (List.finRange 3).foldl (fun st k =>
        let a := self.get i k
        (List.finRange 3).foldl (fun (st : RankFourTensorTempl K × Nat) l =>
          (st.1.setVal st.2 (a * b.get j l), st.2 + 1)) st) st) st) (result, index)
  st.1

/-- `mixedProductIlJk(b)`. -/
def mixedProductIlJk (self b : RankTwoTensorTempl K) : RankFourTensorTempl K :=
  let result : RankFourTensorTempl K := RankFourTensorTempl.zero
  (List.finRange 3).foldl (fun result i =>
    (List.finRange 3).foldl (fun result j =>
      (List.finRange 3).foldl (fun result k =>
        (List.finRange 3).foldl (fun (result : RankFourTensorTempl K) l =>
          result.setAt i j k l (self.get i l * b.get j k)) result) result) result) result

/-- `mixedProductJkIl(b)`. -/
def mixedProductJkIl (self b : RankTwoTensorTempl K) : RankFourTensorTempl K :=
  let result : RankFourTensorTempl K := RankFourTensorTempl.zero
  let index : Nat := 0
  let st := (List.finRange 3).foldl (fun st i =>
    (List.finRange 3).foldl (fun st j =>
      (List.finRange 3).foldl (fun st k =>
        let a := self.get j k
        (List.finRange 3).foldl (fun (st : RankFourTensorTempl K × Nat) l =>
          (st.1.setVal st.2 (a * b.get i l), st.2 + 1)) st) st) st) (result, index)
  st.1

/-- `mixedProductIjJklm(b)`. -/
def mixedProductIjJklm (self : RankTwoTensorTempl K) (b : RankFourTensorTempl K) :
    RankFourTensorTempl K :=
  let result : RankFourTensorTempl K := RankFourTensorTempl.zero
  (List.finRange 3).foldl (fun result i =>
    (List.finRange 3).foldl (fun result j =>
      (List.finRange 3).foldl (fun result k =>
        (List.finRange 3).foldl (fun result l =>
          (List.finRange 3).foldl (fun (result : RankFourTensorTempl K) m =>
            result.addAt i k l m (self.get i j * b.get j k l m))
          result) result) result) result) result

/-- `mixedProductJmIjkl(b)`. -/
def mixedProductJmIjkl (self : RankTwoTensorTempl K) (b : RankFourTensorTempl K) :
    RankFourTensorTempl K :=
  let result : RankFourTensorTempl K := RankFourTensorTempl.zero
  (List.finRange 3).foldl (fun result i =>
    (List.finRange 3).foldl (fun result j =>
      (List.finRange 3).foldl (fun result k =>
        (List.finRange 3).foldl (fun result l =>
          (List.finRange 3).foldl (fun (result : RankFourTensorTempl K) m =>
            result.addAt i k l m (self.get j m * b.get i j k l))
          result) result) result) result) result

/-- `mixedProductJkIjlm(b)`. -/
def mixedProductJkIjlm (self : RankTwoTensorTempl K) (b : RankFourTensorTempl K) :
    RankFourTensorTempl K :=
  let result : RankFourTensorTempl K := RankFourTensorTempl.zero
  (List.finRange 3).foldl (fun result i =>
    (List.finRange 3).foldl (fun result j =>
      (List.finRange 3).foldl (fun result k =>
        (List.finRange 3).foldl (fun result l =>
          (List.finRange 3).foldl (fun (result : RankFourTensorTempl K) m =>
            result.addAt i k l m (self.get j k * b.get i j l m))
          result) result) result) result) result

/-- `mixedProductIjJkl(b)`. -/
def mixedProductIjJkl (self : RankTwoTensorTempl K) (b : RankThreeTensorTempl K) :
    RankThreeTensorTempl K :=
  let result : RankThreeTensorTempl K := RankThreeTensorTempl.zero
  (List.finRange 3).foldl (fun result i =>
    (List.finRange 3).foldl (fun result j =>
      (List.finRange 3).foldl (fun result k =>
        (List.finRange 3).foldl (fun (result : RankThreeTensorTempl K) l =>
          result.addAt i k l (self.get i j * b.get j k l))
        result) result) result) result

/-- `mixedProductJkI(b)`. -/
def mixedProductJkI (self : RankTwoTensorTempl K) (b : Fin 3 → K) : RankThreeTensorTempl K :=
  let result : RankThreeTensorTempl K := RankThreeTensorTempl.zero
  (List.finRange 3).foldl (fun result i =>
    (List.finRange 3).foldl (fun result j =>
      (List.finRange 3).foldl (fun (result : RankThreeTensorTempl K) k =>
        result.addAt i j k (self.get j k * b i))
      result) result) result

/-- Modelled from the spec: the quotient `tensor / scalar` of libMesh (outside the sources
at hand), scalar by scalar. -/
def divScalar (self : RankTwoTensorTempl K) (factor : K) : RankTwoTensorTempl K :=
  ⟨fun n => self._coords n / factor⟩

/-- `syev(calculation_type, eigvals, a)`: the generic template raises; the `Real`
specialisation symmetrises the receiver into `a`, calls the LAPACK routine (passed in as
`LAPACKsyev_`, which returns `info`, the eigenvalues and the overwritten `a`) and raises
when `info != 0`. The result is the pair (`eigvals`, `a`). -/
def syev (kind : ScalarKind)
    (LAPACKsyev_ : CalculationType → (Fin 9 → K) → Int × (Fin 3 → K) × (Fin 9 → K))
    (self : RankTwoTensorTempl K) (calculation_type : CalculationType) :
    Except MooseError ((Fin 3 → K) × (Fin 9 → K)) :=
  match kind with
  | ScalarKind.real =>
    let a : Fin 9 → K := fun _ => 0
    let a := (List.finRange 3).foldl (fun a i =>
      (List.finRange 3).foldl (fun (a : Fin 9 → K) j =>
        Function.update a (idx i j) (1 / 2 * (self.get i j + self.get j i))) a) a
    let out := LAPACKsyev_ calculation_type a
    let info := out.1
    if info ≠ 0 then
      Except.error MooseError.syevReturnedErrorCode
    else
      Except.ok (out.2.1, out.2.2)
  | _ => Except.error MooseError.syevOnlyReal

/-- The `ADRankTwoTensor` specialisation of `symmetricEigenvaluesEigenvectors`, for any
scalar type `S`: the lower triangle of the solver matrix is filled from the entries `(i, j)`
with `i <= j` (an entry the loop does not write stays `none`), an off-diagonal scalar that is
fuzzy-equal to zero gets `v.value() = 0.0`, and the outputs of the Eigen solver are copied.
`absoluteFuzzyEqualZero`, `setValueZero` and the solver are passed in. The result is the
pair (`eigvals`, `eigvecs`). -/
def symmetricEigenvaluesEigenvectorsAD {S : Type} (absoluteFuzzyEqualZero : S → Bool)
    (setValueZero : S → S)
    (selfAdjointEigenSolver : (Fin 3 → Fin 3 → Option S) → (Fin 3 → S) × (Fin 3 → Fin 3 → S))
    (self : RankTwoTensorTempl S) (eigvecs : RankTwoTensorTempl S) :
    (Fin 3 → S) × RankTwoTensorTempl S :=
  let self_ : Fin 3 → Fin 3 → Option S := fun _ _ => none
  let self_ := (List.finRange 3).foldl (fun self_ i =>
    ((List.finRange 3).filter (fun j => i ≤ j)).foldl
      (fun (self_ : Fin 3 → Fin 3 → Option S) j =>
        let v := self._coords (idx i j)
        let v := if i ≠ j ∧ absoluteFuzzyEqualZero v = true then setValueZero v else v
        Function.update self_ j (Function.update (self_ j) i (some v))) self_) self_
  let es := selfAdjointEigenSolver self_
  let lambda := es.1
  let eigvals : Fin 3 → S := fun i => lambda i
  let v := es.2
  let eigvecs := (List.finRange 3).foldl (fun eigvecs i =>
    (List.finRange 3).foldl (fun (eigvecs : RankTwoTensorTempl S) j =>
      ⟨Function.update eigvecs._coords (idx i j) (v i j)⟩) eigvecs) eigvecs
  (eigvals, eigvecs)

/-- `symmetricEigenvaluesEigenvectors(eigvals, eigvecs)`: the `Real` specialisation goes
through `syev("V")` and transposes `a` into `eigvecs`, the `ADReal` specialisation is
`symmetricEigenvaluesEigenvectorsAD`, the generic template raises. -/
def symmetricEigenvaluesEigenvectors (kind : ScalarKind)
    (LAPACKsyev_ : CalculationType → (Fin 9 → K) → Int × (Fin 3 → K) × (Fin 9 → K))
    (absoluteFuzzyEqualZero : K → Bool) (setValueZero : K → K)
    (selfAdjointEigenSolver : (Fin 3 → Fin 3 → Option K) → (Fin 3 → K) × (Fin 3 → Fin 3 → K))
    (self : RankTwoTensorTempl K) (eigvecs : RankTwoTensorTempl K) :
    Except MooseError ((Fin 3 → K) × RankTwoTensorTempl K) :=
  match kind with
  | ScalarKind.real =>
    match syev ScalarKind.real LAPACKsyev_ self CalculationType.V with
    | Except.error e => Except.error e
    | Except.ok (eigvals, a) =>
      Except.ok (eigvals, (List.finRange 3).foldl (fun eigvecs i =>
        (List.finRange 3).foldl (fun (eigvecs : RankTwoTensorTempl K) j =>
          eigvecs.set j i (a (idx i j))) eigvecs) eigvecs)
  | ScalarKind.dual =>
    Except.ok (symmetricEigenvaluesEigenvectorsAD absoluteFuzzyEqualZero setValueZero
      selfAdjointEigenSolver self eigvecs)
  | ScalarKind.other => Except.error MooseError.symmetricEigenvaluesEigenvectorsOrderedOnly

/-- `symmetricEigenvalues(eigvals)`: the `Real` specialisation is `syev("N")`, the generic
template calls `symmetricEigenvaluesEigenvectors` on a fresh tensor `a`. -/
def symmetricEigenvalues (kind : ScalarKind)
    (LAPACKsyev_ : CalculationType → (Fin 9 → K) → Int × (Fin 3 → K) × (Fin 9 → K))
    (absoluteFuzzyEqualZero : K → Bool) (setValueZero : K → K)
    (selfAdjointEigenSolver : (Fin 3 → Fin 3 → Option K) → (Fin 3 → K) × (Fin 3 → Fin 3 → K))
    (self : RankTwoTensorTempl K) : Except MooseError (Fin 3 → K) :=
  match kind with
  | ScalarKind.real =>
    match syev ScalarKind.real LAPACKsyev_ self CalculationType.N with
    | Except.error e => Except.error e
    | Except.ok (eigvals, _) => Except.ok eigvals
  | kind =>
    let a : RankTwoTensorTempl K := zero
    match symmetricEigenvaluesEigenvectors kind LAPACKsyev_ absoluteFuzzyEqualZero setValueZero
        selfAdjointEigenSolver self a with
    | Except.error e => Except.error e
    | Except.ok (eigvals, _) => Except.ok eigvals

/-- `dsymmetricEigenvalues(eigvals, deigvals)`: the pair (`eigvals`, `deigvals`), or the
error raised by `syev`. -/
def dsymmetricEigenvalues [DecidableEq K] (kind : ScalarKind)
    (LAPACKsyev_ : CalculationType → (Fin 9 → K) → Int × (Fin 3 → K) × (Fin 9 → K))
    (self : RankTwoTensorTempl K) :
    Except MooseError ((Fin 3 → K) × (Fin 3 → RankTwoTensorTempl K)) :=
  let deigvals : Fin 3 → RankTwoTensorTempl K := fun _ => zero
  match syev kind LAPACKsyev_ self CalculationType.V with
  | Except.error e => Except.error e
  | Except.ok (eigvals, a) =>
    let deigvals := (List.finRange 3).foldl (fun deigvals i =>
      let eig_vec : Fin 3 → K := fun j => a (idx i j)
      (List.finRange 3).foldl (fun deigvals j =>
        (List.finRange 3).foldl (fun (deigvals : Fin 3 → RankTwoTensorTempl K) k =>
          Function.update deigvals i ((deigvals i).set j k (eig_vec j * eig_vec k)))
        deigvals) deigvals) deigvals
    let deigvals :=
      if eigvals 0 = eigvals 1 ∧ eigvals 0 = eigvals 2 then
        let deigvals := Function.update deigvals 2
          (divScalar (((deigvals 0).add (deigvals 1)).add (deigvals 2)) 3)
        let deigvals := Function.update deigvals 1 (deigvals 2)
        Function.update deigvals 0 (deigvals 1)
      else if eigvals 0 = eigvals 1 then
        let deigvals := Function.update deigvals 1 (divScalar ((deigvals 0).add (deigvals 1)) 2)
        Function.update deigvals 0 (deigvals 1)
      else if eigvals 0 = eigvals 2 then
        let deigvals := Function.update deigvals 2 (divScalar ((deigvals 0).add (deigvals 2)) 2)
        Function.update deigvals 0 (deigvals 2)
      else if eigvals 1 = eigvals 2 then
        let deigvals := Function.update deigvals 2 (divScalar ((deigvals 1).add (deigvals 2)) 2)
        Function.update deigvals 1 (deigvals 2)
      else deigvals
    Except.ok (eigvals, deigvals)

/-- `d2symmetricEigenvalues(deriv)`: the three rank-four tensors `deriv`, or the error raised
by `syev`. -/
def d2symmetricEigenvalues [DecidableEq K] (kind : ScalarKind)
    (LAPACKsyev_ : CalculationType → (Fin 9 → K) → Int × (Fin 3 → K) × (Fin 9 → K))
    (self : RankTwoTensorTempl K) : Except MooseError (Fin 3 → RankFourTensorTempl K) :=
  let deriv : Fin 3 → RankFourTensorTempl K := fun _ => RankFourTensorTempl.zero
  match syev kind LAPACKsyev_ self CalculationType.V with
  | Except.error e => Except.error e
  | Except.ok (eigvals, eigvec) =>
    let ev : Fin 3 → Fin 3 → K := fun i j => eigvec (idx i j)
    Except.ok ((List.finRange 3).foldl (fun deriv alpha =>
      (List.finRange 3).foldl (fun deriv beta =>
        if eigvals alpha = eigvals beta then deriv
        else
          (List.finRange 3).foldl (fun deriv i =>
            (List.finRange 3).foldl (fun deriv j =>
              (List.finRange 3).foldl (fun deriv k =>
                (List.finRange 3).foldl (fun (deriv : Fin 3 → RankFourTensorTempl K) l =>
                  Function.update deriv alpha ((deriv alpha).addAt i j k l
                    (1 / 2 * (ev beta i * ev alpha j + ev alpha i * ev beta j) *
                      (ev beta k * ev alpha l + ev beta l * ev alpha k) /
                      (eigvals alpha - eigvals beta))))
                deriv) deriv) deriv) deriv) deriv) deriv)

/-- `getRUDecompositionRotation(rot)`: the generic template raises; the `Real`
specialisation returns the new `rot`, or the error raised. `LAPACKsyev_`, `std::sqrt` and the
base-class inverse are passed in. -/
def getRUDecompositionRotation (kind : ScalarKind)
    (LAPACKsyev_ : CalculationType → (Fin 9 → K) → Int × (Fin 3 → K) × (Fin 9 → K))
    (sqrt : K → K)
    (baseInverse : RankTwoTensorTempl K → Except MooseError (RankTwoTensorTempl K))
    (self : RankTwoTensorTempl K) : Except MooseError (RankTwoTensorTempl K) :=
  match kind with
  | ScalarKind.real =>
    let a := self
    let c := a.transpose.mul a
    let cmat : Fin 9 → K := fun _ => 0
    let cmat := (List.finRange 3).foldl (fun cmat i =>
      (List.finRange 3).foldl (fun (cmat : Fin 9 → K) j =>
        Function.update cmat (idx i j) (c.get i j)) cmat) cmat
    let out := LAPACKsyev_ CalculationType.V cmat
    let info := out.1
    let w := out.2.1
    let cmat := out.2.2
    if info ≠ 0 then
      Except.error MooseError.getRUDecompositionRotationSyevErrorCode
    else
      let diag : RankTwoTensorTempl K := zero
      let diag := (List.finRange 3).foldl (fun diag i => diag.set i i (sqrt (w i))) diag
      let evec : RankTwoTensorTempl K := zero
      let evec := (List.finRange 3).foldl (fun evec i =>
        (List.finRange 3).foldl (fun (evec : RankTwoTensorTempl K) j =>
          evec.set i j (cmat (idx i j))) evec) evec
      match inverse baseInverse ((evec.transpose.mul diag).mul evec) with
      | Except.error e => Except.error e
      | Except.ok inv => Except.ok (a.mul inv)
  | _ => Except.error MooseError.getRUDecompositionRotationOnlyReal


/-- `ddet()`. -/
def ddet (self : RankTwoTensorTempl K) : RankTwoTensorTempl K :=
  let d : RankTwoTensorTempl K := zero
  let d := d.set 0 0 (self.get 1 1 * self.get 2 2 - self.get 2 1 * self.get 1 2)
  let d := d.set 0 1 (self.get 2 0 * self.get 1 2 - self.get 1 0 * self.get 2 2)
  let d := d.set 0 2 (self.get 1 0 * self.get 2 1 - self.get 2 0 * self.get 1 1)
  let d := d.set 1 0 (self.get 2 1 * self.get 0 2 - self.get 0 1 * self.get 2 2)
  let d := d.set 1 1 (self.get 0 0 * self.get 2 2 - self.get 2 0 * self.get 0 2)
  let d := d.set 1 2 (self.get 2 0 * self.get 0 1 - self.get 0 0 * self.get 2 1)
  let d := d.set 2 0 (self.get 0 1 * self.get 1 2 - self.get 1 1 * self.get 0 2)
  let d := d.set 2 1 (self.get 1 0 * self.get 0 2 - self.get 0 0 * self.get 1 2)
  let d := d.set 2 2 (self.get 0 0 * self.get 1 1 - self.get 1 0 * self.get 0 1)
  d

end RankTwoTensorTempl

/-! ## Dual numbers and `ADMortarConstraint::trimDerivative` -/

/-- Modelled from the spec: the dual number `ADReal` (MetaPhysicL, outside the sources at
hand), which "exposes `.value()` and `.derivatives()`": a value and sparse derivatives kept
as two parallel arrays, `derivatives().nude_indices()` and `derivatives().nude_data()`. -/
structure ADReal (K : Type) where
  value : K
  nude_indices : List Nat
  nude_data : List K

namespace ADReal
variable {K : Type} [Field K]

/-- The statement `v.value() = 0.0`: `.value()` is the value part (the printing routines of
the source read `a(i, j).value()` next to `a(i, j).derivatives()[k]`), so the value is
overwritten and the derivative arrays stay. -/
def setValueZero (v : ADReal K) : ADReal K := ⟨0, v.nude_indices, v.nude_data⟩

/-- Modelled from the spec: `resize(n)` of the two derivative arrays (outside the sources at
hand): the first `n` elements are kept, the missing ones are `fill`. -/
def resize {α : Type} (fill : α) (n : Nat) (xs : List α) : List α :=
  xs.take n ++ List.replicate (n - xs.length) fill

end ADReal

namespace ADMortarConstraint
variable {K : Type} [Field K]

/-- `trimDerivative(remove_derivative_index, dual_number)`: the dual number after the call.
The loop state is ((`nude_indices`, `nude_data`), (`mi_it`, `md_it`)), the iterators being
positions counted from `begin()`; `i_it` and `d_it` are both at `pos`. A read past the end of
an array, which the source leaves undefined, yields `0`. -/
def trimDerivative (remove_derivative_index : Nat) (dual_number : ADReal K) : ADReal K :=
  let md_it : Nat := 0
  let mi_it : Nat := 0
  let st := (List.range dual_number.nude_indices.length).foldl
    (fun (st : (List Nat × List K) × (Nat × Nat)) pos =>
      if st.1.1.getD pos 0 ≠ remove_derivative_index then
        let nude_indices := st.1.1.set st.2.1 (st.1.1.getD pos 0)
        let nude_data := st.1.2.set st.2.2 (st.1.2.getD pos 0)
        ((nude_indices, nude_data), (st.2.1 + 1, st.2.2 + 1))
      else st)
    ((dual_number.nude_indices, dual_number.nude_data), (mi_it, md_it))
  let n_indices := st.2.2 - 0
  ⟨dual_number.value, ADReal.resize 0 n_indices st.1.1,
    ADReal.resize 0 n_indices st.1.2⟩

end ADMortarConstraint

/-! ## Auxiliary definitions used in the statements and proofs -/

section AuxDefs
variable {K : Type} [Field K]

namespace RankFourTensorTempl

/-- The index quadruples in the order in which the loop nest of `fillIndexed` visits them. -/
def visitOrder : List (Fin 3 × Fin 3 × Fin 3 × Fin 3) :=
  (List.finRange 3).flatMap fun i => (List.finRange 3).flatMap fun j =>
    (List.finRange 3).flatMap fun k => (List.finRange 3).map fun l => (i, j, k, l)

end RankFourTensorTempl

/-- The cubic form evaluated by `thirdInvariant()` on the entries of `s`. -/
def det3 (s : Fin 3 → Fin 3 → K) : K :=
  s 0 0 * (s 1 1 * s 2 2 - s 2 1 * s 1 2) - s 1 0 * (s 0 1 * s 2 2 - s 2 1 * s 0 2) +
    s 2 0 * (s 0 1 * s 1 2 - s 1 1 * s 0 2)

/-- The nine quadratic forms evaluated by `dthirdInvariant()` on the entries of `s`
(without the `sec_over_three` term). -/
def cof3 (s : Fin 3 → Fin 3 → K) : Fin 3 → Fin 3 → K :=
  ![![s 1 1 * s 2 2 - s 2 1 * s 1 2, s 2 0 * s 1 2 - s 1 0 * s 2 2, s 1 0 * s 2 1 - s 2 0 * s 1 1],
    ![s 2 1 * s 0 2 - s 0 1 * s 2 2, s 0 0 * s 2 2 - s 2 0 * s 0 2, s 2 0 * s 0 1 - s 0 0 * s 2 1],
    ![s 0 1 * s 1 2 - s 1 1 * s 0 2, s 1 0 * s 0 2 - s 0 0 * s 1 2, s 0 0 * s 1 1 - s 1 0 * s 0 1]]

/-- The 3x3 matrix of the entries of a tensor. -/
def toMatrix (T : RankTwoTensorTempl K) : Matrix (Fin 3) (Fin 3) K := Matrix.of fun i j => T.get i j

/-- A non-symmetric rational tensor. -/
def sampleT : RankTwoTensorTempl ℚ := RankTwoTensorTempl.ofCoords 1 2 3 4 5 6 7 8 10

/-- A second non-symmetric rational tensor. -/
def sampleH : RankTwoTensorTempl ℚ := RankTwoTensorTempl.ofCoords 3 (-1) 4 1 (-5) 9 2 6 (-5)

/-- A symmetric rational tensor. -/
def sampleSym : RankTwoTensorTempl ℚ := RankTwoTensorTempl.ofCoords 1 6 5 6 2 4 5 4 3

/-- The tensor whose only non-zero entry is a one at `(0, 1)`. -/
def sampleE01 : RankTwoTensorTempl ℚ := RankTwoTensorTempl.ofCoords 0 1 0 0 0 0 0 0 0

/-- A rational rotation about the third axis (cosine `3/5`, sine `4/5`). -/
def sampleR : RankTwoTensorTempl ℚ :=
  RankTwoTensorTempl.ofCoords (3 / 5) (4 / 5) 0 (-4 / 5) (3 / 5) 0 0 0 1

/-- The slot pairs in the order in which the two loops of `outerProduct` visit them. -/
def pairOrder : List (Fin 9 × Fin 9) :=
  (List.finRange 9).flatMap fun ij => (List.finRange 9).map fun kl => (ij, kl)

/-- The explicit determinant expansion used by the cofactor formula. -/
def detExpansion (T : RankTwoTensorTempl K) : K :=
  T.get 0 0 * (T.get 2 2 * T.get 1 1 - T.get 2 1 * T.get 1 2) -
    T.get 1 0 * (T.get 2 2 * T.get 0 1 - T.get 2 1 * T.get 0 2) +
    T.get 2 0 * (T.get 1 2 * T.get 0 1 - T.get 1 1 * T.get 0 2)

/-- The cofactor formula with every entry scaled by `d`. -/
def scaledCofactors (T : RankTwoTensorTempl K) (d : K) : RankTwoTensorTempl K :=
  RankTwoTensorTempl.ofCoords
    ((T.get 2 2 * T.get 1 1 - T.get 2 1 * T.get 1 2) * d)
    (-(T.get 2 2 * T.get 0 1 - T.get 2 1 * T.get 0 2) * d)
    ((T.get 1 2 * T.get 0 1 - T.get 1 1 * T.get 0 2) * d)
    (-(T.get 2 2 * T.get 1 0 - T.get 2 0 * T.get 1 2) * d)
    ((T.get 2 2 * T.get 0 0 - T.get 2 0 * T.get 0 2) * d)
    (-(T.get 1 2 * T.get 0 0 - T.get 1 0 * T.get 0 2) * d)
    ((T.get 2 1 * T.get 1 0 - T.get 2 0 * T.get 1 1) * d)
    (-(T.get 2 1 * T.get 0 0 - T.get 2 0 * T.get 0 1) * d)
    ((T.get 1 1 * T.get 0 0 - T.get 1 0 * T.get 0 1) * d)

/-- The outer product of the `i`-th eigenvector stored in `a` (components `a[3 * i + j]`)
with itself. -/
def eigenvectorOuter (a : Fin 9 → K) (i : Fin 3) : RankTwoTensorTempl K :=
  RankTwoTensorTempl.ofCoords
    (a (idx i 0) * a (idx i 0)) (a (idx i 0) * a (idx i 1)) (a (idx i 0) * a (idx i 2))
    (a (idx i 1) * a (idx i 0)) (a (idx i 1) * a (idx i 1)) (a (idx i 1) * a (idx i 2))
    (a (idx i 2) * a (idx i 0)) (a (idx i 2) * a (idx i 1)) (a (idx i 2) * a (idx i 2))

/-- The contribution of the ordered pair `(alpha, beta)` to entry `(i, j, k, l)` in
`d2symmetricEigenvalues`, `ev` holding the eigenvectors by rows. -/
def d2Term (eigvals : Fin 3 → K) (ev : Fin 3 → Fin 3 → K) (alpha beta i j k l : Fin 3) : K :=
  1 / 2 * (ev beta i * ev alpha j + ev alpha i * ev beta j) *
    (ev beta k * ev alpha l + ev beta l * ev alpha k) / (eigvals alpha - eigvals beta)

/-- The stretch assembled by `getRUDecompositionRotation`:
`evec.transpose() * diag * evec`. -/
def stretchOf (sqrt : K → K) (w : Fin 3 → K) (cmat : Fin 9 → K) : RankTwoTensorTempl K :=
  let diag := (List.finRange 3).foldl (fun (diag : RankTwoTensorTempl K) i =>
    diag.set i i (sqrt (w i))) RankTwoTensorTempl.zero
  let evec := (List.finRange 3).foldl (fun evec i =>
    (List.finRange 3).foldl (fun (evec : RankTwoTensorTempl K) j =>
      evec.set i j (cmat (idx i j))) evec) RankTwoTensorTempl.zero
  (evec.transpose.mul diag).mul evec

/-- Three orthonormal rational vectors, stored row after row as the LAPACK routine leaves
them in `a`: `(3/5, 4/5, 0)`, `(-4/5, 3/5, 0)`, `(0, 0, 1)`. -/
def sampleRows : Fin 9 → ℚ :=
  (RankTwoTensorTempl.ofCoords (3 / 5) (4 / 5) 0 (-4 / 5) (3 / 5) 0 0 0 1)._coords

/-- A stand-in for `LAPACKsyev_` on rational scalars: it reports success (`info = 0`) and
answers with the eigenvalues `w` and the eigenvectors `sampleRows`. -/
def sampleSyev (w : Fin 3 → ℚ) :
    CalculationType → (Fin 9 → ℚ) → Int × (Fin 3 → ℚ) × (Fin 9 → ℚ) :=
  fun _ _ => (0, w, sampleRows)

/-- The symmetric rational tensor with eigenvalues `1, 2, 3` and eigenvectors `sampleRows`. -/
def sampleSpectral : RankTwoTensorTempl ℚ :=
  RankTwoTensorTempl.ofCoords (41 / 25) (-12 / 25) 0 (-12 / 25) (34 / 25) 0 0 0 3

/-- A rational tensor with determinant `30`: a quarter turn about the third axis times the
stretch with diagonal `3, 2, 5`. -/
def samplePolar : RankTwoTensorTempl ℚ := RankTwoTensorTempl.ofCoords 0 (-2) 0 3 0 0 0 0 5

/-- The eigenvalues of `samplePolar.transpose * samplePolar`, in ascending order. -/
def samplePolarEigvals : Fin 3 → ℚ := ![4, 9, 25]

/-- The eigenvectors of `samplePolar.transpose * samplePolar`, row after row. -/
def samplePolarRows : Fin 9 → ℚ := (RankTwoTensorTempl.ofCoords 0 1 0 1 0 0 0 0 1)._coords

/-- A stand-in for `LAPACKsyev_` answering with the eigenpairs of
`samplePolar.transpose * samplePolar`. -/
def samplePolarSyev : CalculationType → (Fin 9 → ℚ) → Int × (Fin 3 → ℚ) × (Fin 9 → ℚ) :=
  fun _ _ => (0, samplePolarEigvals, samplePolarRows)

/-- A stand-in for `std::sqrt` on rational scalars, exact on `4`, `9` and `25`. -/
def sampleSqrt : ℚ → ℚ :=
  fun x => if x = 4 then 2 else if x = 9 then 3 else if x = 25 then 5 else 0

/-- A column-major 3x3 matrix with raw data `0, 1, 2, ...`. -/
def sampleColumnMajor : ColumnMajorMatrixTempl ℚ := ⟨3, 3, fun n => (n : ℚ)⟩

/-- One pass of the loop body of `trimDerivative` at read position `pos`. -/
def trimStep (rem : Nat) (st : (List Nat × List K) × (Nat × Nat)) (pos : Nat) :
    (List Nat × List K) × (Nat × Nat) :=
  if st.1.1.getD pos 0 ≠ rem then
    ((st.1.1.set st.2.1 (st.1.1.getD pos 0), st.1.2.set st.2.2 (st.1.2.getD pos 0)),
      (st.2.1 + 1, st.2.2 + 1))
  else st

/-- The pairs (index, value) kept by `trimDerivative`. -/
def keptPairs (rem : Nat) (I : List Nat) (D : List K) : List (Nat × K) :=
  (I.zip D).filter (fun p => decide (p.1 ≠ rem))

/-- The matrix `self` that the `ADRankTwoTensor` specialisation of
`symmetricEigenvaluesEigenvectors` hands to `es.compute`. -/
def solverInputAD {S : Type} (absoluteFuzzyEqualZero : S → Bool) (setValueZero : S → S)
    (self : RankTwoTensorTempl S) : Fin 3 → Fin 3 → Option S :=
  (List.finRange 3).foldl (fun self_ i =>
    ((List.finRange 3).filter (fun j => i ≤ j)).foldl
      (fun (self_ : Fin 3 → Fin 3 → Option S) j =>
        let v := self._coords (idx i j)
        let v := if i ≠ j ∧ absoluteFuzzyEqualZero v = true then setValueZero v else v
        Function.update self_ j (Function.update (self_ j) i (some v))) self_) (fun _ _ => none)

/-- The array `a` that the `Real` specialisation of `syev` hands to `LAPACKsyev_`. -/
def syevInput (self : RankTwoTensorTempl K) : Fin 9 → K :=
  (List.finRange 3).foldl (fun a i =>
    (List.finRange 3).foldl (fun (a : Fin 9 → K) j =>
      Function.update a (idx i j) (1 / 2 * (self.get i j + self.get j i))) a) (fun _ => 0)

/-- What the claims about the sum of the derivative tensors need from three tensors. -/
def sumsToIdentity (d : Fin 3 → RankTwoTensorTempl K) : Prop :=
  ((d 0).add (d 1)).add (d 2) = RankTwoTensorTempl.initIdentity ∧
    ∀ i, (d i).transpose = d i ∧ (d i).trace = 1

/-- The plain-real tensor of the values of a dual-valued tensor. -/
def valueTensor (T : RankTwoTensorTempl (ADReal K)) : RankTwoTensorTempl K :=
  ⟨fun n => (T._coords n).value⟩

/-- The dual-valued tensor with the values of `T`, entry `n` carrying the derivative `1` with
respect to the degree of freedom `n`. -/
def seededDual (T : RankTwoTensorTempl K) : RankTwoTensorTempl (ADReal K) :=
  ⟨fun n => ⟨T._coords n, [n.val], [1]⟩⟩

/-- A stand-in for `MooseUtils::absoluteFuzzyEqual(v, 0.0)` on rational dual numbers: the
value is compared with zero up to the absolute tolerance `1e-12`. -/
def sampleFuzzyZero (v : ADReal ℚ) : Bool := decide (|v.value| ≤ 1 / 1000000000000)

/-- A dual-valued tensor whose entry `(0, 1)` has the value `1e-13` and the derivative `1`
with respect to the degree of freedom `7`; the other entries are `2`, without
derivatives. -/
def sampleDualTensor : RankTwoTensorTempl (ADReal ℚ) :=
  ⟨fun n => if n = 1 then ⟨1 / 10000000000000, [7], [1]⟩ else ⟨2, [], []⟩⟩

/-- A stand-in for the Eigen solver that hands back, as every eigenvalue, entry `(1, 0)` of
the matrix it is given. -/
def sampleProbeSolver (m : Fin 3 → Fin 3 → Option (ADReal ℚ)) :
    (Fin 3 → ADReal ℚ) × (Fin 3 → Fin 3 → ADReal ℚ) :=
  (fun _ => (m 1 0).getD ⟨0, [], []⟩, fun _ _ => ⟨0, [], []⟩)

/-- The upper triangle of `sampleSym`, zeros below the diagonal. -/
def sampleUpper : RankTwoTensorTempl ℚ := RankTwoTensorTempl.ofCoords 1 6 5 0 2 4 0 0 3

/-- A rational dual number with the derivative indices `3, 1, 3, 2`. -/
def sampleDual : ADReal ℚ := ⟨5, [3, 1, 3, 2], [10, 20, 30, 40]⟩

end AuxDefs

/-! ## Auxiliary facts about storage and entry access -/

section Helpers
variable {K : Type} [Field K]
set_option linter.unusedSectionVars false

theorem finRange3 : List.finRange 3 = [0, 1, 2] := rfl

theorem finRange9 : List.finRange 9 = [0, 1, 2, 3, 4, 5, 6, 7, 8] := rfl

theorem idx_0_0 : idx 0 0 = 0 := rfl
theorem idx_0_1 : idx 0 1 = 1 := rfl
theorem idx_0_2 : idx 0 2 = 2 := rfl
theorem idx_1_0 : idx 1 0 = 3 := rfl
theorem idx_1_1 : idx 1 1 = 4 := rfl
theorem idx_1_2 : idx 1 2 = 5 := rfl
theorem idx_2_0 : idx 2 0 = 6 := rfl
theorem idx_2_1 : idx 2 1 = 7 := rfl
theorem idx_2_2 : idx 2 2 = 8 := rfl

theorem idx_inj (i j k l : Fin 3) : idx i j = idx k l ↔ i = k ∧ j = l := by
  revert i j k l; decide

theorem idx4_inj (a b c d i j k l : Fin 3) :
    idx4 a b c d = idx4 i j k l ↔ a = i ∧ b = j ∧ c = k ∧ d = l := by
  simp only [idx4, Fin.mk.injEq, Fin.ext_iff]
  omega

theorem idx_surj (n : Fin 9) : ∃ i j, idx i j = n := by
  revert n; decide

namespace RankTwoTensorTempl

theorem ext_coords {a b : RankTwoTensorTempl K} (h : ∀ n, a._coords n = b._coords n) : a = b := by
  cases a; cases b; congr; funext n; exact h n

theorem ext_get {a b : RankTwoTensorTempl K} (h : ∀ i j, a.get i j = b.get i j) : a = b := by
  apply ext_coords
  intro n
  obtain ⟨i, j, rfl⟩ := idx_surj n
  exact h i j

theorem get_set (T : RankTwoTensorTempl K) (i j k l : Fin 3) (v : K) :
    (T.set i j v).get k l = if k = i ∧ l = j then v else T.get k l := by
  simp only [get, set, Function.update_apply, idx_inj]

theorem get_setCoord (T : RankTwoTensorTempl K) (i j k l : Fin 3) (v : K) :
    (T.setCoord (idx i j) v).get k l = if k = i ∧ l = j then v else T.get k l := by
  simp only [get, setCoord, Function.update_apply, idx_inj]

theorem coords_zero (n : Fin 9) : (zero : RankTwoTensorTempl K)._coords n = 0 := by
  fin_cases n <;> simp [zero, finRange9, setCoord]

theorem get_zero (i j : Fin 3) : (zero : RankTwoTensorTempl K).get i j = 0 := coords_zero _

theorem get_ofCoords_0_0 (c0 c1 c2 c3 c4 c5 c6 c7 c8 : K) :
    (ofCoords c0 c1 c2 c3 c4 c5 c6 c7 c8).get 0 0 = c0 := rfl

theorem get_ofCoords_0_1 (c0 c1 c2 c3 c4 c5 c6 c7 c8 : K) :
    (ofCoords c0 c1 c2 c3 c4 c5 c6 c7 c8).get 0 1 = c1 := rfl

theorem get_ofCoords_0_2 (c0 c1 c2 c3 c4 c5 c6 c7 c8 : K) :
    (ofCoords c0 c1 c2 c3 c4 c5 c6 c7 c8).get 0 2 = c2 := rfl

theorem get_ofCoords_1_0 (c0 c1 c2 c3 c4 c5 c6 c7 c8 : K) :
    (ofCoords c0 c1 c2 c3 c4 c5 c6 c7 c8).get 1 0 = c3 := rfl

theorem get_ofCoords_1_1 (c0 c1 c2 c3 c4 c5 c6 c7 c8 : K) :
    (ofCoords c0 c1 c2 c3 c4 c5 c6 c7 c8).get 1 1 = c4 := rfl

theorem get_ofCoords_1_2 (c0 c1 c2 c3 c4 c5 c6 c7 c8 : K) :
    (ofCoords c0 c1 c2 c3 c4 c5 c6 c7 c8).get 1 2 = c5 := rfl

theorem get_ofCoords_2_0 (c0 c1 c2 c3 c4 c5 c6 c7 c8 : K) :
    (ofCoords c0 c1 c2 c3 c4 c5 c6 c7 c8).get 2 0 = c6 := rfl

theorem get_ofCoords_2_1 (c0 c1 c2 c3 c4 c5 c6 c7 c8 : K) :
    (ofCoords c0 c1 c2 c3 c4 c5 c6 c7 c8).get 2 1 = c7 := rfl

theorem get_ofCoords_2_2 (c0 c1 c2 c3 c4 c5 c6 c7 c8 : K) :
    (ofCoords c0 c1 c2 c3 c4 c5 c6 c7 c8).get 2 2 = c8 := rfl

theorem get_transpose (T : RankTwoTensorTempl K) (i j : Fin 3) :
    T.transpose.get i j = T.get j i := by
  fin_cases i <;> fin_cases j <;> rfl

theorem get_add (a b : RankTwoTensorTempl K) (i j : Fin 3) :
    (a.add b).get i j = a.get i j + b.get i j := rfl

theorem get_smul (c : K) (a : RankTwoTensorTempl K) (i j : Fin 3) :
    (smul c a).get i j = a.get i j * c := rfl

theorem tr_eq_get (T : RankTwoTensorTempl K) : T.tr = T.get 0 0 + T.get 1 1 + T.get 2 2 := rfl

theorem get_addIa (T : RankTwoTensorTempl K) (a : K) (i j : Fin 3) :
    (T.addIa a).get i j = T.get i j + if i = j then a else 0 := by
  fin_cases i <;> fin_cases j <;> simp [addIa, finRange3, get_set]

theorem get_deviatoric (T : RankTwoTensorTempl K) (i j : Fin 3) :
    T.deviatoric.get i j = T.get i j + if i = j then -1 / 3 * T.tr else 0 := by
  simp only [deviatoric, get_addIa]

theorem get_symmetricDeviator (T : RankTwoTensorTempl K) (i j : Fin 3) :
    T.symmetricDeviator.get i j = T.deviatoric.get i j * (1 / 2) + T.deviatoric.get j i * (1 / 2) := by
  simp only [symmetricDeviator, get_add, get_transpose, get_smul]

theorem get_mul (a b : RankTwoTensorTempl K) (i j : Fin 3) :
    (a.mul b).get i j = ∑ k, a.get i k * b.get k j := by
  fin_cases i <;> fin_cases j <;>
    simp only [mul, finRange3, Fin.sum_univ_three, List.foldl, zero_add] <;> rfl

theorem contract_eq_coords (a b : RankTwoTensorTempl K) :
    a.contract b = 0 + a._coords 0 * b._coords 0 + a._coords 1 * b._coords 1 +
      a._coords 2 * b._coords 2 + a._coords 3 * b._coords 3 + a._coords 4 * b._coords 4 +
      a._coords 5 * b._coords 5 + a._coords 6 * b._coords 6 + a._coords 7 * b._coords 7 +
      a._coords 8 * b._coords 8 := rfl

theorem contract_eq_sum (a b : RankTwoTensorTempl K) :
    a.contract b = ∑ i, ∑ j, a.get i j * b.get i j := by
  simp only [contract_eq_coords, Fin.sum_univ_three, RankTwoTensorTempl.get, idx_0_0, idx_0_1,
    idx_0_2, idx_1_0, idx_1_1, idx_1_2, idx_2_0, idx_2_1, idx_2_2]
  ring

end RankTwoTensorTempl

namespace RankFourTensorTempl

theorem visitOrder_get (i j k l : Fin 3) :
    visitOrder[(idx4 i j k l).val]? = some (i, j, k, l) := by
  revert i j k l; decide

theorem foldl_setVal {α : Type} (g : α → K) (xs : List α) (d : RankFourTensorTempl K) (n : Nat)
    (m : Fin 81) :
    ((xs.foldl (fun st x => (st.1.setVal st.2 (g x), st.2 + 1)) (d, n)).1)._vals m =
      if n ≤ m.val then ((xs[m.val - n]?).map g).getD (d._vals m) else d._vals m := by
  induction xs generalizing d n with
  | nil => simp
  | cons x xs ih =>
    rw [List.foldl_cons, ih]
    by_cases h1 : n + 1 ≤ m.val
    · have h2 : n ≤ m.val := by omega
      have h3 : m.val - n = (m.val - (n + 1)) + 1 := by omega
      have h4 : m.val ≠ n := by omega
      simp only [h1, h2, if_true, setVal, h4, if_false]
      rw [h3, List.getElem?_cons_succ]
    · by_cases h2 : n ≤ m.val
      · have h3 : m.val = n := by omega
        simp [h1, h2, setVal, h3]
      · have h4 : m.val ≠ n := by omega
        simp [h1, h2, setVal, h4]

theorem fillIndexed_eq_foldl (f : Fin 3 → Fin 3 → Fin 3 → Fin 3 → K) :
    fillIndexed f =
      (visitOrder.foldl (fun st q => (st.1.setVal st.2 (f q.1 q.2.1 q.2.2.1 q.2.2.2), st.2 + 1))
        ((zero : RankFourTensorTempl K), 0)).1 := rfl

theorem get_fillIndexed (f : Fin 3 → Fin 3 → Fin 3 → Fin 3 → K) (i j k l : Fin 3) :
    (fillIndexed f).get i j k l = f i j k l := by
  have h := foldl_setVal (fun q : Fin 3 × Fin 3 × Fin 3 × Fin 3 => f q.1 q.2.1 q.2.2.1 q.2.2.2)
    visitOrder zero 0 (idx4 i j k l)
  rw [fillIndexed_eq_foldl, get, h]
  simp [visitOrder_get]

theorem get_addAt (d : RankFourTensorTempl K) (a b c e i j k l : Fin 3) (v : K) :
    (d.addAt a b c e v).get i j k l =
      if i = a ∧ j = b ∧ k = c ∧ l = e then d.get i j k l + v else d.get i j k l := by
  simp only [get, addAt, Function.update_apply, idx4_inj]
  split_ifs with h
  · obtain ⟨rfl, rfl, rfl, rfl⟩ := h; rfl
  · rfl

theorem get_subAt (d : RankFourTensorTempl K) (a b c e i j k l : Fin 3) (v : K) :
    (d.subAt a b c e v).get i j k l =
      if i = a ∧ j = b ∧ k = c ∧ l = e then d.get i j k l - v else d.get i j k l := by
  simp only [get, subAt, Function.update_apply, idx4_inj]
  split_ifs with h
  · obtain ⟨rfl, rfl, rfl, rfl⟩ := h; rfl
  · rfl

end RankFourTensorTempl

open RankTwoTensorTempl

theorem thirdInvariant_eq_det3 (T : RankTwoTensorTempl K) :
    T.thirdInvariant = det3 T.symmetricDeviator.get := rfl

theorem get_dthirdInvariant (T : RankTwoTensorTempl K) (i j : Fin 3) :
    T.dthirdInvariant.get i j =
      cof3 T.symmetricDeviator.get i j + if i = j then T.secondInvariant / 3 else 0 := by
  fin_cases i <;> fin_cases j <;> simp [dthirdInvariant, get_set, get_zero, cof3]

theorem get_symmetricDeviator_add_smul [CharZero K] (T H : RankTwoTensorTempl K) (eps : K) (i j : Fin 3) :
    (T.add (smul eps H)).symmetricDeviator.get i j =
      T.symmetricDeviator.get i j + eps * H.symmetricDeviator.get i j := by
  simp only [get_symmetricDeviator, get_deviatoric, tr_eq_get, get_add, get_smul]
  split_ifs <;> ring

theorem symmetricDeviator_0_0 [CharZero K] (T : RankTwoTensorTempl K) :
    T.symmetricDeviator.get 0 0 = (2 * T.get 0 0 - T.get 1 1 - T.get 2 2) / 3 := by
  simp [get_symmetricDeviator, get_deviatoric, tr_eq_get]
  ring

theorem symmetricDeviator_0_1 [CharZero K] (T : RankTwoTensorTempl K) :
    T.symmetricDeviator.get 0 1 = (T.get 0 1 + T.get 1 0) / 2 := by
  simp [get_symmetricDeviator, get_deviatoric, tr_eq_get]
  ring

theorem symmetricDeviator_0_2 [CharZero K] (T : RankTwoTensorTempl K) :
    T.symmetricDeviator.get 0 2 = (T.get 0 2 + T.get 2 0) / 2 := by
  simp [get_symmetricDeviator, get_deviatoric, tr_eq_get]
  ring

theorem symmetricDeviator_1_0 [CharZero K] (T : RankTwoTensorTempl K) :
    T.symmetricDeviator.get 1 0 = (T.get 1 0 + T.get 0 1) / 2 := by
  simp [get_symmetricDeviator, get_deviatoric, tr_eq_get]
  ring

theorem symmetricDeviator_1_1 [CharZero K] (T : RankTwoTensorTempl K) :
    T.symmetricDeviator.get 1 1 = (2 * T.get 1 1 - T.get 0 0 - T.get 2 2) / 3 := by
  simp [get_symmetricDeviator, get_deviatoric, tr_eq_get]
  ring

theorem symmetricDeviator_1_2 [CharZero K] (T : RankTwoTensorTempl K) :
    T.symmetricDeviator.get 1 2 = (T.get 1 2 + T.get 2 1) / 2 := by
  simp [get_symmetricDeviator, get_deviatoric, tr_eq_get]
  ring

theorem symmetricDeviator_2_0 [CharZero K] (T : RankTwoTensorTempl K) :
    T.symmetricDeviator.get 2 0 = (T.get 2 0 + T.get 0 2) / 2 := by
  simp [get_symmetricDeviator, get_deviatoric, tr_eq_get]
  ring

theorem symmetricDeviator_2_1 [CharZero K] (T : RankTwoTensorTempl K) :
    T.symmetricDeviator.get 2 1 = (T.get 2 1 + T.get 1 2) / 2 := by
  simp [get_symmetricDeviator, get_deviatoric, tr_eq_get]
  ring

theorem symmetricDeviator_2_2 [CharZero K] (T : RankTwoTensorTempl K) :
    T.symmetricDeviator.get 2 2 = (2 * T.get 2 2 - T.get 0 0 - T.get 1 1) / 3 := by
  simp [get_symmetricDeviator, get_deviatoric, tr_eq_get]
  ring

theorem dthirdInvariant_0_0 (T : RankTwoTensorTempl K) :
    T.dthirdInvariant.get 0 0 =
      T.symmetricDeviator.get 1 1 * T.symmetricDeviator.get 2 2 - T.symmetricDeviator.get 2 1 * T.symmetricDeviator.get 1 2 + T.secondInvariant / 3 := by
  simp [dthirdInvariant, get_set, get_zero]

theorem dthirdInvariant_0_1 (T : RankTwoTensorTempl K) :
    T.dthirdInvariant.get 0 1 =
      T.symmetricDeviator.get 2 0 * T.symmetricDeviator.get 1 2 - T.symmetricDeviator.get 1 0 * T.symmetricDeviator.get 2 2 := by
  simp [dthirdInvariant, get_set, get_zero]

theorem dthirdInvariant_0_2 (T : RankTwoTensorTempl K) :
    T.dthirdInvariant.get 0 2 =
      T.symmetricDeviator.get 1 0 * T.symmetricDeviator.get 2 1 - T.symmetricDeviator.get 2 0 * T.symmetricDeviator.get 1 1 := by
  simp [dthirdInvariant, get_set, get_zero]

theorem dthirdInvariant_1_0 (T : RankTwoTensorTempl K) :
    T.dthirdInvariant.get 1 0 =
      T.symmetricDeviator.get 2 1 * T.symmetricDeviator.get 0 2 - T.symmetricDeviator.get 0 1 * T.symmetricDeviator.get 2 2 := by
  simp [dthirdInvariant, get_set, get_zero]

theorem dthirdInvariant_1_1 (T : RankTwoTensorTempl K) :
    T.dthirdInvariant.get 1 1 =
      T.symmetricDeviator.get 0 0 * T.symmetricDeviator.get 2 2 - T.symmetricDeviator.get 2 0 * T.symmetricDeviator.get 0 2 + T.secondInvariant / 3 := by
  simp [dthirdInvariant, get_set, get_zero]

theorem dthirdInvariant_1_2 (T : RankTwoTensorTempl K) :
    T.dthirdInvariant.get 1 2 =
      T.symmetricDeviator.get 2 0 * T.symmetricDeviator.get 0 1 - T.symmetricDeviator.get 0 0 * T.symmetricDeviator.get 2 1 := by
  simp [dthirdInvariant, get_set, get_zero]

theorem dthirdInvariant_2_0 (T : RankTwoTensorTempl K) :
    T.dthirdInvariant.get 2 0 =
      T.symmetricDeviator.get 0 1 * T.symmetricDeviator.get 1 2 - T.symmetricDeviator.get 1 1 * T.symmetricDeviator.get 0 2 := by
  simp [dthirdInvariant, get_set, get_zero]

theorem dthirdInvariant_2_1 (T : RankTwoTensorTempl K) :
    T.dthirdInvariant.get 2 1 =
      T.symmetricDeviator.get 1 0 * T.symmetricDeviator.get 0 2 - T.symmetricDeviator.get 0 0 * T.symmetricDeviator.get 1 2 := by
  simp [dthirdInvariant, get_set, get_zero]

theorem dthirdInvariant_2_2 (T : RankTwoTensorTempl K) :
    T.dthirdInvariant.get 2 2 =
      T.symmetricDeviator.get 0 0 * T.symmetricDeviator.get 1 1 - T.symmetricDeviator.get 1 0 * T.symmetricDeviator.get 0 1 + T.secondInvariant / 3 := by
  simp [dthirdInvariant, get_set, get_zero]

theorem det3_add_smul (a b : Fin 3 → Fin 3 → K) (eps : K) :
    det3 (fun i j => a i j + eps * b i j) =
      det3 a + eps * (∑ i, ∑ j, cof3 a i j * b i j) + eps ^ 2 * (∑ i, ∑ j, cof3 b i j * a i j) +
        eps ^ 3 * det3 b := by
  simp only [det3, cof3, Fin.sum_univ_three, Matrix.cons_val_zero, Matrix.cons_val_one,
    Matrix.cons_val_two, Matrix.head_cons, Matrix.tail_cons]
  ring

theorem cof3_contract [CharZero K] (T H : RankTwoTensorTempl K) :
    ∑ i, ∑ j, cof3 T.symmetricDeviator.get i j * H.symmetricDeviator.get i j =
      ∑ i, ∑ j, T.dthirdInvariant.get i j * H.get i j := by
  simp only [Fin.sum_univ_three, cof3, Matrix.cons_val_zero, Matrix.cons_val_one,
    Matrix.cons_val_two, Matrix.head_cons, Matrix.tail_cons,
    dthirdInvariant_0_0, dthirdInvariant_0_1, dthirdInvariant_0_2,
    dthirdInvariant_1_0, dthirdInvariant_1_1, dthirdInvariant_1_2,
    dthirdInvariant_2_0, dthirdInvariant_2_1, dthirdInvariant_2_2,
    symmetricDeviator_0_0, symmetricDeviator_0_1, symmetricDeviator_0_2,
    symmetricDeviator_1_0, symmetricDeviator_1_1, symmetricDeviator_1_2,
    symmetricDeviator_2_0, symmetricDeviator_2_1, symmetricDeviator_2_2, secondInvariant, pow2]
  ring

theorem get_d2secondInvariant (T : RankTwoTensorTempl K) (i j k l : Fin 3) :
    T.d2secondInvariant.get i j k l =
      1 / 2 * boolToScalar (i = k) * boolToScalar (j = l) +
        1 / 2 * boolToScalar (i = l) * boolToScalar (j = k) -
        (1 / 3) * boolToScalar (i = j) * boolToScalar (k = l) := by
  rw [d2secondInvariant, RankFourTensorTempl.get_fillIndexed]

theorem d2secondInvariant_contract [CharZero K] (T H : RankTwoTensorTempl K) (i j : Fin 3) :
    ∑ k, ∑ l, T.d2secondInvariant.get i j k l * H.get k l = H.dsecondInvariant.get i j := by
  simp only [get_d2secondInvariant, Fin.sum_univ_three, dsecondInvariant, get_smul, get_add,
    get_transpose, get_deviatoric, tr_eq_get, boolToScalar]
  fin_cases i <;> fin_cases j <;> simp <;> ring

theorem symmetricDeviator_add [CharZero K] (T H : RankTwoTensorTempl K) (i j : Fin 3) :
    (T.add H).symmetricDeviator.get i j =
      T.symmetricDeviator.get i j + H.symmetricDeviator.get i j := by
  simp only [get_symmetricDeviator, get_deviatoric, tr_eq_get, get_add]
  split_ifs <;> ring

set_option maxHeartbeats 4000000 in
theorem dthirdInvariant_add [CharZero K] (T H : RankTwoTensorTempl K) (i j : Fin 3) :
    (T.add H).dthirdInvariant.get i j =
      T.dthirdInvariant.get i j + (∑ k, ∑ l, T.d2thirdInvariant.get i j k l * H.get k l) +
        H.dthirdInvariant.get i j := by
  simp only [Fin.sum_univ_three, d2thirdInvariant, RankFourTensorTempl.get_addAt,
    RankFourTensorTempl.get_subAt, RankFourTensorTempl.get_fillIndexed, boolToScalar]
  fin_cases i <;> fin_cases j <;>
    simp [dthirdInvariant_0_0, dthirdInvariant_0_1, dthirdInvariant_0_2, dthirdInvariant_1_0,
      dthirdInvariant_1_1, dthirdInvariant_1_2, dthirdInvariant_2_0, dthirdInvariant_2_1,
      dthirdInvariant_2_2, symmetricDeviator_add] <;>
    simp only [symmetricDeviator_0_0, symmetricDeviator_0_1, symmetricDeviator_0_2,
      symmetricDeviator_1_0, symmetricDeviator_1_1, symmetricDeviator_1_2,
      symmetricDeviator_2_0, symmetricDeviator_2_1, symmetricDeviator_2_2, secondInvariant,
      pow2, get_add] <;>
    ring

theorem get_rotate (T R : RankTwoTensorTempl K) (i j : Fin 3) :
    (T.rotate R).get i j = ∑ k, ∑ l, R.get i k * R.get j l * T.get k l := by
  have hcopy : ∀ (a b : RankTwoTensorTempl K),
      (List.finRange 9).foldl (fun self n => self.setCoord n (b._coords n)) a = b := by
    intro a b
    apply ext_coords
    intro n
    fin_cases n <;> simp [finRange9, setCoord]
  rw [rotate, hcopy]
  fin_cases i <;> fin_cases j <;>
    simp [finRange3, get_setCoord, get_zero, Fin.sum_univ_three] <;>
    simp only [RankTwoTensorTempl.get] <;> ring

theorem toMatrix_apply (T : RankTwoTensorTempl K) (i j : Fin 3) : toMatrix T i j = T.get i j := rfl

theorem toMatrix_transpose (T : RankTwoTensorTempl K) :
    toMatrix T.transpose = (toMatrix T).transpose := by
  ext i j
  simp only [toMatrix_apply, Matrix.transpose_apply, get_transpose]

theorem toMatrix_mul (a b : RankTwoTensorTempl K) :
    toMatrix (a.mul b) = toMatrix a * toMatrix b := by
  ext i j
  simp only [toMatrix_apply, Matrix.mul_apply, get_mul]

theorem toMatrix_rotate (T R : RankTwoTensorTempl K) :
    toMatrix (T.rotate R) = toMatrix R * toMatrix T * (toMatrix R).transpose := by
  ext i j
  simp only [toMatrix_apply, Matrix.mul_apply, Matrix.transpose_apply, get_rotate,
    Fin.sum_univ_three]
  ring

theorem toMatrix_initIdentity : toMatrix (initIdentity : RankTwoTensorTempl K) = 1 := by
  ext i j
  fin_cases i <;> fin_cases j <;>
    simp [toMatrix_apply, initIdentity, finRange3, get_set, get_zero]

theorem toMatrix_injective {a b : RankTwoTensorTempl K} (h : toMatrix a = toMatrix b) : a = b := by
  apply ext_get
  intro i j
  have := congrFun (congrFun h i) j
  simpa [toMatrix_apply] using this

theorem tr_eq_trace (T : RankTwoTensorTempl K) : T.tr = Matrix.trace (toMatrix T) := by
  simp only [Matrix.trace, Matrix.diag_apply, Fin.sum_univ_three, toMatrix_apply, tr_eq_get]

theorem toMatrix_symmetricDeviator [CharZero K] (T : RankTwoTensorTempl K) :
    toMatrix T.symmetricDeviator =
      (1 / 2 : K) • (toMatrix T + (toMatrix T).transpose) -
        (Matrix.trace (toMatrix T) / 3) • (1 : Matrix (Fin 3) (Fin 3) K) := by
  ext i j
  rw [← tr_eq_trace]
  fin_cases i <;> fin_cases j <;>
    simp [toMatrix_apply, get_symmetricDeviator, get_deviatoric] <;> ring

theorem thirdInvariant_eq_det (T : RankTwoTensorTempl K) :
    T.thirdInvariant = Matrix.det (toMatrix T.symmetricDeviator) := by
  rw [Matrix.det_fin_three, thirdInvariant_eq_det3]
  simp only [toMatrix_apply, det3]
  ring

theorem secondInvariant_eq_trace [CharZero K] (T : RankTwoTensorTempl K) :
    T.secondInvariant =
      1 / 2 * Matrix.trace (toMatrix T.symmetricDeviator * toMatrix T.symmetricDeviator) := by
  simp only [Matrix.trace, Matrix.diag_apply, Matrix.mul_apply, Fin.sum_univ_three, toMatrix_apply,
    symmetricDeviator_0_0, symmetricDeviator_0_1, symmetricDeviator_0_2,
    symmetricDeviator_1_0, symmetricDeviator_1_1, symmetricDeviator_1_2,
    symmetricDeviator_2_0, symmetricDeviator_2_1, symmetricDeviator_2_2, secondInvariant, pow2]
  ring

theorem rotate_invariants [CharZero K] (T R : RankTwoTensorTempl K)
    (hR : R.mul R.transpose = initIdentity) :
    (T.rotate R).tr = T.tr ∧ (T.rotate R).secondInvariant = T.secondInvariant ∧
      (T.rotate R).thirdInvariant = T.thirdInvariant := by
  have h1 : toMatrix R * (toMatrix R).transpose = 1 := by
    rw [← toMatrix_transpose, ← toMatrix_mul, hR, toMatrix_initIdentity]
  have h2 : (toMatrix R).transpose * toMatrix R = 1 := Matrix.mul_eq_one_comm.mp h1
  have htr : Matrix.trace (toMatrix (T.rotate R)) = Matrix.trace (toMatrix T) := by
    rw [toMatrix_rotate, Matrix.trace_mul_comm, ← Matrix.mul_assoc, h2, Matrix.one_mul]
  have hS : toMatrix (T.rotate R).symmetricDeviator =
      toMatrix R * toMatrix T.symmetricDeviator * (toMatrix R).transpose := by
    rw [toMatrix_symmetricDeviator, toMatrix_symmetricDeviator, htr, toMatrix_rotate]
    simp only [Matrix.transpose_mul, Matrix.transpose_transpose, Matrix.mul_sub, Matrix.sub_mul,
      Matrix.mul_smul, Matrix.smul_mul, Matrix.mul_add, Matrix.add_mul, Matrix.mul_one, h1,
      Matrix.mul_assoc]
  refine ⟨?_, ?_, ?_⟩
  · rw [tr_eq_trace, tr_eq_trace, htr]
  · rw [secondInvariant_eq_trace, secondInvariant_eq_trace, hS]
    congr 1
    have : toMatrix R * toMatrix T.symmetricDeviator * (toMatrix R).transpose *
        (toMatrix R * toMatrix T.symmetricDeviator * (toMatrix R).transpose) =
        toMatrix R * (toMatrix T.symmetricDeviator * toMatrix T.symmetricDeviator) *
          (toMatrix R).transpose := by
      calc toMatrix R * toMatrix T.symmetricDeviator * (toMatrix R).transpose *
            (toMatrix R * toMatrix T.symmetricDeviator * (toMatrix R).transpose)
          = toMatrix R * toMatrix T.symmetricDeviator * ((toMatrix R).transpose * toMatrix R) *
              toMatrix T.symmetricDeviator * (toMatrix R).transpose := by
            simp only [Matrix.mul_assoc]
        _ = toMatrix R * (toMatrix T.symmetricDeviator * toMatrix T.symmetricDeviator) *
              (toMatrix R).transpose := by
            rw [h2, Matrix.mul_one]; simp only [Matrix.mul_assoc]
    rw [this, Matrix.trace_mul_comm, ← Matrix.mul_assoc, h2, Matrix.one_mul]
  · rw [thirdInvariant_eq_det, thirdInvariant_eq_det, hS, Matrix.det_mul, Matrix.det_mul,
      Matrix.det_transpose]
    have hd : Matrix.det (toMatrix R) * Matrix.det (toMatrix R) = 1 := by
      have := congrArg Matrix.det h1
      rwa [Matrix.det_mul, Matrix.det_transpose, Matrix.det_one] at this
    calc Matrix.det (toMatrix R) * Matrix.det (toMatrix T.symmetricDeviator) * Matrix.det (toMatrix R)
        = Matrix.det (toMatrix T.symmetricDeviator) * (Matrix.det (toMatrix R) * Matrix.det (toMatrix R)) := by ring
      _ = Matrix.det (toMatrix T.symmetricDeviator) := by rw [hd, mul_one]

theorem generalSecondInvariant_eq_minors (T : RankTwoTensorTempl K) :
    T.generalSecondInvariant =
      ∑ k : Fin 3, Matrix.det ((toMatrix T).submatrix k.succAbove k.succAbove) := by
  simp only [Fin.sum_univ_three, Matrix.det_fin_two, Matrix.submatrix_apply, toMatrix_apply,
    generalSecondInvariant]
  have e00 : (0 : Fin 3).succAbove (0 : Fin 2) = 1 := by decide
  have e01 : (0 : Fin 3).succAbove (1 : Fin 2) = 2 := by decide
  have e10 : (1 : Fin 3).succAbove (0 : Fin 2) = 0 := by decide
  have e11 : (1 : Fin 3).succAbove (1 : Fin 2) = 2 := by decide
  have e20 : (2 : Fin 3).succAbove (0 : Fin 2) = 0 := by decide
  have e21 : (2 : Fin 3).succAbove (1 : Fin 2) = 1 := by decide
  rw [e00, e01, e10, e11, e20, e21]
  ring

theorem charpoly_toMatrix (T : RankTwoTensorTempl K) :
    Matrix.charpoly (toMatrix T) =
      Polynomial.X ^ 3 - Polynomial.C T.tr * Polynomial.X ^ 2 +
        Polynomial.C T.generalSecondInvariant * Polynomial.X -
        Polynomial.C (Matrix.det (toMatrix T)) := by
  rw [Matrix.charpoly, Matrix.det_fin_three, Matrix.det_fin_three]
  simp only [Matrix.charmatrix_apply, toMatrix_apply, Matrix.diagonal_apply, tr_eq_get,
    generalSecondInvariant, map_add, map_sub, map_mul]
  simp
  ring

theorem generalSecondInvariant_eq_coeff (T : RankTwoTensorTempl K) :
    T.generalSecondInvariant = (Matrix.charpoly (toMatrix T)).coeff 1 := by
  rw [charpoly_toMatrix]
  simp [Polynomial.coeff_X_pow, Polynomial.coeff_X, Polynomial.coeff_C]

theorem generalSecondInvariant_eq_traces [CharZero K] (T : RankTwoTensorTempl K) :
    T.generalSecondInvariant = 1 / 2 * (T.tr ^ 2 - (T.mul T).tr) := by
  simp only [generalSecondInvariant, tr_eq_get, get_mul, Fin.sum_univ_three]
  ring

theorem secondInvariant_eq_contract_sub [CharZero K] (T : RankTwoTensorTempl K) :
    T.secondInvariant =
      1 / 2 * T.deviatoric.doubleContraction T.deviatoric -
        (pow2 (T.get 0 1 - T.get 1 0) + pow2 (T.get 0 2 - T.get 2 0) +
          pow2 (T.get 1 2 - T.get 2 1)) / 4 := by
  simp only [secondInvariant, doubleContraction, contract_eq_sum, Fin.sum_univ_three,
    get_deviatoric, tr_eq_get, pow2]
  simp
  field_simp
  ring

theorem secondInvariant_add [CharZero K] (T H : RankTwoTensorTempl K) :
    (T.add H).secondInvariant =
      T.secondInvariant + (∑ i, ∑ j, T.dsecondInvariant.get i j * H.get i j) +
        H.secondInvariant := by
  simp only [Fin.sum_univ_three, secondInvariant, dsecondInvariant, get_add, get_smul,
    get_transpose, get_deviatoric, tr_eq_get, pow2]
  simp
  field_simp
  ring

theorem construct9_eq_ofCoords (S11 S21 S31 S12 S22 S32 S13 S23 S33 : K) :
    construct9 S11 S21 S31 S12 S22 S32 S13 S23 S33 =
      ofCoords S11 S12 S13 S21 S22 S23 S31 S32 S33 := by
  apply ext_get
  intro i j
  fin_cases i <;> fin_cases j <;>
    simp [construct9, get_set, get_zero, get_ofCoords_0_0, get_ofCoords_0_1, get_ofCoords_0_2,
      get_ofCoords_1_0, get_ofCoords_1_1, get_ofCoords_1_2, get_ofCoords_2_0, get_ofCoords_2_1,
      get_ofCoords_2_2]

theorem construct6_eq_ofCoords (S11 S22 S33 S23 S13 S12 : K) :
    construct6 S11 S22 S33 S23 S13 S12 = ofCoords S11 S12 S13 S12 S22 S23 S13 S23 S33 := by
  apply ext_get
  intro i j
  fin_cases i <;> fin_cases j <;>
    simp [construct6, get_set, get_zero, get_ofCoords_0_0, get_ofCoords_0_1, get_ofCoords_0_2,
      get_ofCoords_1_0, get_ofCoords_1_1, get_ofCoords_1_2, get_ofCoords_2_0, get_ofCoords_2_1,
      get_ofCoords_2_2]

theorem fillFromInputVector_six (self : RankTwoTensorTempl K) (v0 v1 v2 v3 v4 v5 : K)
    (fm : FillMethod) (h : fm = FillMethod.autodetect ∨ fm = FillMethod.symmetric6) :
    self.fillFromInputVector [v0, v1, v2, v3, v4, v5] fm =
      Except.ok (ofCoords v0 v5 v4 v5 v1 v3 v4 v3 v2) := by
  have hc : ¬ (fm ≠ FillMethod.autodetect ∧ fm.toNat ≠ [v0, v1, v2, v3, v4, v5].length) := by
    rcases h with rfl | rfl <;> simp [FillMethod.toNat]
  rw [fillFromInputVector, if_neg hc]
  simp only
  congr 1
  apply ext_get
  intro i j
  fin_cases i <;> fin_cases j <;>
    simp [get_set, get_ofCoords_0_0, get_ofCoords_0_1, get_ofCoords_0_2,
      get_ofCoords_1_0, get_ofCoords_1_1, get_ofCoords_1_2, get_ofCoords_2_0, get_ofCoords_2_1,
      get_ofCoords_2_2]

theorem fillFromInputVector_nine (self : RankTwoTensorTempl K) (v0 v1 v2 v3 v4 v5 v6 v7 v8 : K)
    (fm : FillMethod) (h : fm = FillMethod.autodetect ∨ fm = FillMethod.general) :
    self.fillFromInputVector [v0, v1, v2, v3, v4, v5, v6, v7, v8] fm =
      Except.ok (ofCoords v0 v3 v6 v1 v4 v7 v2 v5 v8) := by
  have hc : ¬ (fm ≠ FillMethod.autodetect ∧
      fm.toNat ≠ [v0, v1, v2, v3, v4, v5, v6, v7, v8].length) := by
    rcases h with rfl | rfl <;> simp [FillMethod.toNat]
  rw [fillFromInputVector, if_neg hc]
  simp only
  congr 1
  apply ext_get
  intro i j
  fin_cases i <;> fin_cases j <;>
    simp [get_set, get_ofCoords_0_0, get_ofCoords_0_1, get_ofCoords_0_2,
      get_ofCoords_1_0, get_ofCoords_1_1, get_ofCoords_1_2, get_ofCoords_2_0, get_ofCoords_2_1,
      get_ofCoords_2_2]

theorem fillFromInputVector_one (self : RankTwoTensorTempl K) (a : K)
    (fm : FillMethod) (h : fm = FillMethod.autodetect ∨ fm = FillMethod.isotropic1) :
    self.fillFromInputVector [a] fm = Except.ok (ofCoords a 0 0 0 a 0 0 0 a) := by
  have hc : ¬ (fm ≠ FillMethod.autodetect ∧ fm.toNat ≠ [a].length) := by
    rcases h with rfl | rfl <;> simp [FillMethod.toNat]
  rw [fillFromInputVector, if_neg hc]
  simp only
  congr 1
  apply ext_get
  intro i j
  fin_cases i <;> fin_cases j <;>
    simp [get_set, get_zero, get_ofCoords_0_0, get_ofCoords_0_1, get_ofCoords_0_2,
      get_ofCoords_1_0, get_ofCoords_1_1, get_ofCoords_1_2, get_ofCoords_2_0, get_ofCoords_2_1,
      get_ofCoords_2_2]

theorem fillFromInputVector_three (self : RankTwoTensorTempl K) (a b c : K)
    (fm : FillMethod) (h : fm = FillMethod.autodetect ∨ fm = FillMethod.diagonal3) :
    self.fillFromInputVector [a, b, c] fm = Except.ok (ofCoords a 0 0 0 b 0 0 0 c) := by
  have hc : ¬ (fm ≠ FillMethod.autodetect ∧ fm.toNat ≠ [a, b, c].length) := by
    rcases h with rfl | rfl <;> simp [FillMethod.toNat]
  rw [fillFromInputVector, if_neg hc]
  simp only
  congr 1
  apply ext_get
  intro i j
  fin_cases i <;> fin_cases j <;>
    simp [get_set, get_zero, get_ofCoords_0_0, get_ofCoords_0_1, get_ofCoords_0_2,
      get_ofCoords_1_0, get_ofCoords_1_1, get_ofCoords_1_2, get_ofCoords_2_0, get_ofCoords_2_1,
      get_ofCoords_2_2]

theorem fillFromScalarVariable_one (self : RankTwoTensorTempl K) (a : K) :
    self.fillFromScalarVariable [a] = Except.ok (ofCoords a 0 0 0 0 0 0 0 0) := by
  rw [fillFromScalarVariable]
  congr 1
  apply ext_get
  intro i j
  fin_cases i <;> fin_cases j <;>
    simp [get_set, get_zero, get_ofCoords_0_0, get_ofCoords_0_1, get_ofCoords_0_2,
      get_ofCoords_1_0, get_ofCoords_1_1, get_ofCoords_1_2, get_ofCoords_2_0, get_ofCoords_2_1,
      get_ofCoords_2_2]

theorem fillFromScalarVariable_three (self : RankTwoTensorTempl K) (a b c : K) :
    self.fillFromScalarVariable [a, b, c] = Except.ok (ofCoords a c 0 c b 0 0 0 0) := by
  rw [fillFromScalarVariable]
  congr 1
  apply ext_get
  intro i j
  fin_cases i <;> fin_cases j <;>
    simp [get_set, get_zero, get_ofCoords_0_0, get_ofCoords_0_1, get_ofCoords_0_2,
      get_ofCoords_1_0, get_ofCoords_1_1, get_ofCoords_1_2, get_ofCoords_2_0, get_ofCoords_2_1,
      get_ofCoords_2_2]

theorem fillFromScalarVariable_six (self : RankTwoTensorTempl K) (v0 v1 v2 v3 v4 v5 : K) :
    self.fillFromScalarVariable [v0, v1, v2, v3, v4, v5] =
      Except.ok (ofCoords v0 v5 v4 v5 v1 v3 v4 v3 v2) := by
  rw [fillFromScalarVariable]
  congr 1
  apply ext_get
  intro i j
  fin_cases i <;> fin_cases j <;>
    simp [get_set, get_ofCoords_0_0, get_ofCoords_0_1, get_ofCoords_0_2,
      get_ofCoords_1_0, get_ofCoords_1_1, get_ofCoords_1_2, get_ofCoords_2_0, get_ofCoords_2_1,
      get_ofCoords_2_2]

theorem column_apply (T : RankTwoTensorTempl K) (c i : Fin 3) : T.column c i = T.get i c := by
  fin_cases i <;> simp [column, finRange3, Function.update]

theorem get_rotateXyPlane (cos sin : K → K) (T : RankTwoTensorTempl K) (a : K) (i j : Fin 3) :
    (T.rotateXyPlane cos sin a).2.get i j =
      if i = 0 ∧ j = 0 then
        T.get 0 0 * cos a * cos a + T.get 1 1 * sin a * sin a + 2 * T.get 0 1 * cos a * sin a
      else if i = 1 ∧ j = 1 then
        T.get 0 0 * sin a * sin a + T.get 1 1 * cos a * cos a - 2 * T.get 0 1 * cos a * sin a
      else if (i = 0 ∧ j = 1) ∨ (i = 1 ∧ j = 0) then
        (T.get 1 1 - T.get 0 0) * cos a * sin a + T.get 0 1 * (cos a * cos a - sin a * sin a)
      else T.get i j := by
  fin_cases i <;> fin_cases j <;> simp [rotateXyPlane, get_set]


theorem fillFromInputVector_error_iff (self : RankTwoTensorTempl K) (input : List K)
    (fm : FillMethod) :
    (∃ e, self.fillFromInputVector input fm = Except.error e) ↔
      ((fm ≠ FillMethod.autodetect ∧ fm.toNat ≠ input.length) ∨
        ¬ (input.length = 1 ∨ input.length = 3 ∨ input.length = 6 ∨ input.length = 9)) := by
  by_cases hc : fm ≠ FillMethod.autodetect ∧ fm.toNat ≠ input.length
  · unfold fillFromInputVector
    rw [if_pos hc]
    exact ⟨fun _ => Or.inl hc, fun _ => ⟨_, rfl⟩⟩
  · unfold fillFromInputVector
    rw [if_neg hc]
    rcases input with _ | ⟨a0, _ | ⟨a1, _ | ⟨a2, _ | ⟨a3, _ | ⟨a4, _ | ⟨a5, _ | ⟨a6, _ | ⟨a7,
      _ | ⟨a8, _ | ⟨a9, rest⟩⟩⟩⟩⟩⟩⟩⟩⟩⟩ <;> simp at hc ⊢ <;> try exact hc

theorem fillFromScalarVariable_error_iff (self : RankTwoTensorTempl K) (v : List K) :
    (∃ e, self.fillFromScalarVariable v = Except.error e) ↔
      ¬ (v.length = 1 ∨ v.length = 3 ∨ v.length = 6) := by
  unfold fillFromScalarVariable
  rcases v with _ | ⟨a0, _ | ⟨a1, _ | ⟨a2, _ | ⟨a3, _ | ⟨a4, _ | ⟨a5, _ | ⟨a6, rest⟩⟩⟩⟩⟩⟩⟩ <;>
    simp

theorem except_ok_or_error {ε α : Type} (x : Except ε α) :
    (∃ a, x = Except.ok a) ↔ ¬ ∃ e, x = Except.error e := by
  cases x <;> simp


theorem pairOrder_get (i j k l : Fin 3) :
    pairOrder[(idx4 i j k l).val]? = some (idx i j, idx k l) := by
  revert i j k l; decide

theorem outerProduct_eq_foldl (a b : RankTwoTensorTempl K) :
    a.outerProduct b =
      (pairOrder.foldl (fun st q => (st.1.setVal st.2 (a._coords q.1 * b._coords q.2), st.2 + 1))
        ((RankFourTensorTempl.zero : RankFourTensorTempl K), 0)).1 := rfl

theorem get_outerProduct (a b : RankTwoTensorTempl K) (i j k l : Fin 3) :
    (a.outerProduct b).get i j k l = a.get i j * b.get k l := by
  have h := RankFourTensorTempl.foldl_setVal
    (fun q : Fin 9 × Fin 9 => a._coords q.1 * b._coords q.2)
    pairOrder RankFourTensorTempl.zero 0 (idx4 i j k l)
  rw [outerProduct_eq_foldl, RankFourTensorTempl.get, h]
  simp [pairOrder_get, RankTwoTensorTempl.get]

theorem det_toMatrix (T : RankTwoTensorTempl K) :
    Matrix.det (toMatrix T) =
      T.get 0 0 * (T.get 2 2 * T.get 1 1 - T.get 2 1 * T.get 1 2) -
        T.get 1 0 * (T.get 2 2 * T.get 0 1 - T.get 2 1 * T.get 0 2) +
        T.get 2 0 * (T.get 1 2 * T.get 0 1 - T.get 1 1 * T.get 0 2) := by
  rw [Matrix.det_fin_three]
  simp only [toMatrix_apply]
  ring

theorem detExpansion_eq_det (T : RankTwoTensorTempl K) :
    detExpansion T = Matrix.det (toMatrix T) := (det_toMatrix T).symm

theorem tensorValueInverse_eq [DecidableEq K] (T : RankTwoTensorTempl K) :
    T.tensorValueInverse =
      if detExpansion T = 0 then Except.error MooseError.singularMatrixError
      else Except.ok (scaledCofactors T (1 / detExpansion T)) := rfl

theorem get_initIdentity (i j : Fin 3) :
    (initIdentity : RankTwoTensorTempl K).get i j = if i = j then 1 else 0 := by
  fin_cases i <;> fin_cases j <;> simp [initIdentity, finRange3, get_set, get_zero]

theorem mul_scaledCofactors (T : RankTwoTensorTempl K) (d : K) (hd : detExpansion T * d = 1) :
    T.mul (scaledCofactors T d) = initIdentity := by
  rw [detExpansion] at hd
  apply ext_get
  intro i j
  rw [get_mul, get_initIdentity]
  fin_cases i <;> fin_cases j <;>
    simp [scaledCofactors, Fin.sum_univ_three, get_ofCoords_0_0, get_ofCoords_0_1,
      get_ofCoords_0_2, get_ofCoords_1_0, get_ofCoords_1_1, get_ofCoords_1_2, get_ofCoords_2_0,
      get_ofCoords_2_1, get_ofCoords_2_2] <;>
    first | ring1 | linear_combination hd

theorem scaledCofactors_mul (T : RankTwoTensorTempl K) (d : K) (hd : detExpansion T * d = 1) :
    (scaledCofactors T d).mul T = initIdentity := by
  rw [detExpansion] at hd
  apply ext_get
  intro i j
  rw [get_mul, get_initIdentity]
  fin_cases i <;> fin_cases j <;>
    simp [scaledCofactors, Fin.sum_univ_three, get_ofCoords_0_0, get_ofCoords_0_1,
      get_ofCoords_0_2, get_ofCoords_1_0, get_ofCoords_1_1, get_ofCoords_1_2, get_ofCoords_2_0,
      get_ofCoords_2_1, get_ofCoords_2_2] <;>
    first | ring1 | linear_combination hd

theorem tensorValueInverse_mul [DecidableEq K] (T : RankTwoTensorTempl K)
    (hdet : Matrix.det (toMatrix T) ≠ 0) :
    ∃ R, T.tensorValueInverse = Except.ok R ∧ T.mul R = initIdentity ∧
      R.mul T = initIdentity := by
  have hd : detExpansion T * (1 / detExpansion T) = 1 := by
    rw [detExpansion_eq_det]
    field_simp
  have hne : detExpansion T ≠ 0 := by
    rw [detExpansion_eq_det]
    exact hdet
  refine ⟨_, ?_, mul_scaledCofactors T _ hd, scaledCofactors_mul T _ hd⟩
  rw [tensorValueInverse_eq, if_neg hne]

theorem mixedProductIkJl_eq_fillIndexed (a b : RankTwoTensorTempl K) :
    a.mixedProductIkJl b =
      RankFourTensorTempl.fillIndexed (fun i j k l => a.get i k * b.get j l) := rfl

theorem mixedProductJkIl_eq_fillIndexed (a b : RankTwoTensorTempl K) :
    a.mixedProductJkIl b =
      RankFourTensorTempl.fillIndexed (fun i j k l => a.get j k * b.get i l) := rfl

theorem RankFourTensorTempl.get_setAt (d : RankFourTensorTempl K) (a b c e i j k l : Fin 3)
    (v : K) :
    (d.setAt a b c e v).get i j k l =
      if i = a ∧ j = b ∧ k = c ∧ l = e then v else d.get i j k l := by
  simp only [RankFourTensorTempl.get, RankFourTensorTempl.setAt, Function.update_apply, idx4_inj]

theorem RankFourTensorTempl.foldl_setAt (g : Fin 3 × Fin 3 × Fin 3 × Fin 3 → K)
    (xs : List (Fin 3 × Fin 3 × Fin 3 × Fin 3)) (d : RankFourTensorTempl K) (i j k l : Fin 3) :
    (xs.foldl (fun d q => d.setAt q.1 q.2.1 q.2.2.1 q.2.2.2 (g q)) d).get i j k l =
      if (i, j, k, l) ∈ xs then g (i, j, k, l) else d.get i j k l := by
  induction xs generalizing d with
  | nil => simp
  | cons x xs ih =>
    rw [List.foldl_cons, ih]
    obtain ⟨a, b, c, e⟩ := x
    by_cases hm : (i, j, k, l) ∈ xs
    · simp [hm]
    · by_cases hx : i = a ∧ j = b ∧ k = c ∧ l = e
      · obtain ⟨rfl, rfl, rfl, rfl⟩ := hx
        simp [hm, RankFourTensorTempl.get_setAt]
      · have hne : (i, j, k, l) ≠ (a, b, c, e) := by
          intro h
          apply hx
          simp only [Prod.mk.injEq] at h
          exact h
        simp [hm, hne, RankFourTensorTempl.get_setAt, hx]

theorem RankFourTensorTempl.mem_visitOrder (i j k l : Fin 3) :
    (i, j, k, l) ∈ RankFourTensorTempl.visitOrder := by
  revert i j k l; decide

set_option maxRecDepth 100000 in
theorem mixedProductIlJk_eq_foldl (a b : RankTwoTensorTempl K) :
    a.mixedProductIlJk b =
      RankFourTensorTempl.visitOrder.foldl
        (fun d q => d.setAt q.1 q.2.1 q.2.2.1 q.2.2.2 (a.get q.1 q.2.2.2 * b.get q.2.1 q.2.2.1))
        RankFourTensorTempl.zero := rfl

theorem get_mixedProductIlJk (a b : RankTwoTensorTempl K) (i j k l : Fin 3) :
    (a.mixedProductIlJk b).get i j k l = a.get i l * b.get j k := by
  have h := RankFourTensorTempl.foldl_setAt
    (fun q : Fin 3 × Fin 3 × Fin 3 × Fin 3 => a.get q.1 q.2.2.2 * b.get q.2.1 q.2.2.1)
    RankFourTensorTempl.visitOrder RankFourTensorTempl.zero i j k l
  rw [mixedProductIlJk_eq_foldl, h, if_pos (RankFourTensorTempl.mem_visitOrder i j k l)]


theorem foldl_obs_add {S α : Type} (obs : S → K) (step : S → α → S) (c : α → K)
    (h : ∀ s x, obs (step s x) = obs s + c x) (xs : List α) (s : S) :
    obs (xs.foldl step s) = obs s + (xs.map c).sum := by
  induction xs generalizing s with
  | nil => simp
  | cons x xs ih =>
    rw [List.foldl_cons, ih, h, List.map_cons, List.sum_cons]
    ring

theorem foldl_finRange_obs_add {S : Type} {n : Nat} (obs : S → K) (step : S → Fin n → S)
    (c : Fin n → K) (h : ∀ s x, obs (step s x) = obs s + c x) (s : S) :
    obs ((List.finRange n).foldl step s) = obs s + ∑ x, c x := by
  rw [foldl_obs_add obs step c h, Fin.sum_univ_def]

theorem RankFourTensorTempl.get_addAt_eq_add (d : RankFourTensorTempl K) (a b c e i j k l : Fin 3)
    (v : K) :
    (d.addAt a b c e v).get i j k l =
      d.get i j k l +
        (if l = e then if k = c then if j = b then if i = a then v else 0 else 0 else 0
          else 0) := by
  rw [RankFourTensorTempl.get_addAt]
  split_ifs <;> simp_all

theorem RankFourTensorTempl.get_zero_entry (i j k l : Fin 3) :
    (RankFourTensorTempl.zero : RankFourTensorTempl K).get i j k l = 0 := rfl

theorem get_mixedProductIjJklm (a : RankTwoTensorTempl K) (b : RankFourTensorTempl K)
    (i k l m : Fin 3) :
    (a.mixedProductIjJklm b).get i k l m = ∑ j, a.get i j * b.get j k l m := by
  have e4 : ∀ (i' j' k' l' : Fin 3) (d : RankFourTensorTempl K),
      ((List.finRange 3).foldl (fun (result : RankFourTensorTempl K) m' =>
        result.addAt i' k' l' m' (a.get i' j' * b.get j' k' l' m')) d).get i k l m =
      d.get i k l m +
        (if l = l' then if k = k' then if i = i' then a.get i' j' * b.get j' k' l' m else 0
          else 0 else 0) := by
    intro i' j' k' l' d
    refine (foldl_finRange_obs_add (fun d : RankFourTensorTempl K => d.get i k l m)
      (fun result m' => result.addAt i' k' l' m' (a.get i' j' * b.get j' k' l' m'))
      (fun m' => if m = m' then if l = l' then if k = k' then if i = i' then
        a.get i' j' * b.get j' k' l' m' else 0 else 0 else 0 else 0)
      (fun s x => RankFourTensorTempl.get_addAt_eq_add s _ _ _ _ _ _ _ _ _) d).trans ?_
    simp [Finset.sum_ite_eq]
  have e3 : ∀ (i' j' k' : Fin 3) (d : RankFourTensorTempl K),
      ((List.finRange 3).foldl (fun result l' =>
        (List.finRange 3).foldl (fun (result : RankFourTensorTempl K) m' =>
          result.addAt i' k' l' m' (a.get i' j' * b.get j' k' l' m')) result) d).get i k l m =
      d.get i k l m +
        (if k = k' then if i = i' then a.get i' j' * b.get j' k' l m else 0 else 0) := by
    intro i' j' k' d
    refine (foldl_finRange_obs_add (fun d : RankFourTensorTempl K => d.get i k l m) _ _
      (fun s x => e4 i' j' k' x s) d).trans ?_
    simp [Finset.sum_ite_eq]
  have e2 : ∀ (i' j' : Fin 3) (d : RankFourTensorTempl K),
      ((List.finRange 3).foldl (fun result k' =>
        (List.finRange 3).foldl (fun result l' =>
          (List.finRange 3).foldl (fun (result : RankFourTensorTempl K) m' =>
            result.addAt i' k' l' m' (a.get i' j' * b.get j' k' l' m')) result) result)
        d).get i k l m =
      d.get i k l m + (if i = i' then a.get i' j' * b.get j' k l m else 0) := by
    intro i' j' d
    refine (foldl_finRange_obs_add (fun d : RankFourTensorTempl K => d.get i k l m) _ _
      (fun s x => e3 i' j' x s) d).trans ?_
    simp [Finset.sum_ite_eq]
  have e1 : ∀ (i' : Fin 3) (d : RankFourTensorTempl K),
      ((List.finRange 3).foldl (fun result j' =>
        (List.finRange 3).foldl (fun result k' =>
          (List.finRange 3).foldl (fun result l' =>
            (List.finRange 3).foldl (fun (result : RankFourTensorTempl K) m' =>
              result.addAt i' k' l' m' (a.get i' j' * b.get j' k' l' m')) result) result)
          result) d).get i k l m =
      d.get i k l m + (if i = i' then ∑ j, a.get i' j * b.get j k l m else 0) := by
    intro i' d
    refine (foldl_finRange_obs_add (fun d : RankFourTensorTempl K => d.get i k l m) _ _
      (fun s x => e2 i' x s) d).trans ?_
    split_ifs <;> simp
  refine (foldl_finRange_obs_add (fun d : RankFourTensorTempl K => d.get i k l m) _ _
    (fun s x => e1 x s) RankFourTensorTempl.zero).trans ?_
  simp [Finset.sum_ite_eq, RankFourTensorTempl.get_zero_entry]

theorem get_mixedProductJmIjkl (a : RankTwoTensorTempl K) (b : RankFourTensorTempl K)
    (i k l m : Fin 3) :
    (a.mixedProductJmIjkl b).get i k l m = ∑ j, a.get j m * b.get i j k l := by
  have e4 : ∀ (i' j' k' l' : Fin 3) (d : RankFourTensorTempl K),
      ((List.finRange 3).foldl (fun (result : RankFourTensorTempl K) m' =>
        result.addAt i' k' l' m' (a.get j' m' * b.get i' j' k' l')) d).get i k l m =
      d.get i k l m +
        (if l = l' then if k = k' then if i = i' then a.get j' m * b.get i' j' k' l' else 0
          else 0 else 0) := by
    intro i' j' k' l' d
    refine (foldl_finRange_obs_add (fun d : RankFourTensorTempl K => d.get i k l m)
      (fun result m' => result.addAt i' k' l' m' (a.get j' m' * b.get i' j' k' l'))
      (fun m' => if m = m' then if l = l' then if k = k' then if i = i' then
        a.get j' m' * b.get i' j' k' l' else 0 else 0 else 0 else 0)
      (fun s x => RankFourTensorTempl.get_addAt_eq_add s _ _ _ _ _ _ _ _ _) d).trans ?_
    simp [Finset.sum_ite_eq]
  have e3 : ∀ (i' j' k' : Fin 3) (d : RankFourTensorTempl K),
      ((List.finRange 3).foldl (fun result l' =>
        (List.finRange 3).foldl (fun (result : RankFourTensorTempl K) m' =>
          result.addAt i' k' l' m' (a.get j' m' * b.get i' j' k' l')) result) d).get i k l m =
      d.get i k l m +
        (if k = k' then if i = i' then a.get j' m * b.get i' j' k' l else 0 else 0) := by
    intro i' j' k' d
    refine (foldl_finRange_obs_add (fun d : RankFourTensorTempl K => d.get i k l m) _ _
      (fun s x => e4 i' j' k' x s) d).trans ?_
    simp [Finset.sum_ite_eq]
  have e2 : ∀ (i' j' : Fin 3) (d : RankFourTensorTempl K),
      ((List.finRange 3).foldl (fun result k' =>
        (List.finRange 3).foldl (fun result l' =>
          (List.finRange 3).foldl (fun (result : RankFourTensorTempl K) m' =>
            result.addAt i' k' l' m' (a.get j' m' * b.get i' j' k' l')) result) result)
        d).get i k l m =
      d.get i k l m + (if i = i' then a.get j' m * b.get i' j' k l else 0) := by
    intro i' j' d
    refine (foldl_finRange_obs_add (fun d : RankFourTensorTempl K => d.get i k l m) _ _
      (fun s x => e3 i' j' x s) d).trans ?_
    simp [Finset.sum_ite_eq]
  have e1 : ∀ (i' : Fin 3) (d : RankFourTensorTempl K),
      ((List.finRange 3).foldl (fun result j' =>
        (List.finRange 3).foldl (fun result k' =>
          (List.finRange 3).foldl (fun result l' =>
            (List.finRange 3).foldl (fun (result : RankFourTensorTempl K) m' =>
              result.addAt i' k' l' m' (a.get j' m' * b.get i' j' k' l')) result) result)
          result) d).get i k l m =
      d.get i k l m + (if i = i' then ∑ j, a.get j m * b.get i' j k l else 0) := by
    intro i' d
    refine (foldl_finRange_obs_add (fun d : RankFourTensorTempl K => d.get i k l m) _ _
      (fun s x => e2 i' x s) d).trans ?_
    split_ifs <;> simp
  refine (foldl_finRange_obs_add (fun d : RankFourTensorTempl K => d.get i k l m) _ _
    (fun s x => e1 x s) RankFourTensorTempl.zero).trans ?_
  simp [Finset.sum_ite_eq, RankFourTensorTempl.get_zero_entry]

theorem get_mixedProductJkIjlm (a : RankTwoTensorTempl K) (b : RankFourTensorTempl K)
    (i k l m : Fin 3) :
    (a.mixedProductJkIjlm b).get i k l m = ∑ j, a.get j k * b.get i j l m := by
  have e4 : ∀ (i' j' k' l' : Fin 3) (d : RankFourTensorTempl K),
      ((List.finRange 3).foldl (fun (result : RankFourTensorTempl K) m' =>
        result.addAt i' k' l' m' (a.get j' k' * b.get i' j' l' m')) d).get i k l m =
      d.get i k l m +
        (if l = l' then if k = k' then if i = i' then a.get j' k' * b.get i' j' l' m else 0
          else 0 else 0) := by
    intro i' j' k' l' d
    refine (foldl_finRange_obs_add (fun d : RankFourTensorTempl K => d.get i k l m)
      (fun result m' => result.addAt i' k' l' m' (a.get j' k' * b.get i' j' l' m'))
      (fun m' => if m = m' then if l = l' then if k = k' then if i = i' then
        a.get j' k' * b.get i' j' l' m' else 0 else 0 else 0 else 0)
      (fun s x => RankFourTensorTempl.get_addAt_eq_add s _ _ _ _ _ _ _ _ _) d).trans ?_
    simp [Finset.sum_ite_eq]
  have e3 : ∀ (i' j' k' : Fin 3) (d : RankFourTensorTempl K),
      ((List.finRange 3).foldl (fun result l' =>
        (List.finRange 3).foldl (fun (result : RankFourTensorTempl K) m' =>
          result.addAt i' k' l' m' (a.get j' k' * b.get i' j' l' m')) result) d).get i k l m =
      d.get i k l m +
        (if k = k' then if i = i' then a.get j' k' * b.get i' j' l m else 0 else 0) := by
    intro i' j' k' d
    refine (foldl_finRange_obs_add (fun d : RankFourTensorTempl K => d.get i k l m) _ _
      (fun s x => e4 i' j' k' x s) d).trans ?_
    simp [Finset.sum_ite_eq]
  have e2 : ∀ (i' j' : Fin 3) (d : RankFourTensorTempl K),
      ((List.finRange 3).foldl (fun result k' =>
        (List.finRange 3).foldl (fun result l' =>
          (List.finRange 3).foldl (fun (result : RankFourTensorTempl K) m' =>
            result.addAt i' k' l' m' (a.get j' k' * b.get i' j' l' m')) result) result)
        d).get i k l m =
      d.get i k l m + (if i = i' then a.get j' k * b.get i' j' l m else 0) := by
    intro i' j' d
    refine (foldl_finRange_obs_add (fun d : RankFourTensorTempl K => d.get i k l m) _ _
      (fun s x => e3 i' j' x s) d).trans ?_
    simp [Finset.sum_ite_eq]
  have e1 : ∀ (i' : Fin 3) (d : RankFourTensorTempl K),
      ((List.finRange 3).foldl (fun result j' =>
        (List.finRange 3).foldl (fun result k' =>
          (List.finRange 3).foldl (fun result l' =>
            (List.finRange 3).foldl (fun (result : RankFourTensorTempl K) m' =>
              result.addAt i' k' l' m' (a.get j' k' * b.get i' j' l' m')) result) result)
          result) d).get i k l m =
      d.get i k l m + (if i = i' then ∑ j, a.get j k * b.get i' j l m else 0) := by
    intro i' d
    refine (foldl_finRange_obs_add (fun d : RankFourTensorTempl K => d.get i k l m) _ _
      (fun s x => e2 i' x s) d).trans ?_
    split_ifs <;> simp
  refine (foldl_finRange_obs_add (fun d : RankFourTensorTempl K => d.get i k l m) _ _
    (fun s x => e1 x s) RankFourTensorTempl.zero).trans ?_
  simp [Finset.sum_ite_eq, RankFourTensorTempl.get_zero_entry]

theorem idx3_inj (a b c i j k : Fin 3) : idx3 a b c = idx3 i j k ↔ a = i ∧ b = j ∧ c = k := by
  simp only [idx3, Fin.mk.injEq, Fin.ext_iff]
  omega

theorem RankThreeTensorTempl.get3_addAt_eq_add (d : RankThreeTensorTempl K) (a b c i j k : Fin 3)
    (v : K) :
    (d.addAt a b c v).get i j k =
      d.get i j k + (if k = c then if j = b then if i = a then v else 0 else 0 else 0) := by
  simp only [RankThreeTensorTempl.get, RankThreeTensorTempl.addAt, Function.update_apply,
    idx3_inj]
  split_ifs <;> simp_all

theorem RankThreeTensorTempl.get3_zero_entry (i j k : Fin 3) :
    (RankThreeTensorTempl.zero : RankThreeTensorTempl K).get i j k = 0 := rfl

theorem get_mixedProductIjJkl (a : RankTwoTensorTempl K) (b : RankThreeTensorTempl K)
    (i k l : Fin 3) :
    (a.mixedProductIjJkl b).get i k l = ∑ j, a.get i j * b.get j k l := by
  have e3 : ∀ (i' j' k' : Fin 3) (d : RankThreeTensorTempl K),
      ((List.finRange 3).foldl (fun (result : RankThreeTensorTempl K) l' =>
        result.addAt i' k' l' (a.get i' j' * b.get j' k' l')) d).get i k l =
      d.get i k l + (if k = k' then if i = i' then a.get i' j' * b.get j' k' l else 0 else 0) := by
    intro i' j' k' d
    refine (foldl_finRange_obs_add (fun d : RankThreeTensorTempl K => d.get i k l)
      (fun result l' => result.addAt i' k' l' (a.get i' j' * b.get j' k' l'))
      (fun l' => if l = l' then if k = k' then if i = i' then
        a.get i' j' * b.get j' k' l' else 0 else 0 else 0)
      (fun s x => RankThreeTensorTempl.get3_addAt_eq_add s _ _ _ _ _ _ _) d).trans ?_
    simp [Finset.sum_ite_eq]
  have e2 : ∀ (i' j' : Fin 3) (d : RankThreeTensorTempl K),
      ((List.finRange 3).foldl (fun result k' =>
        (List.finRange 3).foldl (fun (result : RankThreeTensorTempl K) l' =>
          result.addAt i' k' l' (a.get i' j' * b.get j' k' l')) result) d).get i k l =
      d.get i k l + (if i = i' then a.get i' j' * b.get j' k l else 0) := by
    intro i' j' d
    refine (foldl_finRange_obs_add (fun d : RankThreeTensorTempl K => d.get i k l) _ _
      (fun s x => e3 i' j' x s) d).trans ?_
    simp [Finset.sum_ite_eq]
  have e1 : ∀ (i' : Fin 3) (d : RankThreeTensorTempl K),
      ((List.finRange 3).foldl (fun result j' =>
        (List.finRange 3).foldl (fun result k' =>
          (List.finRange 3).foldl (fun (result : RankThreeTensorTempl K) l' =>
            result.addAt i' k' l' (a.get i' j' * b.get j' k' l')) result) result) d).get i k l =
      d.get i k l + (if i = i' then ∑ j, a.get i' j * b.get j k l else 0) := by
    intro i' d
    refine (foldl_finRange_obs_add (fun d : RankThreeTensorTempl K => d.get i k l) _ _
      (fun s x => e2 i' x s) d).trans ?_
    split_ifs <;> simp
  refine (foldl_finRange_obs_add (fun d : RankThreeTensorTempl K => d.get i k l) _ _
    (fun s x => e1 x s) RankThreeTensorTempl.zero).trans ?_
  simp [Finset.sum_ite_eq, RankThreeTensorTempl.get3_zero_entry]

theorem get_mixedProductJkI (a : RankTwoTensorTempl K) (b : Fin 3 → K) (i j k : Fin 3) :
    (a.mixedProductJkI b).get i j k = a.get j k * b i := by
  have e3 : ∀ (i' j' : Fin 3) (d : RankThreeTensorTempl K),
      ((List.finRange 3).foldl (fun (result : RankThreeTensorTempl K) k' =>
        result.addAt i' j' k' (a.get j' k' * b i')) d).get i j k =
      d.get i j k + (if j = j' then if i = i' then a.get j' k * b i' else 0 else 0) := by
    intro i' j' d
    refine (foldl_finRange_obs_add (fun d : RankThreeTensorTempl K => d.get i j k)
      (fun result k' => result.addAt i' j' k' (a.get j' k' * b i'))
      (fun k' => if k = k' then if j = j' then if i = i' then
        a.get j' k' * b i' else 0 else 0 else 0)
      (fun s x => RankThreeTensorTempl.get3_addAt_eq_add s _ _ _ _ _ _ _) d).trans ?_
    simp [Finset.sum_ite_eq]
  have e2 : ∀ (i' : Fin 3) (d : RankThreeTensorTempl K),
      ((List.finRange 3).foldl (fun result j' =>
        (List.finRange 3).foldl (fun (result : RankThreeTensorTempl K) k' =>
          result.addAt i' j' k' (a.get j' k' * b i')) result) d).get i j k =
      d.get i j k + (if i = i' then a.get j k * b i' else 0) := by
    intro i' d
    refine (foldl_finRange_obs_add (fun d : RankThreeTensorTempl K => d.get i j k) _ _
      (fun s x => e3 i' x s) d).trans ?_
    simp [Finset.sum_ite_eq]
  refine (foldl_finRange_obs_add (fun d : RankThreeTensorTempl K => d.get i j k) _ _
    (fun s x => e2 x s) RankThreeTensorTempl.zero).trans ?_
  simp [Finset.sum_ite_eq, RankThreeTensorTempl.get3_zero_entry]

theorem get_eigenvectorOuter (a : Fin 9 → K) (i j k : Fin 3) :
    (eigenvectorOuter a i).get j k = a (idx i j) * a (idx i k) := by
  fin_cases j <;> fin_cases k <;> rfl

theorem dsymmetricEigenvalues_fill (a : Fin 9 → K) :
    ((List.finRange 3).foldl (fun deigvals i =>
      (List.finRange 3).foldl (fun deigvals j =>
        (List.finRange 3).foldl (fun (deigvals : Fin 3 → RankTwoTensorTempl K) k =>
          Function.update deigvals i ((deigvals i).set j k (a (idx i j) * a (idx i k))))
        deigvals) deigvals) (fun _ => zero)) = eigenvectorOuter a := by
  funext i
  apply ext_get
  intro j k
  rw [get_eigenvectorOuter]
  fin_cases i <;> fin_cases j <;> fin_cases k <;>
    simp [finRange3, Function.update, get_set, get_zero]

theorem dsymmetricEigenvalues_error [DecidableEq K] (kind : ScalarKind)
    (L : CalculationType → (Fin 9 → K) → Int × (Fin 3 → K) × (Fin 9 → K))
    (T : RankTwoTensorTempl K) (e : MooseError)
    (hs : syev kind L T CalculationType.V = Except.error e) :
    dsymmetricEigenvalues kind L T = Except.error e := by
  unfold dsymmetricEigenvalues
  rw [hs]

theorem dsymmetricEigenvalues_distinct [DecidableEq K] (kind : ScalarKind)
    (L : CalculationType → (Fin 9 → K) → Int × (Fin 3 → K) × (Fin 9 → K))
    (T : RankTwoTensorTempl K) (eigvals : Fin 3 → K) (a : Fin 9 → K)
    (hs : syev kind L T CalculationType.V = Except.ok (eigvals, a))
    (h01 : eigvals 0 ≠ eigvals 1) (h02 : eigvals 0 ≠ eigvals 2) (h12 : eigvals 1 ≠ eigvals 2) :
    dsymmetricEigenvalues kind L T = Except.ok (eigvals, eigenvectorOuter a) := by
  unfold dsymmetricEigenvalues
  rw [hs]
  simp only [dsymmetricEigenvalues_fill]
  rw [if_neg (fun h => h01 h.1), if_neg h01, if_neg h02, if_neg h12]

theorem dsymmetricEigenvalues_triple [DecidableEq K] (kind : ScalarKind)
    (L : CalculationType → (Fin 9 → K) → Int × (Fin 3 → K) × (Fin 9 → K))
    (T : RankTwoTensorTempl K) (eigvals : Fin 3 → K) (a : Fin 9 → K)
    (hs : syev kind L T CalculationType.V = Except.ok (eigvals, a))
    (h01 : eigvals 0 = eigvals 1) (h02 : eigvals 0 = eigvals 2) :
    dsymmetricEigenvalues kind L T = Except.ok (eigvals, fun _ =>
      divScalar (((eigenvectorOuter a 0).add (eigenvectorOuter a 1)).add (eigenvectorOuter a 2))
        3) := by
  unfold dsymmetricEigenvalues
  rw [hs]
  simp only [dsymmetricEigenvalues_fill]
  rw [if_pos (And.intro h01 h02)]
  congr 2
  funext i
  fin_cases i <;> simp [Function.update]

theorem dsymmetricEigenvalues_pair01 [DecidableEq K] (kind : ScalarKind)
    (L : CalculationType → (Fin 9 → K) → Int × (Fin 3 → K) × (Fin 9 → K))
    (T : RankTwoTensorTempl K) (eigvals : Fin 3 → K) (a : Fin 9 → K)
    (hs : syev kind L T CalculationType.V = Except.ok (eigvals, a))
    (h01 : eigvals 0 = eigvals 1) (h02 : eigvals 0 ≠ eigvals 2) :
    dsymmetricEigenvalues kind L T = Except.ok (eigvals,
      ![divScalar ((eigenvectorOuter a 0).add (eigenvectorOuter a 1)) 2,
        divScalar ((eigenvectorOuter a 0).add (eigenvectorOuter a 1)) 2,
        eigenvectorOuter a 2]) := by
  unfold dsymmetricEigenvalues
  rw [hs]
  simp only [dsymmetricEigenvalues_fill]
  rw [if_neg (fun h => h02 h.2), if_pos h01]
  congr 2
  funext i
  fin_cases i <;> simp [Function.update]

theorem dsymmetricEigenvalues_pair02 [DecidableEq K] (kind : ScalarKind)
    (L : CalculationType → (Fin 9 → K) → Int × (Fin 3 → K) × (Fin 9 → K))
    (T : RankTwoTensorTempl K) (eigvals : Fin 3 → K) (a : Fin 9 → K)
    (hs : syev kind L T CalculationType.V = Except.ok (eigvals, a))
    (h01 : eigvals 0 ≠ eigvals 1) (h02 : eigvals 0 = eigvals 2) :
    dsymmetricEigenvalues kind L T = Except.ok (eigvals,
      ![divScalar ((eigenvectorOuter a 0).add (eigenvectorOuter a 2)) 2,
        eigenvectorOuter a 1,
        divScalar ((eigenvectorOuter a 0).add (eigenvectorOuter a 2)) 2]) := by
  unfold dsymmetricEigenvalues
  rw [hs]
  simp only [dsymmetricEigenvalues_fill]
  rw [if_neg (fun h => h01 h.1), if_neg h01, if_pos h02]
  congr 2
  funext i
  fin_cases i <;> simp [Function.update]

theorem dsymmetricEigenvalues_pair12 [DecidableEq K] (kind : ScalarKind)
    (L : CalculationType → (Fin 9 → K) → Int × (Fin 3 → K) × (Fin 9 → K))
    (T : RankTwoTensorTempl K) (eigvals : Fin 3 → K) (a : Fin 9 → K)
    (hs : syev kind L T CalculationType.V = Except.ok (eigvals, a))
    (h01 : eigvals 0 ≠ eigvals 1) (h12 : eigvals 1 = eigvals 2) :
    dsymmetricEigenvalues kind L T = Except.ok (eigvals,
      ![eigenvectorOuter a 0,
        divScalar ((eigenvectorOuter a 1).add (eigenvectorOuter a 2)) 2,
        divScalar ((eigenvectorOuter a 1).add (eigenvectorOuter a 2)) 2]) := by
  have h02 : eigvals 0 ≠ eigvals 2 := fun h => h01 (h.trans h12.symm)
  unfold dsymmetricEigenvalues
  rw [hs]
  simp only [dsymmetricEigenvalues_fill]
  rw [if_neg (fun h => h01 h.1), if_neg h01, if_neg h02, if_pos h12]
  congr 2
  funext i
  fin_cases i <;> simp [Function.update]

theorem d2symmetricEigenvalues_get [DecidableEq K] (kind : ScalarKind)
    (L : CalculationType → (Fin 9 → K) → Int × (Fin 3 → K) × (Fin 9 → K))
    (T : RankTwoTensorTempl K) (eigvals : Fin 3 → K) (eigvec : Fin 9 → K)
    (hs : syev kind L T CalculationType.V = Except.ok (eigvals, eigvec)) :
    ∃ deriv, d2symmetricEigenvalues kind L T = Except.ok deriv ∧
      ∀ alpha i j k l, (deriv alpha).get i j k l =
        ∑ beta, if eigvals alpha = eigvals beta then 0
          else d2Term eigvals (fun p q => eigvec (idx p q)) alpha beta i j k l := by
  unfold d2symmetricEigenvalues
  rw [hs]
  refine ⟨_, rfl, ?_⟩
  intro alpha i j k l
  have e6 : ∀ (al be i' j' k' l' : Fin 3) (d : Fin 3 → RankFourTensorTempl K),
      ((Function.update d al ((d al).addAt i' j' k' l'
        (d2Term eigvals (fun p q => eigvec (idx p q)) al be i' j' k' l'))) alpha).get i j k l =
      (d alpha).get i j k l +
        (if l = l' then if k = k' then if j = j' then if i = i' then if alpha = al then
          d2Term eigvals (fun p q => eigvec (idx p q)) al be i' j' k' l'
          else 0 else 0 else 0 else 0 else 0) := by
    intro al be i' j' k' l' d
    by_cases ha : alpha = al
    · subst ha
      rw [Function.update_same, RankFourTensorTempl.get_addAt_eq_add]
      simp
    · rw [Function.update_noteq ha]
      simp [ha]
  have e5 : ∀ (al be i' j' k' : Fin 3) (d : Fin 3 → RankFourTensorTempl K),
      (((List.finRange 3).foldl (fun (deriv : Fin 3 → RankFourTensorTempl K) l' =>
        Function.update deriv al ((deriv al).addAt i' j' k' l'
          (d2Term eigvals (fun p q => eigvec (idx p q)) al be i' j' k' l'))) d) alpha).get
        i j k l =
      (d alpha).get i j k l +
        (if k = k' then if j = j' then if i = i' then if alpha = al then
          d2Term eigvals (fun p q => eigvec (idx p q)) al be i' j' k' l
          else 0 else 0 else 0 else 0) := by
    intro al be i' j' k' d
    refine (foldl_finRange_obs_add
      (fun d : Fin 3 → RankFourTensorTempl K => (d alpha).get i j k l) _ _
      (fun s x => e6 al be i' j' k' x s) d).trans ?_
    simp [Finset.sum_ite_eq]
  have e4 : ∀ (al be i' j' : Fin 3) (d : Fin 3 → RankFourTensorTempl K),
      (((List.finRange 3).foldl (fun deriv k' =>
        (List.finRange 3).foldl (fun (deriv : Fin 3 → RankFourTensorTempl K) l' =>
          Function.update deriv al ((deriv al).addAt i' j' k' l'
            (d2Term eigvals (fun p q => eigvec (idx p q)) al be i' j' k' l'))) deriv) d)
        alpha).get i j k l =
      (d alpha).get i j k l +
        (if j = j' then if i = i' then if alpha = al then
          d2Term eigvals (fun p q => eigvec (idx p q)) al be i' j' k l
          else 0 else 0 else 0) := by
    intro al be i' j' d
    refine (foldl_finRange_obs_add
      (fun d : Fin 3 → RankFourTensorTempl K => (d alpha).get i j k l) _ _
      (fun s x => e5 al be i' j' x s) d).trans ?_
    simp [Finset.sum_ite_eq]
  have e3 : ∀ (al be i' : Fin 3) (d : Fin 3 → RankFourTensorTempl K),
      (((List.finRange 3).foldl (fun deriv j' =>
        (List.finRange 3).foldl (fun deriv k' =>
          (List.finRange 3).foldl (fun (deriv : Fin 3 → RankFourTensorTempl K) l' =>
            Function.update deriv al ((deriv al).addAt i' j' k' l'
              (d2Term eigvals (fun p q => eigvec (idx p q)) al be i' j' k' l'))) deriv) deriv) d)
        alpha).get i j k l =
      (d alpha).get i j k l +
        (if i = i' then if alpha = al then
          d2Term eigvals (fun p q => eigvec (idx p q)) al be i' j k l else 0 else 0) := by
    intro al be i' d
    refine (foldl_finRange_obs_add
      (fun d : Fin 3 → RankFourTensorTempl K => (d alpha).get i j k l) _ _
      (fun s x => e4 al be i' x s) d).trans ?_
    simp [Finset.sum_ite_eq]
  have e2 : ∀ (al be : Fin 3) (d : Fin 3 → RankFourTensorTempl K),
      ((if eigvals al = eigvals be then d else
        (List.finRange 3).foldl (fun deriv i' =>
          (List.finRange 3).foldl (fun deriv j' =>
            (List.finRange 3).foldl (fun deriv k' =>
              (List.finRange 3).foldl (fun (deriv : Fin 3 → RankFourTensorTempl K) l' =>
                Function.update deriv al ((deriv al).addAt i' j' k' l'
                  (d2Term eigvals (fun p q => eigvec (idx p q)) al be i' j' k' l'))) deriv)
              deriv) deriv) d) alpha).get i j k l =
      (d alpha).get i j k l +
        (if alpha = al then if eigvals al = eigvals be then 0 else
          d2Term eigvals (fun p q => eigvec (idx p q)) al be i j k l else 0) := by
    intro al be d
    by_cases he : eigvals al = eigvals be
    · simp [he]
    · rw [if_neg he]
      refine (foldl_finRange_obs_add
        (fun d : Fin 3 → RankFourTensorTempl K => (d alpha).get i j k l) _ _
        (fun s x => e3 al be x s) d).trans ?_
      simp [Finset.sum_ite_eq, he]
  have e1 : ∀ (al : Fin 3) (d : Fin 3 → RankFourTensorTempl K),
      (((List.finRange 3).foldl (fun deriv be =>
        if eigvals al = eigvals be then deriv else
        (List.finRange 3).foldl (fun deriv i' =>
          (List.finRange 3).foldl (fun deriv j' =>
            (List.finRange 3).foldl (fun deriv k' =>
              (List.finRange 3).foldl (fun (deriv : Fin 3 → RankFourTensorTempl K) l' =>
                Function.update deriv al ((deriv al).addAt i' j' k' l'
                  (d2Term eigvals (fun p q => eigvec (idx p q)) al be i' j' k' l'))) deriv)
              deriv) deriv) deriv) d) alpha).get i j k l =
      (d alpha).get i j k l +
        (if alpha = al then ∑ be, if eigvals al = eigvals be then 0 else
          d2Term eigvals (fun p q => eigvec (idx p q)) al be i j k l else 0) := by
    intro al d
    refine (foldl_finRange_obs_add
      (fun d : Fin 3 → RankFourTensorTempl K => (d alpha).get i j k l) _ _
      (fun s x => e2 al x s) d).trans ?_
    split_ifs <;> simp
  refine (foldl_finRange_obs_add
    (fun d : Fin 3 → RankFourTensorTempl K => (d alpha).get i j k l) _ _
    (fun s x => e1 x s) (fun _ => RankFourTensorTempl.zero)).trans ?_
  simp only [Finset.sum_ite_eq, Finset.mem_univ, if_true]
  show (0 : K) + _ = _
  rw [zero_add]

theorem get_divScalar (T : RankTwoTensorTempl K) (c : K) (i j : Fin 3) :
    (T.divScalar c).get i j = T.get i j / c := rfl

theorem symmetricEigenvaluesEigenvectors_fill (a : Fin 9 → K) (E0 : RankTwoTensorTempl K)
    (i j : Fin 3) :
    ((List.finRange 3).foldl (fun eigvecs i =>
      (List.finRange 3).foldl (fun (eigvecs : RankTwoTensorTempl K) j =>
        eigvecs.set j i (a (idx i j))) eigvecs) E0).get j i = a (idx i j) := by
  fin_cases i <;> fin_cases j <;> simp [finRange3, get_set]

theorem symmetricEigenvaluesEigenvectors_real
    (L : CalculationType → (Fin 9 → K) → Int × (Fin 3 → K) × (Fin 9 → K))
    (fz : K → Bool) (sz : K → K)
    (es : (Fin 3 → Fin 3 → Option K) → (Fin 3 → K) × (Fin 3 → Fin 3 → K))
    (T E0 : RankTwoTensorTempl K) (eigvals : Fin 3 → K) (a : Fin 9 → K)
    (hs : syev ScalarKind.real L T CalculationType.V = Except.ok (eigvals, a)) :
    ∃ eigvecs, symmetricEigenvaluesEigenvectors ScalarKind.real L fz sz es T E0 =
        Except.ok (eigvals, eigvecs) ∧ ∀ i j, eigvecs.get j i = a (idx i j) := by
  unfold symmetricEigenvaluesEigenvectors
  simp only [hs]
  exact ⟨_, rfl, fun i j => symmetricEigenvaluesEigenvectors_fill a E0 i j⟩

theorem eigenvectorOuter_transpose (a : Fin 9 → K) (i : Fin 3) :
    (eigenvectorOuter a i).transpose = eigenvectorOuter a i := by
  apply ext_get
  intro j k
  rw [get_transpose, get_eigenvectorOuter, get_eigenvectorOuter, mul_comm]

theorem eigenvectorOuter_mul_self (a : Fin 9 → K) (i : Fin 3)
    (hu : ∑ j, a (idx i j) * a (idx i j) = 1) :
    (eigenvectorOuter a i).mul (eigenvectorOuter a i) = eigenvectorOuter a i := by
  apply ext_get
  intro j k
  rw [get_mul]
  simp only [get_eigenvectorOuter]
  have : ∑ m, a (idx i j) * a (idx i m) * (a (idx i m) * a (idx i k)) =
      a (idx i j) * a (idx i k) * ∑ m, a (idx i m) * a (idx i m) := by
    rw [Finset.mul_sum]
    exact Finset.sum_congr rfl (fun m _ => by ring)
  rw [this, hu, mul_one]

theorem eigenvectorOuter_trace (a : Fin 9 → K) (i : Fin 3)
    (hu : ∑ j, a (idx i j) * a (idx i j) = 1) : (eigenvectorOuter a i).trace = 1 := by
  rw [trace, tr_eq_trace, Matrix.trace, ← hu]
  exact Finset.sum_congr rfl (fun m _ => get_eigenvectorOuter a i m m)

/-- Rows that are orthonormal are complete: the outer products of the three stored
eigenvectors add up to the identity. -/
theorem eigenvectorOuter_sum (a : Fin 9 → K)
    (horth : ∀ i j, ∑ m, a (idx i m) * a (idx j m) = if i = j then 1 else 0) (j k : Fin 3) :
    ∑ i, a (idx i j) * a (idx i k) = if j = k then 1 else 0 := by
  have h1 : (Matrix.of fun i j => a (idx i j)) *
      (Matrix.of fun i j => a (idx i j) : Matrix (Fin 3) (Fin 3) K).transpose = 1 := by
    ext i j
    rw [Matrix.mul_apply, Matrix.one_apply]
    exact horth i j
  have h2 := congrFun (congrFun (Matrix.mul_eq_one_comm.mp h1) j) k
  rw [Matrix.mul_apply, Matrix.one_apply] at h2
  exact h2

theorem eigenvectorOuter_mean3 (a : Fin 9 → K)
    (horth : ∀ i j, ∑ m, a (idx i m) * a (idx j m) = if i = j then 1 else 0) :
    divScalar (((eigenvectorOuter a 0).add (eigenvectorOuter a 1)).add (eigenvectorOuter a 2)) 3 =
      divScalar initIdentity 3 := by
  apply ext_get
  intro j k
  rw [get_divScalar, get_divScalar, get_add, get_add, get_initIdentity]
  simp only [get_eigenvectorOuter]
  rw [← eigenvectorOuter_sum a horth j k, Fin.sum_univ_three]

theorem assignColumnMajorMatrix_fill (T : RankTwoTensorTempl K) (r : Nat → K) (i j : Fin 3) :
    ((List.finRange 3).foldl (fun self i =>
      (List.finRange 3).foldl (fun (self : RankTwoTensorTempl K) j =>
        self.setCoord (idx i j) (r (i.val + j.val * 3))) self) T).get i j =
      r (i.val + j.val * 3) := by
  fin_cases i <;> fin_cases j <;> simp [finRange3, get_setCoord]

theorem get_construct9_identity (i j : Fin 3) :
    (construct9 (1 : K) 0 0 0 1 0 0 0 1).get i j = if i = j then 1 else 0 := by
  rw [construct9_eq_ofCoords]
  fin_cases i <;> fin_cases j <;> simp [get_ofCoords_0_0, get_ofCoords_0_1, get_ofCoords_0_2,
    get_ofCoords_1_0, get_ofCoords_1_1, get_ofCoords_1_2, get_ofCoords_2_0, get_ofCoords_2_1,
    get_ofCoords_2_2]

theorem getRUDecompositionRotation_cmat (c : RankTwoTensorTempl K) :
    ((List.finRange 3).foldl (fun cmat i =>
      (List.finRange 3).foldl (fun (cmat : Fin 9 → K) j =>
        Function.update cmat (idx i j) (c.get i j)) cmat) (fun _ => 0)) = c._coords := by
  funext n
  fin_cases n <;> simp [finRange3, Function.update, idx, RankTwoTensorTempl.get]

theorem getRUDecompositionRotation_diag (s : Fin 3 → K) (i j : Fin 3) :
    ((List.finRange 3).foldl (fun (diag : RankTwoTensorTempl K) i => diag.set i i (s i))
      zero).get i j = if i = j then s i else 0 := by
  fin_cases i <;> fin_cases j <;> simp [finRange3, get_set, get_zero]

theorem getRUDecompositionRotation_evec (cmat : Fin 9 → K) (i j : Fin 3) :
    ((List.finRange 3).foldl (fun evec i =>
      (List.finRange 3).foldl (fun (evec : RankTwoTensorTempl K) j =>
        evec.set i j (cmat (idx i j))) evec) zero).get i j = cmat (idx i j) := by
  fin_cases i <;> fin_cases j <;> simp [finRange3, get_set]

theorem toMatrix_stretchOf (sqrt : K → K) (w : Fin 3 → K) (v : Fin 9 → K) :
    toMatrix (stretchOf sqrt w v) =
      (Matrix.of fun i j => v (idx i j)).transpose *
        Matrix.diagonal (fun i => sqrt (w i)) * (Matrix.of fun i j => v (idx i j)) := by
  have hd : toMatrix ((List.finRange 3).foldl (fun (diag : RankTwoTensorTempl K) i =>
      diag.set i i (sqrt (w i))) zero) = Matrix.diagonal (fun i => sqrt (w i)) := by
    ext i j
    rw [toMatrix_apply, getRUDecompositionRotation_diag, Matrix.diagonal_apply]
  have he : toMatrix ((List.finRange 3).foldl (fun evec i =>
      (List.finRange 3).foldl (fun (evec : RankTwoTensorTempl K) j =>
        evec.set i j (v (idx i j))) evec) zero) = Matrix.of fun i j => v (idx i j) := by
    ext i j
    rw [toMatrix_apply, getRUDecompositionRotation_evec, Matrix.of_apply]
  rw [stretchOf, toMatrix_mul, toMatrix_mul, toMatrix_transpose, hd, he]

theorem get_stretchOf (sqrt : K → K) (w : Fin 3 → K) (v : Fin 9 → K) (j k : Fin 3) :
    (stretchOf sqrt w v).get j k = ∑ i, sqrt (w i) * (v (idx i j) * v (idx i k)) := by
  rw [← toMatrix_apply, toMatrix_stretchOf, Matrix.mul_apply]
  refine Finset.sum_congr rfl (fun i _ => ?_)
  rw [Matrix.mul_diagonal, Matrix.transpose_apply, Matrix.of_apply, Matrix.of_apply]
  ring

theorem getRUDecompositionRotation_real
    (L : CalculationType → (Fin 9 → K) → Int × (Fin 3 → K) × (Fin 9 → K)) (sqrt : K → K)
    (baseInverse : RankTwoTensorTempl K → Except MooseError (RankTwoTensorTempl K))
    (A : RankTwoTensorTempl K) (w : Fin 3 → K) (v : Fin 9 → K)
    (hL : L CalculationType.V (A.transpose.mul A)._coords = (0, w, v)) :
    getRUDecompositionRotation ScalarKind.real L sqrt baseInverse A =
      match baseInverse (stretchOf sqrt w v) with
      | Except.error e => Except.error e
      | Except.ok inv => Except.ok (A.mul inv) := by
  unfold getRUDecompositionRotation
  simp only [getRUDecompositionRotation_cmat, hL]
  rfl

/-- The algebra of the polar decomposition, on matrices: orthonormal eigenvectors `V` of
`C = Aᵀ A` with eigenvalues `W = D * D` make `U = Vᵀ D V` a symmetric square root of `C`. -/
theorem stretch_matrix_facts (A V D W : Matrix (Fin 3) (Fin 3) K)
    (hVV : V * V.transpose = 1) (hD : D.transpose = D) (hDD : D * D = W)
    (heig : A.transpose * A * V.transpose = V.transpose * W) :
    (V.transpose * D * V).transpose = V.transpose * D * V ∧
      (V.transpose * D * V) * (V.transpose * D * V) = A.transpose * A := by
  have hVV2 : V.transpose * V = 1 := Matrix.mul_eq_one_comm.mp hVV
  constructor
  · rw [Matrix.transpose_mul, Matrix.transpose_mul, Matrix.transpose_transpose, hD,
      Matrix.mul_assoc]
  · have hC : A.transpose * A = V.transpose * W * V := by
      rw [← heig, Matrix.mul_assoc, hVV2, Matrix.mul_one]
    rw [hC, ← hDD]
    calc V.transpose * D * V * (V.transpose * D * V)
        = V.transpose * D * (V * V.transpose) * D * V := by
          simp only [Matrix.mul_assoc]
      _ = V.transpose * (D * D) * V := by
          rw [hVV, Matrix.mul_one, Matrix.mul_assoc V.transpose D D]

theorem rotation_matrix_facts (A U R : Matrix (Fin 3) (Fin 3) K)
    (hsym : U.transpose = U) (hUU : U * U = A.transpose * A) (hUR : U * R = 1) :
    (A * R).transpose * (A * R) = 1 ∧ A * R * U = A := by
  have hRU : R * U = 1 := Matrix.mul_eq_one_comm.mp hUR
  constructor
  · have hRt : R.transpose * U = 1 := by
      rw [← hsym, ← Matrix.transpose_mul, hUR, Matrix.transpose_one]
    calc (A * R).transpose * (A * R)
        = R.transpose * (A.transpose * A) * R := by
          rw [Matrix.transpose_mul]
          simp only [Matrix.mul_assoc]
      _ = R.transpose * U * (U * R) := by
          rw [← hUU]
          simp only [Matrix.mul_assoc]
      _ = 1 := by rw [hRt, hUR, Matrix.one_mul]
  · rw [Matrix.mul_assoc, hRU, Matrix.mul_one]

theorem getRUDecompositionRotation_polar
    (L : CalculationType → (Fin 9 → K) → Int × (Fin 3 → K) × (Fin 9 → K)) (sqrt : K → K)
    (baseInverse : RankTwoTensorTempl K → Except MooseError (RankTwoTensorTempl K))
    (A : RankTwoTensorTempl K) (w : Fin 3 → K) (v : Fin 9 → K)
    (hdet : Matrix.det (toMatrix A) ≠ 0)
    (hL : L CalculationType.V (A.transpose.mul A)._coords = (0, w, v))
    (horth : ∀ i j, ∑ m, v (idx i m) * v (idx j m) = if i = j then 1 else 0)
    (heig : ∀ i j, ∑ m, (A.transpose.mul A).get j m * v (idx i m) = w i * v (idx i j))
    (hsqrt : ∀ i, sqrt (w i) * sqrt (w i) = w i)
    (hinv : ∀ M : RankTwoTensorTempl K, Matrix.det (toMatrix M) ≠ 0 →
      ∃ R, baseInverse M = Except.ok R ∧ M.mul R = initIdentity) :
    ∃ rot Uinv,
      getRUDecompositionRotation ScalarKind.real L sqrt baseInverse A = Except.ok rot ∧
      (stretchOf sqrt w v).transpose = stretchOf sqrt w v ∧
      (stretchOf sqrt w v).mul (stretchOf sqrt w v) = A.transpose.mul A ∧
      (stretchOf sqrt w v).mul Uinv = initIdentity ∧
      Uinv.mul (stretchOf sqrt w v) = initIdentity ∧
      rot = A.mul Uinv ∧
      rot.transpose.mul rot = initIdentity ∧
      rot.mul (stretchOf sqrt w v) = A := by
  have hVV : (Matrix.of fun i j => v (idx i j)) *
      (Matrix.of fun i j => v (idx i j) : Matrix (Fin 3) (Fin 3) K).transpose = 1 := by
    ext i j
    rw [Matrix.mul_apply, Matrix.one_apply]
    exact horth i j
  have hD : (Matrix.diagonal (fun i => sqrt (w i)) : Matrix (Fin 3) (Fin 3) K).transpose =
      Matrix.diagonal (fun i => sqrt (w i)) := Matrix.diagonal_transpose _
  have hDD : (Matrix.diagonal (fun i => sqrt (w i)) : Matrix (Fin 3) (Fin 3) K) *
      Matrix.diagonal (fun i => sqrt (w i)) = Matrix.diagonal w := by
    rw [Matrix.diagonal_mul_diagonal]
    exact congrArg Matrix.diagonal (funext hsqrt)
  have hE : (toMatrix A).transpose * toMatrix A *
      (Matrix.of fun i j => v (idx i j) : Matrix (Fin 3) (Fin 3) K).transpose =
      (Matrix.of fun i j => v (idx i j) : Matrix (Fin 3) (Fin 3) K).transpose *
        Matrix.diagonal w := by
    ext j i
    rw [Matrix.mul_apply, Matrix.mul_diagonal, Matrix.transpose_apply, Matrix.of_apply,
      ← toMatrix_transpose, ← toMatrix_mul, mul_comm, ← heig i j]
    rfl
  obtain ⟨hsymM, hUUM⟩ := stretch_matrix_facts (toMatrix A) _ _ _ hVV hD hDD hE
  rw [← toMatrix_stretchOf sqrt w v] at hsymM hUUM
  have hdetU : Matrix.det (toMatrix (stretchOf sqrt w v)) ≠ 0 := by
    intro h0
    have := congrArg Matrix.det hUUM
    rw [Matrix.det_mul, Matrix.det_mul, Matrix.det_transpose, h0, zero_mul] at this
    exact hdet (mul_self_eq_zero.mp this.symm)
  obtain ⟨R, hR, hUR⟩ := hinv _ hdetU
  have hURM : toMatrix (stretchOf sqrt w v) * toMatrix R = 1 := by
    rw [← toMatrix_mul, hUR, toMatrix_initIdentity]
  obtain ⟨hrot, hAU⟩ := rotation_matrix_facts (toMatrix A) _ _ hsymM hUUM hURM
  refine ⟨A.mul R, R, ?_, ?_, ?_, hUR, ?_, rfl, ?_, ?_⟩
  · rw [getRUDecompositionRotation_real L sqrt baseInverse A w v hL, hR]
  · apply toMatrix_injective
    rw [toMatrix_transpose, hsymM]
  · apply toMatrix_injective
    rw [toMatrix_mul, hUUM, toMatrix_mul, toMatrix_transpose]
  · apply toMatrix_injective
    rw [toMatrix_mul, toMatrix_initIdentity]
    exact Matrix.mul_eq_one_comm.mp hURM
  · apply toMatrix_injective
    rw [toMatrix_mul, toMatrix_transpose, toMatrix_mul, toMatrix_initIdentity]
    exact hrot
  · apply toMatrix_injective
    rw [toMatrix_mul, toMatrix_mul]
    exact hAU
theorem dsymmetricEigenvalues_ok [DecidableEq K] (kind : ScalarKind)
    (L : CalculationType → (Fin 9 → K) → Int × (Fin 3 → K) × (Fin 9 → K))
    (T : RankTwoTensorTempl K) (eigvals : Fin 3 → K) (a : Fin 9 → K)
    (hs : syev kind L T CalculationType.V = Except.ok (eigvals, a)) :
    ∃ deigvals, dsymmetricEigenvalues kind L T = Except.ok (eigvals, deigvals) := by
  unfold dsymmetricEigenvalues
  rw [hs]
  exact ⟨_, rfl⟩

theorem sampleRows_idx (i j : Fin 3) :
    sampleRows (idx i j) = (ofCoords (3 / 5) (4 / 5) 0 (-4 / 5) (3 / 5) 0 0 0 1).get i j := rfl

theorem sampleRows_orthonormal (i j : Fin 3) :
    ∑ m, sampleRows (idx i m) * sampleRows (idx j m) = if i = j then 1 else 0 := by
  fin_cases i <;> fin_cases j <;>
    simp [Fin.sum_univ_three, sampleRows_idx, get_ofCoords_0_0, get_ofCoords_0_1,
      get_ofCoords_0_2, get_ofCoords_1_0, get_ofCoords_1_1, get_ofCoords_1_2, get_ofCoords_2_0,
      get_ofCoords_2_1, get_ofCoords_2_2] <;>
    norm_num

theorem samplePolarRows_idx (i j : Fin 3) :
    samplePolarRows (idx i j) = (ofCoords (0 : ℚ) 1 0 1 0 0 0 0 1).get i j := rfl

theorem samplePolarRows_orthonormal (i j : Fin 3) :
    ∑ m, samplePolarRows (idx i m) * samplePolarRows (idx j m) = if i = j then 1 else 0 := by
  fin_cases i <;> fin_cases j <;>
    simp [Fin.sum_univ_three, samplePolarRows_idx, get_ofCoords_0_0, get_ofCoords_0_1,
      get_ofCoords_0_2, get_ofCoords_1_0, get_ofCoords_1_1, get_ofCoords_1_2, get_ofCoords_2_0,
      get_ofCoords_2_1, get_ofCoords_2_2]

theorem samplePolar_eigen (i j : Fin 3) :
    ∑ m, (samplePolar.transpose.mul samplePolar).get j m * samplePolarRows (idx i m) =
      samplePolarEigvals i * samplePolarRows (idx i j) := by
  fin_cases i <;> fin_cases j <;>
    simp [Fin.sum_univ_three, get_mul, get_transpose, samplePolar, samplePolarEigvals,
      samplePolarRows_idx, get_ofCoords_0_0, get_ofCoords_0_1,
      get_ofCoords_0_2, get_ofCoords_1_0, get_ofCoords_1_1, get_ofCoords_1_2, get_ofCoords_2_0,
      get_ofCoords_2_1, get_ofCoords_2_2] <;>
    norm_num

theorem sampleSqrt_eigvals (i : Fin 3) :
    sampleSqrt (samplePolarEigvals i) * sampleSqrt (samplePolarEigvals i) =
      samplePolarEigvals i := by
  fin_cases i <;> simp [sampleSqrt, samplePolarEigvals] <;> norm_num

theorem trimDerivative_eq (rem : Nat) (x : ADReal K) :
    ADMortarConstraint.trimDerivative rem x =
      ⟨x.value,
        ADReal.resize 0 (((List.range x.nude_indices.length).foldl (trimStep rem)
          ((x.nude_indices, x.nude_data), (0, 0))).2.2 - 0)
          ((List.range x.nude_indices.length).foldl (trimStep rem)
            ((x.nude_indices, x.nude_data), (0, 0))).1.1,
        ADReal.resize 0 (((List.range x.nude_indices.length).foldl (trimStep rem)
          ((x.nude_indices, x.nude_data), (0, 0))).2.2 - 0)
          ((List.range x.nude_indices.length).foldl (trimStep rem)
            ((x.nude_indices, x.nude_data), (0, 0))).1.2⟩ := rfl

theorem take_succ_set {α : Type} (l : List α) (m : Nat) (v : α) (h : m < l.length) :
    (l.set m v).take (m + 1) = l.take m ++ [v] := by
  induction l generalizing m with
  | nil => simp at h
  | cons a l ih =>
    cases m with
    | zero => simp
    | succ m =>
      simp only [List.set_cons_succ, List.take_succ_cons, List.cons_append, List.cons.injEq,
        true_and]
      exact ih m (by simpa using h)

theorem drop_set_lt {α : Type} (l : List α) (m r : Nat) (v : α) (h : m < r) :
    (l.set m v).drop r = l.drop r := by
  induction l generalizing m r with
  | nil => simp
  | cons a l ih =>
    cases r with
    | zero => omega
    | succ r =>
      cases m with
      | zero => simp
      | succ m =>
        simp only [List.set_cons_succ, List.drop_succ_cons]
        exact ih m r (by omega)

theorem getD_of_drop_eq {α : Type} (l l0 : List α) (r : Nat) (d : α)
    (h : l.drop r = l0.drop r) : l.getD r d = l0.getD r d := by
  have h1 : (l.drop r).head? = (l0.drop r).head? := by rw [h]
  simp only [List.head?_drop] at h1
  simp only [List.getD_eq_getElem?_getD, h1]

theorem take_zip_eq {α β : Type} (I : List α) (D : List β) (n : Nat) :
    (I.zip D).take n = (I.take n).zip (D.take n) := List.take_zipWith

theorem zip_take_succ {α β : Type} (I : List α) (D : List β) (r : Nat) (a : α) (b : β)
    (hI : r < I.length) (hD : r < D.length) :
    (I.zip D).take (r + 1) = (I.zip D).take r ++ [(I.getD r a, D.getD r b)] := by
  have hz : r < (I.zip D).length := by simp [hI, hD]
  rw [List.take_succ, List.getElem?_eq_getElem hz]
  simp [List.getD_eq_getElem?_getD, List.getElem?_eq_getElem hI, List.getElem?_eq_getElem hD]

/-- The loop invariant of `trimDerivative` after `r` passes. -/
theorem trimLoop_invariant (rem : Nat) (I0 : List Nat) (D0 : List K)
    (hlen : I0.length = D0.length) (r : Nat) (hr : r ≤ I0.length) :
    let st := (List.range r).foldl (trimStep rem) ((I0, D0), (0, 0))
    st.1.1.length = I0.length ∧ st.1.2.length = D0.length ∧
      st.2.1 = st.2.2 ∧ st.2.2 = (keptPairs rem (I0.take r) (D0.take r)).length ∧
      st.2.2 ≤ r ∧
      st.1.1.take st.2.1 = (keptPairs rem (I0.take r) (D0.take r)).map Prod.fst ∧
      st.1.2.take st.2.2 = (keptPairs rem (I0.take r) (D0.take r)).map Prod.snd ∧
      st.1.1.drop r = I0.drop r ∧ st.1.2.drop r = D0.drop r := by
  induction r with
  | zero => simp [keptPairs]
  | succ r ih =>
    have ih := ih (by omega)
    simp only at ih ⊢
    rw [List.range_succ, List.foldl_append]
    generalize (List.range r).foldl (trimStep rem) ((I0, D0), (0, 0)) = st at ih ⊢
    obtain ⟨⟨I, D⟩, ⟨mi, md⟩⟩ := st
    simp only at ih
    obtain ⟨hIl, hDl, hm, hmd, hle, hIt, hDt, hId, hDd⟩ := ih
    subst hm
    have hrI : r < I0.length := by omega
    have hrD : r < D0.length := by omega
    have hkp : keptPairs rem (I0.take (r + 1)) (D0.take (r + 1)) =
        keptPairs rem (I0.take r) (D0.take r) ++
          (if I0.getD r 0 ≠ rem then [(I0.getD r 0, D0.getD r 0)] else []) := by
      simp only [keptPairs]
      rw [← take_zip_eq, ← take_zip_eq]
      rw [zip_take_succ I0 D0 r 0 0 hrI hrD, List.filter_append]
      congr 1
      generalize I0.getD r 0 = i
      generalize D0.getD r 0 = d
      by_cases hk : i = rem <;> simp [List.filter, hk]
    have hgI : I.getD r 0 = I0.getD r 0 := getD_of_drop_eq I I0 r 0 hId
    have hgD : D.getD r 0 = D0.getD r 0 := getD_of_drop_eq D D0 r 0 hDd
    simp only [List.foldl_cons, List.foldl_nil, trimStep, hgI, hgD]
    by_cases hk : I0.getD r 0 = rem
    · simp only [hk, ne_eq, not_true_eq_false, if_false] at hkp ⊢
      rw [hkp, List.append_nil]
      refine ⟨hIl, hDl, trivial, hmd, by omega, hIt, hDt, ?_, ?_⟩
      · rw [← List.drop_drop 1 r, ← List.drop_drop 1 r, hId]
      · rw [← List.drop_drop 1 r, ← List.drop_drop 1 r, hDd]
    · simp only [ne_eq, hk, not_false_eq_true, if_true] at hkp ⊢
      rw [hkp]
      refine ⟨by simp [hIl], by simp [hDl], trivial, by simp [hmd], by omega, ?_, ?_, ?_, ?_⟩
      · rw [take_succ_set I mi _ (by omega), hIt]
        simp
      · rw [take_succ_set D mi _ (by omega), hDt]
        simp
      · rw [drop_set_lt I mi (r + 1) _ (by omega), ← List.drop_drop 1 r, ← List.drop_drop 1 r,
          hId]
      · rw [drop_set_lt D mi (r + 1) _ (by omega), ← List.drop_drop 1 r, ← List.drop_drop 1 r,
          hDd]

theorem resize_of_le {α : Type} (fill : α) (n : Nat) (xs : List α) (h : n ≤ xs.length) :
    ADReal.resize fill n xs = xs.take n := by
  simp [ADReal.resize, Nat.sub_eq_zero_of_le h]

theorem trimDerivative_spec (rem : Nat) (x : ADReal K)
    (hlen : x.nude_indices.length = x.nude_data.length) :
    ADMortarConstraint.trimDerivative rem x =
      ⟨x.value, (keptPairs rem x.nude_indices x.nude_data).map Prod.fst,
        (keptPairs rem x.nude_indices x.nude_data).map Prod.snd⟩ := by
  have h := trimLoop_invariant rem x.nude_indices x.nude_data hlen x.nude_indices.length
    (Nat.le_refl _)
  have hD : List.take x.nude_indices.length x.nude_data = x.nude_data := by
    rw [hlen, List.take_length]
  simp only [List.take_length, hD] at h
  rw [trimDerivative_eq]
  generalize (List.range x.nude_indices.length).foldl (trimStep rem)
    ((x.nude_indices, x.nude_data), (0, 0)) = st at h ⊢
  obtain ⟨⟨I, D⟩, ⟨mi, md⟩⟩ := st
  simp only at h
  obtain ⟨hIl, hDl, hm, hmd, hle, hIt, hDt, -, -⟩ := h
  subst hm
  simp only [Nat.sub_zero]
  rw [resize_of_le 0 mi I (by omega), resize_of_le 0 mi D (by omega), hIt, hDt]

theorem symmetricEigenvaluesEigenvectorsAD_eq {S : Type} (fz : S → Bool) (sz : S → S)
    (es : (Fin 3 → Fin 3 → Option S) → (Fin 3 → S) × (Fin 3 → Fin 3 → S))
    (T E0 : RankTwoTensorTempl S) :
    symmetricEigenvaluesEigenvectorsAD fz sz es T E0 =
      ((es (solverInputAD fz sz T)).1,
        (List.finRange 3).foldl (fun eigvecs i =>
          (List.finRange 3).foldl (fun (eigvecs : RankTwoTensorTempl S) j =>
            ⟨Function.update eigvecs._coords (idx i j) ((es (solverInputAD fz sz T)).2 i j)⟩)
            eigvecs) E0) := rfl

theorem syev_real_eq
    (L : CalculationType → (Fin 9 → K) → Int × (Fin 3 → K) × (Fin 9 → K))
    (T : RankTwoTensorTempl K) (ct : CalculationType) :
    syev ScalarKind.real L T ct =
      if (L ct (syevInput T)).1 ≠ 0 then Except.error MooseError.syevReturnedErrorCode
      else Except.ok ((L ct (syevInput T)).2.1, (L ct (syevInput T)).2.2) := rfl

theorem solverInputAD_apply {S : Type} (fz : S → Bool) (sz : S → S)
    (T : RankTwoTensorTempl S) (i j : Fin 3) :
    solverInputAD fz sz T j i =
      if i ≤ j then
        some (if i ≠ j ∧ fz (T._coords (idx i j)) = true then sz (T._coords (idx i j))
          else T._coords (idx i j))
      else none := by
  fin_cases i <;> fin_cases j <;>
    simp [solverInputAD, finRange3, List.filter, Function.update]

theorem syevInput_apply (T : RankTwoTensorTempl K) (i j : Fin 3) :
    syevInput T (idx i j) = 1 / 2 * (T.get i j + T.get j i) := by
  fin_cases i <;> fin_cases j <;>
    simp [syevInput, finRange3, Function.update, idx]

theorem eigenvectorOuter_unit (a : Fin 9 → K)
    (horth : ∀ i j, ∑ m, a (idx i m) * a (idx j m) = if i = j then 1 else 0) (i : Fin 3) :
    a (idx i 0) * a (idx i 0) + a (idx i 1) * a (idx i 1) + a (idx i 2) * a (idx i 2) = 1 := by
  have h := horth i i
  rw [Fin.sum_univ_three, if_pos rfl] at h
  exact h

theorem eigenvectorOuter_complete (a : Fin 9 → K)
    (horth : ∀ i j, ∑ m, a (idx i m) * a (idx j m) = if i = j then 1 else 0) (j k : Fin 3) :
    a (idx 0 j) * a (idx 0 k) + a (idx 1 j) * a (idx 1 k) + a (idx 2 j) * a (idx 2 k) =
      if j = k then 1 else 0 := by
  rw [← eigenvectorOuter_sum a horth j k, Fin.sum_univ_three]

theorem sumsToIdentity_distinct (a : Fin 9 → K)
    (horth : ∀ i j, ∑ m, a (idx i m) * a (idx j m) = if i = j then 1 else 0) :
    sumsToIdentity (eigenvectorOuter a) := by
  refine ⟨?_, fun i => ⟨eigenvectorOuter_transpose a i, ?_⟩⟩
  · apply ext_get
    intro j k
    rw [get_add, get_add, get_initIdentity]
    simp only [get_eigenvectorOuter]
    exact eigenvectorOuter_complete a horth j k
  · rw [trace, tr_eq_get]
    simp only [get_eigenvectorOuter]
    exact eigenvectorOuter_unit a horth i

theorem sumsToIdentity_triple [CharZero K] (a : Fin 9 → K)
    (horth : ∀ i j, ∑ m, a (idx i m) * a (idx j m) = if i = j then 1 else 0) :
    sumsToIdentity (fun _ : Fin 3 =>
      divScalar (((eigenvectorOuter a 0).add (eigenvectorOuter a 1)).add (eigenvectorOuter a 2))
        3) := by
  rw [eigenvectorOuter_mean3 a horth]
  refine ⟨?_, fun i => ⟨?_, ?_⟩⟩
  · apply ext_get
    intro j k
    simp only [get_add, get_divScalar, get_initIdentity]
    split_ifs <;> ring
  · apply ext_get
    intro j k
    simp only [get_transpose, get_divScalar, get_initIdentity]
    by_cases e : j = k
    · subst e
      rfl
    · rw [if_neg e, if_neg (fun h => e h.symm)]
  · rw [trace, tr_eq_get]
    simp only [get_divScalar, get_initIdentity]
    simp
    ring

theorem fin3_cover : ∀ p q r : Fin 3, p ≠ q → p ≠ r → q ≠ r →
    ∀ i : Fin 3, i = p ∨ i = q ∨ i = r := by
  decide

theorem fin3_sum_perm (f : Fin 3 → K) (p q r : Fin 3) (hpq : p ≠ q) (hpr : p ≠ r)
    (hqr : q ≠ r) : f 0 + f 1 + f 2 = f p + f q + f r := by
  fin_cases p <;> fin_cases q <;> fin_cases r <;> simp at hpq hpr hqr ⊢ <;> ring

theorem sumsToIdentity_pair [CharZero K] (a : Fin 9 → K)
    (horth : ∀ i j, ∑ m, a (idx i m) * a (idx j m) = if i = j then 1 else 0)
    (p q r : Fin 3) (hpq : p ≠ q) (hpr : p ≠ r) (hqr : q ≠ r)
    (d : Fin 3 → RankTwoTensorTempl K)
    (hp : d p = divScalar ((eigenvectorOuter a p).add (eigenvectorOuter a q)) 2)
    (hq : d q = divScalar ((eigenvectorOuter a p).add (eigenvectorOuter a q)) 2)
    (hr : d r = eigenvectorOuter a r) : sumsToIdentity d := by
  have hu := eigenvectorOuter_unit a horth
  have hc := eigenvectorOuter_complete a horth
  have hall := fin3_cover p q r hpq hpr hqr
  refine ⟨?_, fun i => ⟨?_, ?_⟩⟩
  · apply ext_get
    intro j k
    rw [get_add, get_add, get_initIdentity, ← hc j k,
      fin3_sum_perm (fun m => (d m).get j k) p q r hpq hpr hqr,
      fin3_sum_perm (fun m => a (idx m j) * a (idx m k)) p q r hpq hpr hqr]
    simp only [hp, hq, hr, get_divScalar, get_add, get_eigenvectorOuter]
    ring
  · rcases hall i with rfl | rfl | rfl
    · rw [hp]
      apply ext_get
      intro j k
      simp only [get_transpose, get_divScalar, get_add, get_eigenvectorOuter]
      ring
    · rw [hq]
      apply ext_get
      intro j k
      simp only [get_transpose, get_divScalar, get_add, get_eigenvectorOuter]
      ring
    · rw [hr]
      exact eigenvectorOuter_transpose a _
  · rcases hall i with rfl | rfl | rfl
    · rw [hp, trace, tr_eq_get]
      simp only [get_divScalar, get_add, get_eigenvectorOuter]
      linear_combination (1 / 2) * hu i + (1 / 2) * hu q
    · rw [hq, trace, tr_eq_get]
      simp only [get_divScalar, get_add, get_eigenvectorOuter]
      linear_combination (1 / 2) * hu p + (1 / 2) * hu i
    · rw [hr, trace, tr_eq_get]
      simp only [get_eigenvectorOuter]
      exact hu i

theorem dsymmetricEigenvalues_sumsToIdentity [DecidableEq K] [CharZero K] (kind : ScalarKind)
    (L : CalculationType → (Fin 9 → K) → Int × (Fin 3 → K) × (Fin 9 → K))
    (T : RankTwoTensorTempl K) (eigvals : Fin 3 → K) (a : Fin 9 → K)
    (hs : syev kind L T CalculationType.V = Except.ok (eigvals, a))
    (horth : ∀ i j, ∑ m, a (idx i m) * a (idx j m) = if i = j then 1 else 0) :
    ∃ d, dsymmetricEigenvalues kind L T = Except.ok (eigvals, d) ∧ sumsToIdentity d := by
  by_cases h01 : eigvals 0 = eigvals 1
  · by_cases h02 : eigvals 0 = eigvals 2
    · exact ⟨_, dsymmetricEigenvalues_triple kind L T eigvals a hs h01 h02,
        sumsToIdentity_triple a horth⟩
    · exact ⟨_, dsymmetricEigenvalues_pair01 kind L T eigvals a hs h01 h02,
        sumsToIdentity_pair a horth 0 1 2 (by decide) (by decide) (by decide) _ rfl rfl rfl⟩
  · by_cases h02 : eigvals 0 = eigvals 2
    · exact ⟨_, dsymmetricEigenvalues_pair02 kind L T eigvals a hs h01 h02,
        sumsToIdentity_pair a horth 0 2 1 (by decide) (by decide) (by decide) _ rfl rfl rfl⟩
    · by_cases h12 : eigvals 1 = eigvals 2
      · exact ⟨_, dsymmetricEigenvalues_pair12 kind L T eigvals a hs h01 h12,
          sumsToIdentity_pair a horth 1 2 0 (by decide) (by decide) (by decide) _ rfl rfl rfl⟩
      · exact ⟨_, dsymmetricEigenvalues_distinct kind L T eigvals a hs h01 h02 h12,
          sumsToIdentity_distinct a horth⟩

theorem fillFromInputVector_receiver (s1 s2 : RankTwoTensorTempl K) (input : List K)
    (fm : FillMethod) :
    s1.fillFromInputVector input fm = s2.fillFromInputVector input fm := by
  unfold fillFromInputVector
  by_cases hc : fm ≠ FillMethod.autodetect ∧ fm.toNat ≠ input.length
  · rw [if_pos hc, if_pos hc]
  · rw [if_neg hc, if_neg hc]
    rcases input with _ | ⟨a0, _ | ⟨a1, _ | ⟨a2, _ | ⟨a3, _ | ⟨a4, _ | ⟨a5, _ | ⟨a6, _ | ⟨a7,
      _ | ⟨a8, _ | ⟨a9, rest⟩⟩⟩⟩⟩⟩⟩⟩⟩⟩ <;> try rfl
    · simp only
      congr 1
      apply ext_get
      intro i j
      fin_cases i <;> fin_cases j <;> simp [get_set]
    · simp only
      congr 1
      apply ext_get
      intro i j
      fin_cases i <;> fin_cases j <;> simp [get_set]

theorem fillFromScalarVariable_receiver (s1 s2 : RankTwoTensorTempl K) (v : List K) :
    s1.fillFromScalarVariable v = s2.fillFromScalarVariable v := by
  unfold fillFromScalarVariable
  rcases v with _ | ⟨a0, _ | ⟨a1, _ | ⟨a2, _ | ⟨a3, _ | ⟨a4, _ | ⟨a5, _ | ⟨a6, rest⟩⟩⟩⟩⟩⟩⟩ <;>
    try rfl
  simp only
  congr 1
  apply ext_get
  intro i j
  fin_cases i <;> fin_cases j <;> simp [get_set]

theorem get_ddet (T : RankTwoTensorTempl K) :
    T.ddet = ofCoords
      (T.get 1 1 * T.get 2 2 - T.get 2 1 * T.get 1 2)
      (T.get 2 0 * T.get 1 2 - T.get 1 0 * T.get 2 2)
      (T.get 1 0 * T.get 2 1 - T.get 2 0 * T.get 1 1)
      (T.get 2 1 * T.get 0 2 - T.get 0 1 * T.get 2 2)
      (T.get 0 0 * T.get 2 2 - T.get 2 0 * T.get 0 2)
      (T.get 2 0 * T.get 0 1 - T.get 0 0 * T.get 2 1)
      (T.get 0 1 * T.get 1 2 - T.get 1 1 * T.get 0 2)
      (T.get 1 0 * T.get 0 2 - T.get 0 0 * T.get 1 2)
      (T.get 0 0 * T.get 1 1 - T.get 1 0 * T.get 0 1) := by
  apply ext_get
  intro i j
  fin_cases i <;> fin_cases j <;>
    simp [ddet, get_set, get_zero, get_ofCoords_0_0, get_ofCoords_0_1, get_ofCoords_0_2,
      get_ofCoords_1_0, get_ofCoords_1_1, get_ofCoords_1_2, get_ofCoords_2_0, get_ofCoords_2_1,
      get_ofCoords_2_2]

theorem toMatrix_ddet (T : RankTwoTensorTempl K) :
    toMatrix T.ddet = (Matrix.adjugate (toMatrix T)).transpose := by
  rw [get_ddet, Matrix.adjugate_fin_three]
  ext i j
  fin_cases i <;> fin_cases j <;>
    simp [toMatrix_apply, get_ofCoords_0_0, get_ofCoords_0_1, get_ofCoords_0_2,
      get_ofCoords_1_0, get_ofCoords_1_1, get_ofCoords_1_2, get_ofCoords_2_0, get_ofCoords_2_1,
      get_ofCoords_2_2] <;> ring

theorem mul_ddet_transpose (T : RankTwoTensorTempl K) :
    T.mul T.ddet.transpose = smul (Matrix.det (toMatrix T)) initIdentity := by
  apply toMatrix_injective
  rw [toMatrix_mul, toMatrix_transpose, toMatrix_ddet, Matrix.transpose_transpose,
    Matrix.mul_adjugate]
  ext i j
  rw [toMatrix_apply, get_smul, get_initIdentity, Matrix.smul_apply, Matrix.one_apply,
    smul_eq_mul, mul_comm]

theorem det_set_add (T : RankTwoTensorTempl K) (i j : Fin 3) (eps : K) :
    Matrix.det (toMatrix (T.set i j (T.get i j + eps))) =
      Matrix.det (toMatrix T) + eps * T.ddet.get i j := by
  rw [det_toMatrix, det_toMatrix, get_ddet]
  fin_cases i <;> fin_cases j <;>
    simp [get_set, get_ofCoords_0_0, get_ofCoords_0_1, get_ofCoords_0_2,
      get_ofCoords_1_0, get_ofCoords_1_1, get_ofCoords_1_2, get_ofCoords_2_0, get_ofCoords_2_1,
      get_ofCoords_2_2] <;> ring

theorem get_dsecondInvariant (T : RankTwoTensorTempl K) (i j : Fin 3) :
    T.dsecondInvariant.get i j = 1 / 2 * (T.deviatoric.get i j + T.deviatoric.get j i) := by
  simp only [dsecondInvariant, get_smul, get_add, get_transpose]
  ring

theorem secondInvariant_eq_half_sq [CharZero K] (T : RankTwoTensorTempl K) :
    T.secondInvariant =
      1 / 2 * ∑ i, ∑ j, T.dsecondInvariant.get i j * T.dsecondInvariant.get i j := by
  simp only [Fin.sum_univ_three, get_dsecondInvariant, get_deviatoric, tr_eq_get,
    secondInvariant, pow2]
  simp
  ring

section Ordered

variable {F : Type} [LinearOrderedField F]

theorem secondInvariant_nonneg (T : RankTwoTensorTempl F) : 0 ≤ T.secondInvariant := by
  rw [secondInvariant_eq_half_sq]
  exact mul_nonneg (by norm_num)
    (Finset.sum_nonneg (fun i _ => Finset.sum_nonneg (fun j _ => mul_self_nonneg _)))

theorem secondInvariant_eq_zero_iff (T : RankTwoTensorTempl F) :
    T.secondInvariant = 0 ↔ ∀ i j, T.dsecondInvariant.get i j = 0 := by
  rw [secondInvariant_eq_half_sq]
  constructor
  · intro h i j
    have h2 : ∑ i, ∑ j, T.dsecondInvariant.get i j * T.dsecondInvariant.get i j = 0 := by
      rcases mul_eq_zero.mp h with h | h
      · norm_num at h
      · exact h
    have h3 := (Finset.sum_eq_zero_iff_of_nonneg
      (fun i _ => Finset.sum_nonneg (fun j _ => mul_self_nonneg _))).mp h2 i (Finset.mem_univ _)
    have h4 := (Finset.sum_eq_zero_iff_of_nonneg
      (fun j _ => mul_self_nonneg _)).mp h3 j (Finset.mem_univ _)
    exact mul_self_eq_zero.mp h4
  · intro h
    simp [h]

theorem dsecondInvariant_eq_zero_iff (T : RankTwoTensorTempl F) :
    (∀ i j, T.dsecondInvariant.get i j = 0) ↔
      ∃ c, ∀ i j, 1 / 2 * (T.get i j + T.get j i) = if i = j then c else 0 := by
  constructor
  · intro h
    refine ⟨T.tr / 3, fun i j => ?_⟩
    have hij := h i j
    rw [get_dsecondInvariant, get_deviatoric, get_deviatoric] at hij
    by_cases e : i = j
    · subst e
      simp only [if_true] at hij ⊢
      linear_combination hij
    · have e2 : ¬ j = i := fun h => e h.symm
      simp only [e, e2, if_false] at hij ⊢
      linear_combination hij
  · rintro ⟨c, hc⟩ i j
    have h0 := hc 0 0
    have h1 := hc 1 1
    have h2 := hc 2 2
    have hij := hc i j
    simp only [if_true] at h0 h1 h2
    rw [get_dsecondInvariant, get_deviatoric, get_deviatoric, tr_eq_get]
    by_cases e : i = j
    · subst e
      simp only [if_true] at hij ⊢
      linear_combination hij - (1 / 3) * h0 - (1 / 3) * h1 - (1 / 3) * h2
    · have e2 : ¬ j = i := fun h => e h.symm
      simp only [e, e2, if_false] at hij ⊢
      linear_combination hij

end Ordered

theorem d2Term_antisymm (eigvals : Fin 3 → K) (ev : Fin 3 → Fin 3 → K)
    (alpha beta i j k l : Fin 3) :
    d2Term eigvals ev alpha beta i j k l + d2Term eigvals ev beta alpha i j k l = 0 := by
  simp only [d2Term]
  rw [← neg_sub (eigvals alpha) (eigvals beta), div_neg]
  ring

theorem keptPairs_idem (rem : Nat) (I : List Nat) (D : List K) :
    keptPairs rem ((keptPairs rem I D).map Prod.fst) ((keptPairs rem I D).map Prod.snd) =
      keptPairs rem I D := by
  have hz : ((keptPairs rem I D).map Prod.fst).zip ((keptPairs rem I D).map Prod.snd) =
      keptPairs rem I D :=
    (@List.zip_of_prod Nat K _ _ (keptPairs rem I D) rfl rfl).symm
  rw [keptPairs, hz, keptPairs, List.filter_filter]
  simp

theorem coords_idx (T : RankTwoTensorTempl K) (i j : Fin 3) : T._coords (idx i j) = T.get i j :=
  rfl

theorem seededDual_value (T : RankTwoTensorTempl K) (i j : Fin 3) :
    ((seededDual T)._coords (idx i j)).value = T.get i j := rfl

theorem seededDual_congr (T U : RankTwoTensorTempl K) (i j : Fin 3)
    (h : T.get i j = U.get i j) :
    (seededDual T)._coords (idx i j) = (seededDual U)._coords (idx i j) := by
  show (⟨T.get i j, _, _⟩ : ADReal K) = ⟨U.get i j, _, _⟩
  rw [h]

theorem sampleSym_symmetric (i j : Fin 3) : sampleSym.get i j = sampleSym.get j i := by
  fin_cases i <;> fin_cases j <;>
    simp [sampleSym, get_ofCoords_0_0, get_ofCoords_0_1, get_ofCoords_0_2, get_ofCoords_1_0,
      get_ofCoords_1_1, get_ofCoords_1_2, get_ofCoords_2_0, get_ofCoords_2_1, get_ofCoords_2_2]

theorem sampleSym_not_fuzzy (i j : Fin 3) (h : i ≠ j) :
    sampleFuzzyZero ((seededDual sampleSym)._coords (idx i j)) = false := by
  rw [sampleFuzzyZero, seededDual_value]
  fin_cases i <;> fin_cases j <;>
    simp [sampleSym, get_ofCoords_0_1, get_ofCoords_0_2, get_ofCoords_1_0, get_ofCoords_1_2,
      get_ofCoords_2_0, get_ofCoords_2_1] at h ⊢ <;>
    norm_num [abs_of_nonneg]

theorem sampleUpper_agrees (i j : Fin 3) (h : i ≤ j) :
    (seededDual sampleSym)._coords (idx i j) = (seededDual sampleUpper)._coords (idx i j) := by
  apply seededDual_congr
  fin_cases i <;> fin_cases j <;>
    simp [sampleSym, sampleUpper, get_ofCoords_0_0, get_ofCoords_0_1, get_ofCoords_0_2,
      get_ofCoords_1_1, get_ofCoords_1_2, get_ofCoords_2_2] at h ⊢

end Helpers

/-! ## The claims -/

section Claims
variable {K : Type} [Field K]
open RankTwoTensorTempl

/-- C1, as it stands: at the tensor with a single one at `(0, 1)`, `secondInvariant()` is
`1/4` while `0.5 * D.doubleContraction(D)` is `1/2`. -/
theorem C1_secondInvariant_ne_half_contraction :
    sampleE01.secondInvariant = 1 / 4 ∧
      1 / 2 * sampleE01.deviatoric.doubleContraction sampleE01.deviatoric = 1 / 2 ∧
      sampleE01.secondInvariant ≠
        1 / 2 * sampleE01.deviatoric.doubleContraction sampleE01.deviatoric := by
  have h1 : sampleE01.secondInvariant = 1 / 4 := by
    simp only [secondInvariant, sampleE01, pow2, get_ofCoords_0_0, get_ofCoords_0_1, get_ofCoords_0_2, get_ofCoords_1_0,
      get_ofCoords_1_1, get_ofCoords_1_2, get_ofCoords_2_0, get_ofCoords_2_1, get_ofCoords_2_2]
    norm_num
  have h2 : 1 / 2 * sampleE01.deviatoric.doubleContraction sampleE01.deviatoric = 1 / 2 := by
    simp only [doubleContraction, contract_eq_sum, Fin.sum_univ_three, get_deviatoric,
      tr_eq_get, sampleE01, get_ofCoords_0_0, get_ofCoords_0_1, get_ofCoords_0_2, get_ofCoords_1_0,
      get_ofCoords_1_1, get_ofCoords_1_2, get_ofCoords_2_0, get_ofCoords_2_1, get_ofCoords_2_2]
    norm_num
  refine ⟨h1, h2, ?_⟩
  rw [h1, h2]
  norm_num

/-- C1, amended: for every tensor `T`, `secondInvariant()` is `0.5 * D.doubleContraction(D)`
(`D = T.deviatoric()`) minus a quarter of the squared differences of the three
off-diagonal pairs; for a symmetric `T` it is exactly `0.5 * D.doubleContraction(D)`. -/
theorem C1_secondInvariant_half_contraction [CharZero K] (T : RankTwoTensorTempl K) :
    T.secondInvariant =
        1 / 2 * T.deviatoric.doubleContraction T.deviatoric -
          (pow2 (T.get 0 1 - T.get 1 0) + pow2 (T.get 0 2 - T.get 2 0) +
            pow2 (T.get 1 2 - T.get 2 1)) / 4 ∧
      ((∀ i j, T.get i j = T.get j i) →
        T.secondInvariant = 1 / 2 * T.deviatoric.doubleContraction T.deviatoric) := by
  refine ⟨secondInvariant_eq_contract_sub T, fun hsym => ?_⟩
  rw [secondInvariant_eq_contract_sub T, hsym 1 0, hsym 2 0, hsym 2 1]
  simp [pow2]

theorem C1_secondInvariant_half_contraction_witness :
    (∀ i j, sampleSym.get i j = sampleSym.get j i) ∧
      sampleSym.secondInvariant =
        1 / 2 * sampleSym.deviatoric.doubleContraction sampleSym.deviatoric :=
  ⟨by intro i j; fin_cases i <;> fin_cases j <;> rfl,
   (C1_secondInvariant_half_contraction sampleSym).2
     (by intro i j; fin_cases i <;> fin_cases j <;> rfl)⟩

/-- C2: when `3` is invertible the deviatoric part has zero trace, and `deviatoric()` is the
receiver with `-(1/3) * tr` added on the diagonal and the off-diagonal entries unchanged. -/
theorem C2_deviatoric_trace_zero (T : RankTwoTensorTempl K) (h3 : (3 : K) ≠ 0) :
    T.deviatoric.trace = 0 ∧
      ∀ i j, T.deviatoric.get i j = T.get i j + if i = j then -(1 / 3) * T.trace else 0 := by
  constructor
  · simp only [trace, tr_eq_get, get_deviatoric]
    simp
    field_simp
    ring
  · intro i j
    rw [get_deviatoric, trace]
    congr 2
    ring

theorem C2_deviatoric_trace_zero_witness :
    sampleT.deviatoric.trace = 0 ∧
      ∀ i j, sampleT.deviatoric.get i j =
        sampleT.get i j + if i = j then -(1 / 3) * sampleT.trace else 0 :=
  C2_deviatoric_trace_zero sampleT (by norm_num)

/-- C3: `dsecondInvariant()` is the derivative of `secondInvariant()`: for all tensors `T`
and `H`, `secondInvariant(T + H)` is `secondInvariant(T)` plus the sum over `(i, j)` of
`dsecondInvariant(T)(i, j) * H(i, j)` plus `secondInvariant(H)`. -/
theorem C3_dsecondInvariant_is_derivative [CharZero K] (T H : RankTwoTensorTempl K) :
    (T.add H).secondInvariant =
      T.secondInvariant + (∑ i, ∑ j, T.dsecondInvariant.get i j * H.get i j) +
        H.secondInvariant :=
  secondInvariant_add T H

theorem C3_dsecondInvariant_is_derivative_witness :
    (sampleT.add sampleH).secondInvariant =
      sampleT.secondInvariant + (∑ i, ∑ j, sampleT.dsecondInvariant.get i j * sampleH.get i j) +
        sampleH.secondInvariant :=
  C3_dsecondInvariant_is_derivative sampleT sampleH

/-- C4: `dthirdInvariant()` is the derivative of `thirdInvariant()`, for symmetric and
non-symmetric tensors alike: `thirdInvariant(T + eps * H)` is a cubic polynomial in `eps`
whose coefficient of `eps` is the sum over `(i, j)` of `dthirdInvariant(T)(i, j) * H(i, j)`
(the constant term is `thirdInvariant(T)`, the `eps^2` coefficient is the sum of
`dthirdInvariant(H)(i, j) * T(i, j)` and the `eps^3` coefficient is `thirdInvariant(H)`). -/
theorem C4_dthirdInvariant_is_derivative [CharZero K] (T H : RankTwoTensorTempl K) (eps : K) :
    (T.add (smul eps H)).thirdInvariant =
      T.thirdInvariant + eps * (∑ i, ∑ j, T.dthirdInvariant.get i j * H.get i j) +
        eps ^ 2 * (∑ i, ∑ j, H.dthirdInvariant.get i j * T.get i j) +
        eps ^ 3 * H.thirdInvariant := by
  have h : (T.add (smul eps H)).symmetricDeviator.get =
      fun i j => T.symmetricDeviator.get i j + eps * H.symmetricDeviator.get i j := by
    funext i j
    exact get_symmetricDeviator_add_smul T H eps i j
  rw [thirdInvariant_eq_det3, h, det3_add_smul, cof3_contract T H, cof3_contract H T,
    thirdInvariant_eq_det3, thirdInvariant_eq_det3]

theorem C4_dthirdInvariant_is_derivative_witness :
    (sampleT.add (smul 2 sampleH)).thirdInvariant =
      sampleT.thirdInvariant +
        2 * (∑ i, ∑ j, sampleT.dthirdInvariant.get i j * sampleH.get i j) +
        2 ^ 2 * (∑ i, ∑ j, sampleH.dthirdInvariant.get i j * sampleT.get i j) +
        2 ^ 3 * sampleH.thirdInvariant :=
  C4_dthirdInvariant_is_derivative sampleT sampleH 2

/-- C5: `d2thirdInvariant()` is the derivative of `dthirdInvariant()`: for all tensors `T`,
`H` and all `(i, j)`, `dthirdInvariant(T + H)(i, j)` is `dthirdInvariant(T)(i, j)` plus the
sum over `(k, l)` of `d2thirdInvariant(T)(i, j, k, l) * H(k, l)` plus
`dthirdInvariant(H)(i, j)`; every one of the 81 entries enters this identity. -/
theorem C5_d2thirdInvariant_is_derivative [CharZero K] (T H : RankTwoTensorTempl K)
    (i j : Fin 3) :
    (T.add H).dthirdInvariant.get i j =
      T.dthirdInvariant.get i j + (∑ k, ∑ l, T.d2thirdInvariant.get i j k l * H.get k l) +
        H.dthirdInvariant.get i j := by
  have h := dthirdInvariant_add T H i j
  rw [h]

theorem C5_d2thirdInvariant_is_derivative_witness :
    (sampleT.add sampleH).dthirdInvariant.get 0 1 =
      sampleT.dthirdInvariant.get 0 1 +
        (∑ k, ∑ l, sampleT.d2thirdInvariant.get 0 1 k l * sampleH.get k l) +
        sampleH.dthirdInvariant.get 0 1 :=
  C5_d2thirdInvariant_is_derivative sampleT sampleH 0 1

/-- C6: `d2secondInvariant()` is the same rank-four tensor whatever the receiver, its entry
`(i, j, k, l)` is `0.5*[i=k][j=l] + 0.5*[i=l][j=k] - (1/3)*[i=j][k=l]`, and contracting it
with any tensor `H` over `(k, l)` gives `dsecondInvariant(H)(i, j)`. -/
theorem C6_d2secondInvariant_constant_derivative [CharZero K] (T U H : RankTwoTensorTempl K)
    (i j k l : Fin 3) :
    T.d2secondInvariant = U.d2secondInvariant ∧
      T.d2secondInvariant.get i j k l =
        1 / 2 * boolToScalar (i = k) * boolToScalar (j = l) +
          1 / 2 * boolToScalar (i = l) * boolToScalar (j = k) -
          (1 / 3) * boolToScalar (i = j) * boolToScalar (k = l) ∧
      ∑ k, ∑ l, T.d2secondInvariant.get i j k l * H.get k l = H.dsecondInvariant.get i j :=
  ⟨rfl, get_d2secondInvariant T i j k l, d2secondInvariant_contract T H i j⟩

theorem C6_d2secondInvariant_constant_derivative_witness :
    sampleT.d2secondInvariant = sampleSym.d2secondInvariant ∧
      sampleT.d2secondInvariant.get 0 1 1 0 =
        1 / 2 * boolToScalar ((0 : Fin 3) = 1) * boolToScalar ((1 : Fin 3) = 0) +
          1 / 2 * boolToScalar ((0 : Fin 3) = 0) * boolToScalar ((1 : Fin 3) = 1) -
          (1 / 3) * boolToScalar ((0 : Fin 3) = 1) * boolToScalar ((1 : Fin 3) = 0) ∧
      ∑ k, ∑ l, sampleT.d2secondInvariant.get 0 1 k l * sampleH.get k l =
        sampleH.dsecondInvariant.get 0 1 :=
  C6_d2secondInvariant_constant_derivative sampleT sampleSym sampleH 0 1 1 0

/-- C7: `thirdInvariant()` is the determinant of the symmetrised deviator
`S = 0.5 * (D + D^T)`, `D = T.deviatoric()`. -/
theorem C7_thirdInvariant_is_det (T : RankTwoTensorTempl K) :
    T.thirdInvariant =
      Matrix.det (toMatrix (smul (1 / 2) (T.deviatoric.add T.deviatoric.transpose))) := by
  have hs : T.symmetricDeviator = smul (1 / 2) (T.deviatoric.add T.deviatoric.transpose) := by
    apply ext_get
    intro i j
    simp only [get_symmetricDeviator, get_smul, get_add, get_transpose]
    ring
  rw [thirdInvariant_eq_det, hs]

/-- C8: for every tensor, `generalSecondInvariant()` is the sum of the three principal
2x2 minors, which is the coefficient of `lambda` in `det(lambda * I - T)` and equals
`0.5 * (tr(T)^2 - tr(T * T))`. -/
theorem C8_generalSecondInvariant_minors [CharZero K] (T : RankTwoTensorTempl K) :
    T.generalSecondInvariant =
        ∑ k : Fin 3, Matrix.det ((toMatrix T).submatrix k.succAbove k.succAbove) ∧
      T.generalSecondInvariant = (Matrix.charpoly (toMatrix T)).coeff 1 ∧
      T.generalSecondInvariant = 1 / 2 * (T.trace ^ 2 - (T.mul T).trace) :=
  ⟨generalSecondInvariant_eq_minors T, generalSecondInvariant_eq_coeff T,
    generalSecondInvariant_eq_traces T⟩

theorem C8_generalSecondInvariant_minors_witness :
    sampleT.generalSecondInvariant =
        ∑ k : Fin 3, Matrix.det ((toMatrix sampleT).submatrix k.succAbove k.succAbove) ∧
      sampleT.generalSecondInvariant = (Matrix.charpoly (toMatrix sampleT)).coeff 1 ∧
      sampleT.generalSecondInvariant = 1 / 2 * (sampleT.trace ^ 2 - (sampleT.mul sampleT).trace) :=
  C8_generalSecondInvariant_minors sampleT

theorem sampleR_orthogonal : sampleR.mul sampleR.transpose = initIdentity := by
  apply ext_get
  intro i j
  fin_cases i <;> fin_cases j <;>
    simp [get_mul, get_transpose, Fin.sum_univ_three, sampleR, initIdentity, finRange3, get_set,
      get_zero, get_ofCoords_0_0, get_ofCoords_0_1, get_ofCoords_0_2, get_ofCoords_1_0,
      get_ofCoords_1_1, get_ofCoords_1_2, get_ofCoords_2_0, get_ofCoords_2_1,
      get_ofCoords_2_2] <;>
    norm_num

/-- C9: for every tensor `T` (symmetric or not) and every orthogonal `R` (`R * R^T = I`),
`T.rotated(R)` has the same `trace()`, `secondInvariant()` and `thirdInvariant()` as `T`. -/
theorem C9_rotated_invariants [CharZero K] (T R : RankTwoTensorTempl K)
    (hR : R.mul R.transpose = initIdentity) :
    (T.rotated R).2.trace = T.trace ∧
      (T.rotated R).2.secondInvariant = T.secondInvariant ∧
      (T.rotated R).2.thirdInvariant = T.thirdInvariant :=
  rotate_invariants T R hR

theorem C9_rotated_invariants_witness :
    sampleR.mul sampleR.transpose = initIdentity ∧
      (sampleT.rotated sampleR).2.trace = sampleT.trace ∧
      (sampleT.rotated sampleR).2.secondInvariant = sampleT.secondInvariant ∧
      (sampleT.rotated sampleR).2.thirdInvariant = sampleT.thirdInvariant :=
  ⟨sampleR_orthogonal, C9_rotated_invariants sampleT sampleR sampleR_orthogonal⟩

/-- C10: for all tensors `T` and `R`, after `T.rotate(R)` entry `(i, j)` is the sum over
`k, l` of `R(i, k) * R(j, l) * T_old(k, l)`, that is the receiver becomes the product
`R * T_old * R^T`; `rotated(R)` returns that tensor and leaves its receiver unchanged. -/
theorem C10_rotate_is_similarity (T R : RankTwoTensorTempl K) :
    (∀ i j, (T.rotate R).get i j = ∑ k, ∑ l, R.get i k * R.get j l * T.get k l) ∧
      T.rotate R = (R.mul T).mul R.transpose ∧
      (T.rotated R).2 = T.rotate R ∧ (T.rotated R).1 = T := by
  refine ⟨get_rotate T R, ?_, rfl, rfl⟩
  apply toMatrix_injective
  rw [toMatrix_rotate, toMatrix_mul, toMatrix_mul, toMatrix_transpose]

/-- C11, as it stands: rotating the tensor with a single one at `(0, 1)` by the angle `0`
(over the reals, with the real cosine and sine) returns a tensor whose entry `(1, 0)` is `1`,
while the receiver has `0` there. -/
theorem C11_rotateXyPlane_changes_entry_10 :
    ((ofCoords (0 : ℝ) 1 0 0 0 0 0 0 0).rotateXyPlane Real.cos Real.sin 0).2.get 1 0 = 1 ∧
      (ofCoords (0 : ℝ) 1 0 0 0 0 0 0 0).get 1 0 = 0 ∧
      ((ofCoords (0 : ℝ) 1 0 0 0 0 0 0 0).rotateXyPlane Real.cos Real.sin 0).2.get 1 0 ≠
        (ofCoords (0 : ℝ) 1 0 0 0 0 0 0 0).get 1 0 := by
  have h1 : ((ofCoords (0 : ℝ) 1 0 0 0 0 0 0 0).rotateXyPlane Real.cos Real.sin 0).2.get 1 0
      = 1 := by
    rw [get_rotateXyPlane]
    simp [Real.cos_zero, Real.sin_zero, get_ofCoords_0_0, get_ofCoords_0_1, get_ofCoords_1_1]
  have h2 : (ofCoords (0 : ℝ) 1 0 0 0 0 0 0 0).get 1 0 = 0 := rfl
  refine ⟨h1, h2, ?_⟩
  rw [h1, h2]
  exact one_ne_zero

/-- C11, amended: `rotateXyPlane(a)` leaves its receiver unchanged and returns a tensor that
differs from it in no entry other than `(0, 0)`, `(1, 1)`, `(0, 1)` and `(1, 0)`: the entries
`(0, 2)`, `(1, 2)`, `(2, 0)`, `(2, 1)`, `(2, 2)` are those of the receiver, and entry `(1, 0)`
is overwritten with the new `(0, 1)` value. -/
theorem C11_rotateXyPlane_frame (cos sin : K → K) (T : RankTwoTensorTempl K) (a : K) :
    (T.rotateXyPlane cos sin a).1 = T ∧
      (T.rotateXyPlane cos sin a).2.get 0 2 = T.get 0 2 ∧
      (T.rotateXyPlane cos sin a).2.get 1 2 = T.get 1 2 ∧
      (T.rotateXyPlane cos sin a).2.get 2 0 = T.get 2 0 ∧
      (T.rotateXyPlane cos sin a).2.get 2 1 = T.get 2 1 ∧
      (T.rotateXyPlane cos sin a).2.get 2 2 = T.get 2 2 ∧
      (T.rotateXyPlane cos sin a).2.get 1 0 = (T.rotateXyPlane cos sin a).2.get 0 1 ∧
      (T.rotateXyPlane cos sin a).2.get 0 1 =
        (T.get 1 1 - T.get 0 0) * cos a * sin a +
          T.get 0 1 * (cos a * cos a - sin a * sin a) := by
  refine ⟨rfl, ?_, ?_, ?_, ?_, ?_, ?_, ?_⟩ <;> simp [get_rotateXyPlane]

/-- C12: with fill method `autodetect` or `symmetric6`, a six-element input
`[v0, .., v5]` gives the symmetric tensor with `(0,0)=v0`, `(1,1)=v1`, `(2,2)=v2`,
`(1,2)=(2,1)=v3`, `(0,2)=(2,0)=v4`, `(0,1)=(1,0)=v5`, which is the tensor built by the
six-argument constructor. -/
theorem C12_fillFromInputVector_six (self : RankTwoTensorTempl K) (v0 v1 v2 v3 v4 v5 : K)
    (fm : FillMethod) (h : fm = FillMethod.autodetect ∨ fm = FillMethod.symmetric6) :
    ∃ T, self.fillFromInputVector [v0, v1, v2, v3, v4, v5] fm = Except.ok T ∧
      T.get 0 0 = v0 ∧ T.get 1 1 = v1 ∧ T.get 2 2 = v2 ∧
      T.get 1 2 = v3 ∧ T.get 2 1 = v3 ∧ T.get 0 2 = v4 ∧ T.get 2 0 = v4 ∧
      T.get 0 1 = v5 ∧ T.get 1 0 = v5 ∧ T = construct6 v0 v1 v2 v3 v4 v5 := by
  refine ⟨_, fillFromInputVector_six self v0 v1 v2 v3 v4 v5 fm h, rfl, rfl, rfl, rfl, rfl, rfl,
    rfl, rfl, rfl, ?_⟩
  rw [construct6_eq_ofCoords]

theorem C12_fillFromInputVector_six_witness :
    ∃ T, sampleT.fillFromInputVector [1, 2, 3, 4, 5, 6] FillMethod.autodetect = Except.ok T ∧
      T.get 0 0 = 1 ∧ T.get 1 1 = 2 ∧ T.get 2 2 = 3 ∧
      T.get 1 2 = 4 ∧ T.get 2 1 = 4 ∧ T.get 0 2 = 5 ∧ T.get 2 0 = 5 ∧
      T.get 0 1 = 6 ∧ T.get 1 0 = 6 ∧ T = construct6 1 2 3 4 5 6 :=
  C12_fillFromInputVector_six sampleT 1 2 3 4 5 6 FillMethod.autodetect (Or.inl rfl)

/-- C13: with fill method `autodetect` or `general`, a nine-element input `v` is filled
column-major, entry `(i, j)` of the result being `v[i + 3 * j]`, and the result is the tensor
built by the nine-argument constructor. -/
theorem C13_fillFromInputVector_nine (self : RankTwoTensorTempl K)
    (v0 v1 v2 v3 v4 v5 v6 v7 v8 : K) (fm : FillMethod)
    (h : fm = FillMethod.autodetect ∨ fm = FillMethod.general) :
    ∃ T, self.fillFromInputVector [v0, v1, v2, v3, v4, v5, v6, v7, v8] fm = Except.ok T ∧
      (∀ i j : Fin 3,
        [v0, v1, v2, v3, v4, v5, v6, v7, v8][i.val + 3 * j.val]? = some (T.get i j)) ∧
      T = construct9 v0 v1 v2 v3 v4 v5 v6 v7 v8 := by
  refine ⟨_, fillFromInputVector_nine self v0 v1 v2 v3 v4 v5 v6 v7 v8 fm h, ?_, ?_⟩
  · intro i j
    fin_cases i <;> fin_cases j <;> rfl
  · rw [construct9_eq_ofCoords]

theorem C13_fillFromInputVector_nine_witness :
    ∃ T, sampleT.fillFromInputVector [1, 2, 3, 4, 5, 6, 7, 8, 9] FillMethod.general =
        Except.ok T ∧
      (∀ i j : Fin 3,
        [(1 : ℚ), 2, 3, 4, 5, 6, 7, 8, 9][i.val + 3 * j.val]? = some (T.get i j)) ∧
      T = construct9 1 2 3 4 5 6 7 8 9 :=
  C13_fillFromInputVector_nine sampleT 1 2 3 4 5 6 7 8 9 FillMethod.general (Or.inr rfl)

/-- C14: whatever the receiver held, a one-element input `[a]` (method `autodetect` or
`isotropic1`) gives `a` on the diagonal and `0` elsewhere, and a three-element input
`[a, b, c]` (method `autodetect` or `diagonal3`) gives `diag(a, b, c)` with `0` off the
diagonal. -/
theorem C14_fillFromInputVector_one_three (self : RankTwoTensorTempl K) (a b c : K)
    (fm1 fm3 : FillMethod) (h1 : fm1 = FillMethod.autodetect ∨ fm1 = FillMethod.isotropic1)
    (h3 : fm3 = FillMethod.autodetect ∨ fm3 = FillMethod.diagonal3) :
    (∃ T, self.fillFromInputVector [a] fm1 = Except.ok T ∧
        ∀ i j, T.get i j = if i = j then a else 0) ∧
      (∃ T, self.fillFromInputVector [a, b, c] fm3 = Except.ok T ∧
        T.get 0 0 = a ∧ T.get 1 1 = b ∧ T.get 2 2 = c ∧ ∀ i j, i ≠ j → T.get i j = 0) := by
  refine ⟨⟨_, fillFromInputVector_one self a fm1 h1, ?_⟩,
    ⟨_, fillFromInputVector_three self a b c fm3 h3, rfl, rfl, rfl, ?_⟩⟩
  · intro i j
    fin_cases i <;> fin_cases j <;>
      simp [get_ofCoords_0_0, get_ofCoords_0_1, get_ofCoords_0_2, get_ofCoords_1_0,
        get_ofCoords_1_1, get_ofCoords_1_2, get_ofCoords_2_0, get_ofCoords_2_1, get_ofCoords_2_2]
  · intro i j
    fin_cases i <;> fin_cases j <;>
      simp [get_ofCoords_0_1, get_ofCoords_0_2, get_ofCoords_1_0,
        get_ofCoords_1_2, get_ofCoords_2_0, get_ofCoords_2_1]

theorem C14_fillFromInputVector_one_three_witness :
    (∃ T, sampleT.fillFromInputVector [7] FillMethod.isotropic1 = Except.ok T ∧
        ∀ i j, T.get i j = if i = j then 7 else 0) ∧
      (∃ T, sampleT.fillFromInputVector [7, 8, 9] FillMethod.autodetect = Except.ok T ∧
        T.get 0 0 = 7 ∧ T.get 1 1 = 8 ∧ T.get 2 2 = 9 ∧ ∀ i j, i ≠ j → T.get i j = 0) :=
  C14_fillFromInputVector_one_three sampleT 7 8 9 FillMethod.isotropic1 FillMethod.autodetect
    (Or.inr rfl) (Or.inl rfl)

/-- C15: `fillFromInputVector(input, fill_method)` raises an error exactly when
(`fill_method` is not `autodetect` and its numeric value differs from `input.size()`) or
`input.size()` is none of 1, 3, 6, 9; `symmetric6` with a three-element input fails, and
`autodetect` succeeds exactly for the lengths 1, 3, 6, 9. -/
theorem C15_fillFromInputVector_error_iff (self : RankTwoTensorTempl K) (input : List K)
    (fm : FillMethod) (a b c : K) :
    ((∃ e, self.fillFromInputVector input fm = Except.error e) ↔
        ((fm ≠ FillMethod.autodetect ∧ fm.toNat ≠ input.length) ∨
          ¬ (input.length = 1 ∨ input.length = 3 ∨ input.length = 6 ∨ input.length = 9))) ∧
      (∃ e, self.fillFromInputVector [a, b, c] FillMethod.symmetric6 = Except.error e) ∧
      ((∃ T, self.fillFromInputVector input FillMethod.autodetect = Except.ok T) ↔
        (input.length = 1 ∨ input.length = 3 ∨ input.length = 6 ∨ input.length = 9)) := by
  refine ⟨fillFromInputVector_error_iff self input fm, ?_, ?_⟩
  · rw [fillFromInputVector_error_iff]
    left
    simp [FillMethod.toNat]
  · rw [except_ok_or_error, fillFromInputVector_error_iff]
    simp
    omega

/-- C16: `fillFromScalarVariable` maps a length-3 sequence `[a, b, c]` to `(0,0)=a`,
`(1,1)=b`, `(0,1)=(1,0)=c` and zero elsewhere (also at `(2,2)`), a length-1 sequence `[a]`
to `a` at `(0,0)` and zero elsewhere, and a length-6 sequence to what `fillFromInputVector`
gives on the same six values; for `c ≠ 0`, respectively `a ≠ 0`, the length-3 and length-1
results differ from those of `fillFromInputVector`. -/
theorem C16_fillFromScalarVariable_mapping (self : RankTwoTensorTempl K)
    (a b c v0 v1 v2 v3 v4 v5 : K) :
    (∃ T, self.fillFromScalarVariable [a, b, c] = Except.ok T ∧
        T.get 0 0 = a ∧ T.get 1 1 = b ∧ T.get 0 1 = c ∧ T.get 1 0 = c ∧
        T.get 0 2 = 0 ∧ T.get 1 2 = 0 ∧ T.get 2 0 = 0 ∧ T.get 2 1 = 0 ∧ T.get 2 2 = 0) ∧
      (∃ T, self.fillFromScalarVariable [a] = Except.ok T ∧
        ∀ i j, T.get i j = if i = 0 ∧ j = 0 then a else 0) ∧
      self.fillFromScalarVariable [v0, v1, v2, v3, v4, v5] =
        self.fillFromInputVector [v0, v1, v2, v3, v4, v5] FillMethod.autodetect ∧
      (c ≠ 0 → self.fillFromScalarVariable [a, b, c] ≠
        self.fillFromInputVector [a, b, c] FillMethod.autodetect) ∧
      (a ≠ 0 → self.fillFromScalarVariable [a] ≠
        self.fillFromInputVector [a] FillMethod.autodetect) := by
  refine ⟨⟨_, fillFromScalarVariable_three self a b c, rfl, rfl, rfl, rfl, rfl, rfl, rfl, rfl,
    rfl⟩, ⟨_, fillFromScalarVariable_one self a, ?_⟩, ?_, ?_, ?_⟩
  · intro i j
    fin_cases i <;> fin_cases j <;>
      simp [get_ofCoords_0_0, get_ofCoords_0_1, get_ofCoords_0_2, get_ofCoords_1_0,
        get_ofCoords_1_1, get_ofCoords_1_2, get_ofCoords_2_0, get_ofCoords_2_1, get_ofCoords_2_2]
  · rw [fillFromScalarVariable_six, fillFromInputVector_six _ _ _ _ _ _ _ _ (Or.inl rfl)]
  · intro hc heq
    rw [fillFromScalarVariable_three, fillFromInputVector_three _ _ _ _ _ (Or.inl rfl)] at heq
    have h := congrArg (fun T : RankTwoTensorTempl K => T.get 0 1) (Except.ok.inj heq)
    exact hc h
  · intro ha heq
    rw [fillFromScalarVariable_one, fillFromInputVector_one _ _ _ (Or.inl rfl)] at heq
    have h := congrArg (fun T : RankTwoTensorTempl K => T.get 1 1) (Except.ok.inj heq)
    exact ha h.symm

theorem C16_fillFromScalarVariable_mapping_witness :
    (1 : ℚ) ≠ 0 ∧ (3 : ℚ) ≠ 0 ∧
      sampleT.fillFromScalarVariable [1, 2, 3] ≠
        sampleT.fillFromInputVector [1, 2, 3] FillMethod.autodetect ∧
      sampleT.fillFromScalarVariable [1] ≠
        sampleT.fillFromInputVector [1] FillMethod.autodetect :=
  ⟨by norm_num, by norm_num,
    (C16_fillFromScalarVariable_mapping sampleT 1 2 3 0 0 0 0 0 0).2.2.2.1 (by norm_num),
    (C16_fillFromScalarVariable_mapping sampleT 1 2 3 0 0 0 0 0 0).2.2.2.2 (by norm_num)⟩

/-- C17: `fillFromScalarVariable` raises an error exactly when the length of the sequence is
not 1, 3 or 6 (so the lengths 0, 2, 4, 5, 9 fail), and for the lengths 1, 3, 6 it returns a
tensor whatever the values. -/
theorem C17_fillFromScalarVariable_error_iff (self : RankTwoTensorTempl K) (v : List K) :
    ((∃ e, self.fillFromScalarVariable v = Except.error e) ↔
        ¬ (v.length = 1 ∨ v.length = 3 ∨ v.length = 6)) ∧
      ((∃ T, self.fillFromScalarVariable v = Except.ok T) ↔
        (v.length = 1 ∨ v.length = 3 ∨ v.length = 6)) ∧
      ((v.length = 0 ∨ v.length = 2 ∨ v.length = 4 ∨ v.length = 5 ∨ v.length = 9) →
        ∃ e, self.fillFromScalarVariable v = Except.error e) := by
  refine ⟨fillFromScalarVariable_error_iff self v, ?_, ?_⟩
  · rw [except_ok_or_error, fillFromScalarVariable_error_iff]
    simp
    omega
  · intro h
    rw [fillFromScalarVariable_error_iff]
    omega

theorem C17_fillFromScalarVariable_error_iff_witness :
    ∃ e, sampleT.fillFromScalarVariable [1, 2, 3, 4, 5, 6, 7, 8, 9] = Except.error e :=
  (C17_fillFromScalarVariable_error_iff sampleT [1, 2, 3, 4, 5, 6, 7, 8, 9]).2.2
    (by simp)

/-- C18: entry `(i, j)` of `initializeFromRows(r0, r1, r2)` is `r_i(j)`, so its `column(c)` is
`(r0(c), r1(c), r2(c))`; `initializeFromColumns(r0, r1, r2).column(c)` is `r_c`, and
`initializeFromColumns(r0, r1, r2)` is the transpose of `initializeFromRows(r0, r1, r2)`. -/
theorem C18_initializeFromRows_columns (r0 r1 r2 : Fin 3 → K) (c : Fin 3) :
    (∀ i j, (initializeFromRows r0 r1 r2).get i j = ![r0, r1, r2] i j) ∧
      (initializeFromRows r0 r1 r2).column c = ![r0 c, r1 c, r2 c] ∧
      (initializeFromColumns r0 r1 r2).column c = ![r0, r1, r2] c ∧
      initializeFromColumns r0 r1 r2 = (initializeFromRows r0 r1 r2).transpose := by
  have hrows : ∀ i j, (initializeFromRows r0 r1 r2).get i j = ![r0, r1, r2] i j := by
    intro i j
    rw [initializeFromRows, construct9_eq_ofCoords]
    fin_cases i <;> fin_cases j <;> rfl
  have hcols : ∀ i j, (initializeFromColumns r0 r1 r2).get i j = ![r0, r1, r2] j i := by
    intro i j
    rw [initializeFromColumns, construct9_eq_ofCoords]
    fin_cases i <;> fin_cases j <;> rfl
  refine ⟨hrows, ?_, ?_, ?_⟩
  · funext i
    rw [column_apply, hrows]
    fin_cases i <;> rfl
  · funext i
    rw [column_apply, hcols]
  · apply ext_get
    intro i j
    rw [get_transpose, hrows, hcols]

/-- C20: for all tensors `a`, `b` and indices `i, j, k, l`,
`a.outerProduct(b)(i, j, k, l) = a(i, j) * b(k, l)`, the rank-four entry living in slot
`27 * i + 9 * j + 3 * k + l` and the rank-two entry `(i, j)` in slot `3 * i + j`. -/
theorem C20_outerProduct_entries (a b : RankTwoTensorTempl K) (i j k l : Fin 3) :
    (a.outerProduct b).get i j k l = a.get i j * b.get k l ∧
      (a.outerProduct b)._vals (idx4 i j k l) = a._coords (idx i j) * b._coords (idx k l) ∧
      (idx4 i j k l).val = 27 * i.val + 9 * j.val + 3 * k.val + l.val ∧
      (idx i j).val = 3 * i.val + j.val := by
  refine ⟨get_outerProduct a b i j k l, get_outerProduct a b i j k l, ?_, ?_⟩
  · simp only [idx4]
    ring
  · simp only [idx]
    ring

/-- C21: for all tensors `a`, `b` and indices `i, j, k, l`,
`a.mixedProductIkJl(b)(i, j, k, l) = a(i, k) * b(j, l)`,
`a.mixedProductIlJk(b)(i, j, k, l) = a(i, l) * b(j, k)` and
`a.mixedProductJkIl(b)(i, j, k, l) = a(j, k) * b(i, l)`: the two `index++` implementations
and the indexed one follow the convention their names spell. -/
theorem C21_mixedProduct_conventions (a b : RankTwoTensorTempl K) (i j k l : Fin 3) :
    (a.mixedProductIkJl b).get i j k l = a.get i k * b.get j l ∧
      (a.mixedProductIlJk b).get i j k l = a.get i l * b.get j k ∧
      (a.mixedProductJkIl b).get i j k l = a.get j k * b.get i l := by
  refine ⟨?_, get_mixedProductIlJk a b i j k l, ?_⟩
  · rw [mixedProductIkJl_eq_fillIndexed, RankFourTensorTempl.get_fillIndexed]
  · rw [mixedProductJkIl_eq_fillIndexed, RankFourTensorTempl.get_fillIndexed]

/-- C22: for every rank-two `a` the contracting mixed products are, for all free indices,
`mixedProductIjJklm(b)(i,k,l,m) = sum_j a(i,j) * b(j,k,l,m)`,
`mixedProductJmIjkl(b)(i,k,l,m) = sum_j a(j,m) * b(i,j,k,l)`,
`mixedProductJkIjlm(b)(i,k,l,m) = sum_j a(j,k) * b(i,j,l,m)`,
`mixedProductIjJkl(b)(i,k,l) = sum_j a(i,j) * b(j,k,l)` and
`mixedProductJkI(v)(i,j,k) = a(j,k) * v(i)`, with nothing added to the sums: the results
start from the zero tensor. -/
theorem C22_contracting_mixedProducts (a : RankTwoTensorTempl K) (b : RankFourTensorTempl K)
    (c : RankThreeTensorTempl K) (v : Fin 3 → K) :
    (∀ i k l m, (a.mixedProductIjJklm b).get i k l m = ∑ j, a.get i j * b.get j k l m) ∧
      (∀ i k l m, (a.mixedProductJmIjkl b).get i k l m = ∑ j, a.get j m * b.get i j k l) ∧
      (∀ i k l m, (a.mixedProductJkIjlm b).get i k l m = ∑ j, a.get j k * b.get i j l m) ∧
      (∀ i k l, (a.mixedProductIjJkl c).get i k l = ∑ j, a.get i j * c.get j k l) ∧
      (∀ i j k, (a.mixedProductJkI v).get i j k = a.get j k * v i) :=
  ⟨get_mixedProductIjJklm a b, get_mixedProductJmIjkl a b, get_mixedProductJkIjlm a b,
    get_mixedProductIjJkl a c, get_mixedProductJkI a v⟩

/-- C23: for a real tensor for which the solver returns three pairwise different
eigenvalues, `dsymmetricEigenvalues` returns for each eigenvalue `i` the tensor
`deigvals[i](j, k) = v_i[j] * v_i[k]` with `v_i[j] = a[3 * i + j]`; it is the outer product of
column `i` of the eigenvector tensor returned by `symmetricEigenvaluesEigenvectors`, it is
symmetric, and when `v_i` has unit length it is idempotent and has trace 1. -/
theorem C23_dsymmetricEigenvalues_outer_products [DecidableEq K]
    (LAPACKsyev_ : CalculationType → (Fin 9 → K) → Int × (Fin 3 → K) × (Fin 9 → K))
    (absoluteFuzzyEqualZero : K → Bool) (setValueZero : K → K)
    (selfAdjointEigenSolver : (Fin 3 → Fin 3 → Option K) → (Fin 3 → K) × (Fin 3 → Fin 3 → K))
    (T E0 : RankTwoTensorTempl K) (eigvals : Fin 3 → K) (a : Fin 9 → K)
    (hs : syev ScalarKind.real LAPACKsyev_ T CalculationType.V = Except.ok (eigvals, a))
    (h01 : eigvals 0 ≠ eigvals 1) (h02 : eigvals 0 ≠ eigvals 2) (h12 : eigvals 1 ≠ eigvals 2) :
    ∃ deigvals eigvecs,
      dsymmetricEigenvalues ScalarKind.real LAPACKsyev_ T = Except.ok (eigvals, deigvals) ∧
      symmetricEigenvaluesEigenvectors ScalarKind.real LAPACKsyev_ absoluteFuzzyEqualZero
        setValueZero selfAdjointEigenSolver T E0 = Except.ok (eigvals, eigvecs) ∧
      ∀ i : Fin 3,
        (∀ j k, (deigvals i).get j k = a (idx i j) * a (idx i k)) ∧
        (∀ j k, (deigvals i).get j k = eigvecs.get j i * eigvecs.get k i) ∧
        (deigvals i).transpose = deigvals i ∧
        (∑ j, a (idx i j) * a (idx i j) = 1 →
          (deigvals i).mul (deigvals i) = deigvals i ∧ (deigvals i).trace = 1) := by
  obtain ⟨eigvecs, hE, hcol⟩ := symmetricEigenvaluesEigenvectors_real LAPACKsyev_
    absoluteFuzzyEqualZero setValueZero selfAdjointEigenSolver T E0 eigvals a hs
  refine ⟨eigenvectorOuter a, eigvecs,
    dsymmetricEigenvalues_distinct ScalarKind.real LAPACKsyev_ T eigvals a hs h01 h02 h12, hE,
    fun i => ⟨get_eigenvectorOuter a i, ?_, eigenvectorOuter_transpose a i, fun hu =>
      ⟨eigenvectorOuter_mul_self a i hu, eigenvectorOuter_trace a i hu⟩⟩⟩
  intro j k
  rw [get_eigenvectorOuter, hcol, hcol]

theorem C23_dsymmetricEigenvalues_outer_products_witness :
    syev ScalarKind.real (sampleSyev ![1, 2, 3]) sampleSpectral CalculationType.V =
        Except.ok (![1, 2, 3], sampleRows) ∧
      ∃ deigvals,
        dsymmetricEigenvalues ScalarKind.real (sampleSyev ![1, 2, 3]) sampleSpectral =
          Except.ok (![1, 2, 3], deigvals) ∧
        (deigvals 0).get 0 1 = 12 / 25 ∧
        (deigvals 0).mul (deigvals 0) = deigvals 0 ∧ (deigvals 0).trace = 1 := by
  have hs : syev ScalarKind.real (sampleSyev ![1, 2, 3]) sampleSpectral CalculationType.V =
      Except.ok (![1, 2, 3], sampleRows) := rfl
  obtain ⟨deigvals, _, hd, _, h⟩ := C23_dsymmetricEigenvalues_outer_products
    (sampleSyev ![1, 2, 3]) (fun _ => false) id (fun _ => (fun _ => 0, fun _ _ => 0))
    sampleSpectral zero ![1, 2, 3] sampleRows hs (by norm_num) (by norm_num) (by norm_num)
  have hu : ∑ j, sampleRows (idx 0 j) * sampleRows (idx 0 j) = 1 := by
    simp only [Fin.sum_univ_three, sampleRows_idx, get_ofCoords_0_0, get_ofCoords_0_1,
      get_ofCoords_0_2]
    norm_num
  refine ⟨hs, deigvals, hd, ?_, ((h 0).2.2.2 hu).1, ((h 0).2.2.2 hu).2⟩
  rw [(h 0).1]
  simp only [sampleRows_idx, get_ofCoords_0_0, get_ofCoords_0_1]
  norm_num

/-- C24: for `T = k * identity`, the solver returning three equal eigenvalues and three
orthonormal eigenvectors, `dsymmetricEigenvalues` returns three equal derivative tensors,
each equal to `identity / 3`. -/
theorem C24_dsymmetricEigenvalues_triple_degenerate [DecidableEq K]
    (LAPACKsyev_ : CalculationType → (Fin 9 → K) → Int × (Fin 3 → K) × (Fin 9 → K))
    (k : K) (eigvals : Fin 3 → K) (a : Fin 9 → K)
    (hs : syev ScalarKind.real LAPACKsyev_ (smul k initIdentity) CalculationType.V =
      Except.ok (eigvals, a))
    (heq : ∀ i, eigvals i = k)
    (horth : ∀ i j, ∑ m, a (idx i m) * a (idx j m) = if i = j then 1 else 0) :
    ∃ deigvals,
      dsymmetricEigenvalues ScalarKind.real LAPACKsyev_ (smul k initIdentity) =
        Except.ok (eigvals, deigvals) ∧
      (∀ i, deigvals i = divScalar initIdentity 3) ∧
      ∀ i j l, (deigvals i).get j l = (if j = l then 1 else 0) / 3 := by
  have h := dsymmetricEigenvalues_triple ScalarKind.real LAPACKsyev_ (smul k initIdentity)
    eigvals a hs ((heq 0).trans (heq 1).symm) ((heq 0).trans (heq 2).symm)
  rw [eigenvectorOuter_mean3 a horth] at h
  refine ⟨_, h, fun _ => rfl, fun _ j l => ?_⟩
  rw [get_divScalar, get_initIdentity]

theorem C24_dsymmetricEigenvalues_triple_degenerate_witness :
    ∃ deigvals,
      dsymmetricEigenvalues ScalarKind.real (sampleSyev ![2, 2, 2]) (smul 2 initIdentity) =
        Except.ok (![2, 2, 2], deigvals) ∧
      (∀ i, deigvals i = divScalar initIdentity 3) ∧
      ∀ i j l, (deigvals i).get j l = (if j = l then 1 else 0) / 3 :=
  C24_dsymmetricEigenvalues_triple_degenerate (sampleSyev ![2, 2, 2]) 2 ![2, 2, 2] sampleRows
    rfl (fun i => by fin_cases i <;> rfl) sampleRows_orthonormal

/-- C25: in `dsymmetricEigenvalues`, when exactly two of the three returned eigenvalues are
exactly equal, the derivative tensors of those two are both the arithmetic mean of their two
eigenvector outer products and the derivative tensor of the remaining eigenvalue is its own
eigenvector outer product; when no two are equal every derivative tensor is its own
eigenvector outer product (`v_i[j] = a[3 * i + j]`). -/
theorem C25_dsymmetricEigenvalues_pair_degenerate [DecidableEq K] (kind : ScalarKind)
    (LAPACKsyev_ : CalculationType → (Fin 9 → K) → Int × (Fin 3 → K) × (Fin 9 → K))
    (T : RankTwoTensorTempl K) (eigvals : Fin 3 → K) (a : Fin 9 → K)
    (hs : syev kind LAPACKsyev_ T CalculationType.V = Except.ok (eigvals, a)) :
    ∃ deigvals,
      dsymmetricEigenvalues kind LAPACKsyev_ T = Except.ok (eigvals, deigvals) ∧
      (eigvals 0 = eigvals 1 → eigvals 0 ≠ eigvals 2 → ∀ j k,
        (deigvals 0).get j k =
          (a (idx 0 j) * a (idx 0 k) + a (idx 1 j) * a (idx 1 k)) / 2 ∧
        (deigvals 1).get j k =
          (a (idx 0 j) * a (idx 0 k) + a (idx 1 j) * a (idx 1 k)) / 2 ∧
        (deigvals 2).get j k = a (idx 2 j) * a (idx 2 k)) ∧
      (eigvals 0 = eigvals 2 → eigvals 0 ≠ eigvals 1 → ∀ j k,
        (deigvals 0).get j k =
          (a (idx 0 j) * a (idx 0 k) + a (idx 2 j) * a (idx 2 k)) / 2 ∧
        (deigvals 2).get j k =
          (a (idx 0 j) * a (idx 0 k) + a (idx 2 j) * a (idx 2 k)) / 2 ∧
        (deigvals 1).get j k = a (idx 1 j) * a (idx 1 k)) ∧
      (eigvals 1 = eigvals 2 → eigvals 0 ≠ eigvals 1 → ∀ j k,
        (deigvals 1).get j k =
          (a (idx 1 j) * a (idx 1 k) + a (idx 2 j) * a (idx 2 k)) / 2 ∧
        (deigvals 2).get j k =
          (a (idx 1 j) * a (idx 1 k) + a (idx 2 j) * a (idx 2 k)) / 2 ∧
        (deigvals 0).get j k = a (idx 0 j) * a (idx 0 k)) ∧
      (eigvals 0 ≠ eigvals 1 → eigvals 0 ≠ eigvals 2 → eigvals 1 ≠ eigvals 2 → ∀ i j k,
        (deigvals i).get j k = a (idx i j) * a (idx i k)) := by
  obtain ⟨deigvals, hd⟩ := dsymmetricEigenvalues_ok kind LAPACKsyev_ T eigvals a hs
  refine ⟨deigvals, hd, ?_, ?_, ?_, ?_⟩
  · intro h01 h02 j k
    have h := dsymmetricEigenvalues_pair01 kind LAPACKsyev_ T eigvals a hs h01 h02
    rw [hd] at h
    have h2 := congrArg Prod.snd (Except.ok.inj h)
    simp only at h2
    subst h2
    simp [get_divScalar, get_add, get_eigenvectorOuter]
  · intro h02 h01 j k
    have h := dsymmetricEigenvalues_pair02 kind LAPACKsyev_ T eigvals a hs h01 h02
    rw [hd] at h
    have h2 := congrArg Prod.snd (Except.ok.inj h)
    simp only at h2
    subst h2
    simp [get_divScalar, get_add, get_eigenvectorOuter]
  · intro h12 h01 j k
    have h := dsymmetricEigenvalues_pair12 kind LAPACKsyev_ T eigvals a hs h01 h12
    rw [hd] at h
    have h2 := congrArg Prod.snd (Except.ok.inj h)
    simp only at h2
    subst h2
    simp [get_divScalar, get_add, get_eigenvectorOuter]
  · intro h01 h02 h12 i j k
    have h := dsymmetricEigenvalues_distinct kind LAPACKsyev_ T eigvals a hs h01 h02 h12
    rw [hd] at h
    have h2 := congrArg Prod.snd (Except.ok.inj h)
    simp only at h2
    subst h2
    exact get_eigenvectorOuter a i j k

theorem C25_dsymmetricEigenvalues_pair_degenerate_witness :
    syev ScalarKind.real (sampleSyev ![1, 1, 3]) (ofCoords 1 0 0 0 1 0 0 0 3)
        CalculationType.V = Except.ok (![1, 1, 3], sampleRows) ∧
      ∃ deigvals,
        dsymmetricEigenvalues ScalarKind.real (sampleSyev ![1, 1, 3])
          (ofCoords 1 0 0 0 1 0 0 0 3) = Except.ok (![1, 1, 3], deigvals) ∧
        (deigvals 0).get 0 0 = 1 / 2 ∧ (deigvals 1).get 0 0 = 1 / 2 ∧
        (deigvals 2).get 2 2 = 1 := by
  have hs : syev ScalarKind.real (sampleSyev ![1, 1, 3]) (ofCoords 1 0 0 0 1 0 0 0 3)
      CalculationType.V = Except.ok (![1, 1, 3], sampleRows) := rfl
  obtain ⟨deigvals, hd, h, _⟩ := C25_dsymmetricEigenvalues_pair_degenerate ScalarKind.real
    (sampleSyev ![1, 1, 3]) (ofCoords 1 0 0 0 1 0 0 0 3) ![1, 1, 3] sampleRows hs
  have h01 : (![1, 1, 3] : Fin 3 → ℚ) 0 = (![1, 1, 3] : Fin 3 → ℚ) 1 := rfl
  have h02 : (![1, 1, 3] : Fin 3 → ℚ) 0 ≠ (![1, 1, 3] : Fin 3 → ℚ) 2 := by norm_num
  refine ⟨hs, deigvals, hd, ?_, ?_, ?_⟩
  · rw [(h h01 h02 0 0).1]
    simp only [sampleRows_idx, get_ofCoords_0_0, get_ofCoords_1_0]
    norm_num
  · rw [(h h01 h02 0 0).2.1]
    simp only [sampleRows_idx, get_ofCoords_0_0, get_ofCoords_1_0]
    norm_num
  · rw [(h h01 h02 2 2).2.2]
    simp only [sampleRows_idx, get_ofCoords_2_2]
    norm_num

/-- C26: `d2symmetricEigenvalues` returns, for each `alpha`, the tensor with entries
`deriv[alpha](i, j, k, l)` = the sum over all `beta` with `eigvals[beta] != eigvals[alpha]` of
`0.5 * (v_beta[i] * v_alpha[j] + v_alpha[i] * v_beta[j]) *
(v_beta[k] * v_alpha[l] + v_beta[l] * v_alpha[k]) / (eigvals[alpha] - eigvals[beta])`, with
`v_b[i] = eigvec[3 * b + i]`; pairs with exactly equal eigenvalues (`beta = alpha` included)
add nothing, every denominator that is used is non-zero, and for a triple-degenerate
spectrum all three rank-four tensors are zero. -/
theorem C26_d2symmetricEigenvalues_entries [DecidableEq K] (kind : ScalarKind)
    (LAPACKsyev_ : CalculationType → (Fin 9 → K) → Int × (Fin 3 → K) × (Fin 9 → K))
    (T : RankTwoTensorTempl K) (eigvals : Fin 3 → K) (eigvec : Fin 9 → K)
    (hs : syev kind LAPACKsyev_ T CalculationType.V = Except.ok (eigvals, eigvec)) :
    ∃ deriv, d2symmetricEigenvalues kind LAPACKsyev_ T = Except.ok deriv ∧
      (∀ alpha i j k l, (deriv alpha).get i j k l =
        ∑ beta ∈ Finset.univ.filter (fun beta => eigvals beta ≠ eigvals alpha),
          1 / 2 * (eigvec (idx beta i) * eigvec (idx alpha j) +
              eigvec (idx alpha i) * eigvec (idx beta j)) *
            (eigvec (idx beta k) * eigvec (idx alpha l) +
              eigvec (idx beta l) * eigvec (idx alpha k)) /
            (eigvals alpha - eigvals beta)) ∧
      (∀ alpha beta, eigvals beta ≠ eigvals alpha → eigvals alpha - eigvals beta ≠ 0) ∧
      (eigvals 0 = eigvals 1 → eigvals 0 = eigvals 2 →
        ∀ alpha i j k l, (deriv alpha).get i j k l = 0) := by
  obtain ⟨deriv, hd, hget⟩ := d2symmetricEigenvalues_get kind LAPACKsyev_ T eigvals eigvec hs
  refine ⟨deriv, hd, ?_, ?_, ?_⟩
  · intro alpha i j k l
    rw [hget, Finset.sum_filter]
    refine Finset.sum_congr rfl (fun beta _ => ?_)
    by_cases h : eigvals alpha = eigvals beta
    · rw [if_pos h, if_neg (fun hn => hn h.symm)]
    · rw [if_neg h, if_pos (fun hn => h hn.symm)]
      rfl
  · intro alpha beta h
    exact sub_ne_zero.mpr (fun hn => h hn.symm)
  · intro h01 h02 alpha i j k l
    rw [hget]
    have h0 : ∀ x : Fin 3, eigvals x = eigvals 0 := by
      intro x
      fin_cases x
      · rfl
      · exact h01.symm
      · exact h02.symm
    exact Finset.sum_eq_zero (fun beta _ => if_pos ((h0 alpha).trans (h0 beta).symm))

theorem C26_d2symmetricEigenvalues_entries_witness :
    syev ScalarKind.real (sampleSyev ![1, 2, 3]) sampleSpectral CalculationType.V =
        Except.ok (![1, 2, 3], sampleRows) ∧
      ∃ deriv,
        d2symmetricEigenvalues ScalarKind.real (sampleSyev ![1, 2, 3]) sampleSpectral =
          Except.ok deriv ∧
        (deriv 0).get 0 0 0 0 = -288 / 625 := by
  have hs : syev ScalarKind.real (sampleSyev ![1, 2, 3]) sampleSpectral CalculationType.V =
      Except.ok (![1, 2, 3], sampleRows) := rfl
  obtain ⟨deriv, hd, h, _⟩ := C26_d2symmetricEigenvalues_entries ScalarKind.real
    (sampleSyev ![1, 2, 3]) sampleSpectral ![1, 2, 3] sampleRows hs
  refine ⟨hs, deriv, hd, ?_⟩
  rw [h, Finset.sum_filter, Fin.sum_univ_three]
  simp [sampleRows_idx, get_ofCoords_0_0, get_ofCoords_1_0, get_ofCoords_2_0]
  norm_num

/-- C27: for every real tensor `A` with non-zero determinant, the symmetric eigensolver
returning (with `info = 0`) eigenvalues `w_i` and orthonormal eigenvectors `v_i` of
`A^T * A`, and `sqrt(w_i)` squaring back to `w_i` (as for the real square root of
`w_i > 0`), `getRUDecompositionRotation` sets `rot = A * U^(-1)` with
`U = sum_i sqrt(w_i) * v_i v_i^T`, a symmetric square root of `A^T * A`, so that
`rot^T * rot = identity` and `A = rot * U`. The base-class inverse is assumed to return a
right inverse of every tensor with non-zero determinant. -/
theorem C27_getRUDecompositionRotation_polar
    (LAPACKsyev_ : CalculationType → (Fin 9 → K) → Int × (Fin 3 → K) × (Fin 9 → K))
    (sqrt : K → K)
    (baseInverse : RankTwoTensorTempl K → Except MooseError (RankTwoTensorTempl K))
    (A : RankTwoTensorTempl K) (w : Fin 3 → K) (v : Fin 9 → K)
    (hdet : Matrix.det (toMatrix A) ≠ 0)
    (hL : LAPACKsyev_ CalculationType.V (A.transpose.mul A)._coords = (0, w, v))
    (horth : ∀ i j, ∑ m, v (idx i m) * v (idx j m) = if i = j then 1 else 0)
    (heig : ∀ i j, ∑ m, (A.transpose.mul A).get j m * v (idx i m) = w i * v (idx i j))
    (hsqrt : ∀ i, sqrt (w i) * sqrt (w i) = w i)
    (hinv : ∀ M : RankTwoTensorTempl K, Matrix.det (toMatrix M) ≠ 0 →
      ∃ R, baseInverse M = Except.ok R ∧ M.mul R = initIdentity) :
    ∃ rot U Uinv,
      getRUDecompositionRotation ScalarKind.real LAPACKsyev_ sqrt baseInverse A =
        Except.ok rot ∧
      (∀ j k, U.get j k = ∑ i, sqrt (w i) * (v (idx i j) * v (idx i k))) ∧
      U.transpose = U ∧ U.mul U = A.transpose.mul A ∧
      U.mul Uinv = initIdentity ∧ Uinv.mul U = initIdentity ∧
      rot = A.mul Uinv ∧
      rot.transpose.mul rot = initIdentity ∧ rot.mul U = A := by
  obtain ⟨rot, Uinv, h1, h2, h3, h4, h5, h6, h7, h8⟩ := getRUDecompositionRotation_polar
    LAPACKsyev_ sqrt baseInverse A w v hdet hL horth heig hsqrt hinv
  exact ⟨rot, stretchOf sqrt w v, Uinv, h1, get_stretchOf sqrt w v, h2, h3, h4, h5, h6, h7, h8⟩

theorem C27_getRUDecompositionRotation_polar_witness :
    Matrix.det (toMatrix samplePolar) ≠ 0 ∧
      ∃ rot U,
        getRUDecompositionRotation ScalarKind.real samplePolarSyev sampleSqrt tensorValueInverse
          samplePolar = Except.ok rot ∧
        U.transpose = U ∧ U.mul U = samplePolar.transpose.mul samplePolar ∧
        rot.transpose.mul rot = initIdentity ∧ rot.mul U = samplePolar := by
  have hdet : Matrix.det (toMatrix samplePolar) ≠ 0 := by
    rw [det_toMatrix]
    simp only [samplePolar, get_ofCoords_0_0, get_ofCoords_0_1, get_ofCoords_0_2,
      get_ofCoords_1_0, get_ofCoords_1_1, get_ofCoords_1_2, get_ofCoords_2_0, get_ofCoords_2_1,
      get_ofCoords_2_2]
    norm_num
  obtain ⟨rot, U, _, h1, _, h2, h3, _, _, _, h4, h5⟩ := C27_getRUDecompositionRotation_polar
    samplePolarSyev sampleSqrt tensorValueInverse samplePolar samplePolarEigvals samplePolarRows
    hdet rfl samplePolarRows_orthonormal samplePolar_eigen sampleSqrt_eigvals
    (fun M hM => (tensorValueInverse_mul M hM).imp (fun _ h => ⟨h.1, h.2.1⟩))
  exact ⟨hdet, rot, U, h1, h2, h3, h4, h5⟩

/-- C28: for a dual (AD) valued tensor `getRUDecompositionRotation` always fails with its
only-for-Real error and returns no result; so does `syev`, and with it
`dsymmetricEigenvalues` and `d2symmetricEigenvalues`, which call `syev`; while
`symmetricEigenvalues` and `symmetricEigenvaluesEigenvectors` return a result for
dual-valued tensors. -/
theorem C28_dual_unsupported [DecidableEq K]
    (LAPACKsyev_ : CalculationType → (Fin 9 → K) → Int × (Fin 3 → K) × (Fin 9 → K))
    (sqrt : K → K)
    (baseInverse : RankTwoTensorTempl K → Except MooseError (RankTwoTensorTempl K))
    (absoluteFuzzyEqualZero : K → Bool) (setValueZero : K → K)
    (selfAdjointEigenSolver : (Fin 3 → Fin 3 → Option K) → (Fin 3 → K) × (Fin 3 → Fin 3 → K))
    (T E0 : RankTwoTensorTempl K) (calculation_type : CalculationType) :
    getRUDecompositionRotation ScalarKind.dual LAPACKsyev_ sqrt baseInverse T =
        Except.error MooseError.getRUDecompositionRotationOnlyReal ∧
      syev ScalarKind.dual LAPACKsyev_ T calculation_type =
        Except.error MooseError.syevOnlyReal ∧
      dsymmetricEigenvalues ScalarKind.dual LAPACKsyev_ T =
        Except.error MooseError.syevOnlyReal ∧
      d2symmetricEigenvalues ScalarKind.dual LAPACKsyev_ T =
        Except.error MooseError.syevOnlyReal ∧
      (∃ eigvals, symmetricEigenvalues ScalarKind.dual LAPACKsyev_ absoluteFuzzyEqualZero
        setValueZero selfAdjointEigenSolver T = Except.ok eigvals) ∧
      (∃ r, symmetricEigenvaluesEigenvectors ScalarKind.dual LAPACKsyev_
        absoluteFuzzyEqualZero setValueZero selfAdjointEigenSolver T E0 = Except.ok r) :=
  ⟨rfl, rfl, rfl, rfl, ⟨_, rfl⟩, ⟨_, rfl⟩⟩

/-- C29: assigning a `ColumnMajorMatrix` `a` to a tensor fails, with the dimension error, if
and only if `a.n() != 3` or `a.m() != 3`; otherwise every entry `(i, j)` of the tensor
becomes `rawData[i + 3 * j]`, the matrix entry at row `i` and column `j`, held in the
row-major slot `3 * i + j`. -/
theorem C29_assignColumnMajorMatrix (T : RankTwoTensorTempl K) (a : ColumnMajorMatrixTempl K) :
    ((∃ e, T.assignColumnMajorMatrix a = Except.error e) ↔ (a.n ≠ 3 ∨ a.m ≠ 3)) ∧
      (a.n ≠ 3 ∨ a.m ≠ 3 →
        T.assignColumnMajorMatrix a = Except.error MooseError.incompatibleDimensions) ∧
      (a.n = 3 → a.m = 3 →
        ∃ R, T.assignColumnMajorMatrix a = Except.ok R ∧ ∀ i j : Fin 3,
          R.get i j = a.rawData (i.val + 3 * j.val) ∧
          R.get i j = a.get i.val j.val ∧
          R._coords (idx i j) = a.rawData (i.val + 3 * j.val) ∧
          (idx i j).val = 3 * i.val + j.val) := by
  have hbad : a.n ≠ 3 ∨ a.m ≠ 3 →
      T.assignColumnMajorMatrix a = Except.error MooseError.incompatibleDimensions := by
    intro h
    rw [assignColumnMajorMatrix, if_pos h]
  have hgood : a.n = 3 → a.m = 3 →
      ∃ R, T.assignColumnMajorMatrix a = Except.ok R ∧ ∀ i j : Fin 3,
        R.get i j = a.rawData (i.val + 3 * j.val) ∧
        R.get i j = a.get i.val j.val ∧
        R._coords (idx i j) = a.rawData (i.val + 3 * j.val) ∧
        (idx i j).val = 3 * i.val + j.val := by
    intro hn hm
    have hc : ¬ (a.n ≠ 3 ∨ a.m ≠ 3) := by
      rintro (h | h)
      · exact h hn
      · exact h hm
    refine ⟨_, by rw [assignColumnMajorMatrix, if_neg hc], fun i j => ?_⟩
    have he := assignColumnMajorMatrix_fill T a.rawData i j
    rw [Nat.mul_comm j.val 3] at he
    refine ⟨he, ?_, he, ?_⟩
    · rw [he, ColumnMajorMatrixTempl.get, hn, Nat.mul_comm]
    · simp only [idx]
      ring
  refine ⟨⟨?_, fun h => ⟨_, hbad h⟩⟩, hbad, hgood⟩
  rintro ⟨e, he⟩
  by_contra hc
  have hn : a.n = 3 := by
    by_contra h
    exact hc (Or.inl h)
  have hm : a.m = 3 := by
    by_contra h
    exact hc (Or.inr h)
  obtain ⟨R, hR, _⟩ := hgood hn hm
  rw [hR] at he
  exact Except.noConfusion he

theorem C29_assignColumnMajorMatrix_witness :
    sampleColumnMajor.n = 3 ∧ sampleColumnMajor.m = 3 ∧
      ∃ R, sampleT.assignColumnMajorMatrix sampleColumnMajor = Except.ok R ∧
        R.get 0 1 = 3 ∧ R.get 1 0 = 1 := by
  obtain ⟨R, hR, h⟩ := (C29_assignColumnMajorMatrix sampleT sampleColumnMajor).2.2 rfl rfl
  refine ⟨rfl, rfl, R, hR, ?_, ?_⟩
  · rw [(h 0 1).1]
    simp [sampleColumnMajor]
  · rw [(h 1 0).1]
    simp [sampleColumnMajor]

/-- C30: `RankTwoTensor(1,0,0, 0,1,0, 0,0,1)` is the identity tensor (entry `(i, j)` is 1
if `i = j` and 0 otherwise), it is what `dtrace()` returns for every tensor, and it has
`trace() == 3` and `secondInvariant() == 0`. -/
theorem C30_identity_constructor (T : RankTwoTensorTempl K) :
    (∀ i j, (construct9 (1 : K) 0 0 0 1 0 0 0 1).get i j = if i = j then 1 else 0) ∧
      (construct9 (1 : K) 0 0 0 1 0 0 0 1) = initIdentity ∧
      T.dtrace = construct9 1 0 0 0 1 0 0 0 1 ∧
      (construct9 (1 : K) 0 0 0 1 0 0 0 1).trace = 3 ∧
      (construct9 (1 : K) 0 0 0 1 0 0 0 1).secondInvariant = 0 := by
  refine ⟨get_construct9_identity, ?_, rfl, ?_, ?_⟩
  · apply ext_get
    intro i j
    rw [get_construct9_identity, get_initIdentity]
  · rw [trace, tr_eq_trace, Matrix.trace, Fin.sum_univ_three]
    simp only [Matrix.diag_apply, toMatrix_apply, get_construct9_identity]
    norm_num
  · simp [secondInvariant, pow2, get_construct9_identity]

/-- C31, as it stands: in the dual tensor whose entry `(0, 1)` has the value `1e-13` (fuzzy
equal to zero) and the derivative `1` with respect to the degree of freedom `7`, the matrix
entry `(1, 0)` handed to the solver still carries that derivative: only its value is `0`. -/
theorem C31_near_zero_entry_keeps_derivatives :
    sampleFuzzyZero (sampleDualTensor._coords (idx 0 1)) = true ∧
      solverInputAD sampleFuzzyZero ADReal.setValueZero sampleDualTensor 1 0 =
        some ⟨0, [7], [1]⟩ ∧
      (RankTwoTensorTempl.symmetricEigenvaluesEigenvectorsAD sampleFuzzyZero
        ADReal.setValueZero sampleProbeSolver sampleDualTensor
        (seededDual RankTwoTensorTempl.zero)).1 0 = ⟨0, [7], [1]⟩ ∧
      ¬ ∀ d ∈ ([1] : List ℚ), d = 0 := by
  have h1 : sampleFuzzyZero (sampleDualTensor._coords (idx 0 1)) = true := by
    simp [sampleFuzzyZero, sampleDualTensor, idx]
    rw [abs_of_nonneg] <;> norm_num
  have h2 : solverInputAD sampleFuzzyZero ADReal.setValueZero sampleDualTensor 1 0 =
      some ⟨0, [7], [1]⟩ := by
    rw [solverInputAD_apply, if_pos (by decide), if_pos ⟨by decide, h1⟩]
    simp [ADReal.setValueZero, sampleDualTensor, idx]
  refine ⟨h1, h2, ?_, by simp⟩
  rw [symmetricEigenvaluesEigenvectorsAD_eq]
  simp only [sampleProbeSolver, h2, Option.getD_some]

/-- C31, amended: in the dual-real eigen path, when an off-diagonal entry `T(i, j)`, `i < j`,
is fuzzy-equal to zero, the matrix entry `(j, i)` handed to the solver has its value set to
exactly `0` and keeps the derivative indices and derivative values of `T(i, j)`; every other
entry of the lower triangle is handed over as it is. -/
theorem C31_near_zero_entry_value_zeroed (absoluteFuzzyEqualZero : ADReal K → Bool)
    (T : RankTwoTensorTempl (ADReal K)) :
    (∀ es E0, (symmetricEigenvaluesEigenvectorsAD absoluteFuzzyEqualZero ADReal.setValueZero
        es T E0).1 = (es (solverInputAD absoluteFuzzyEqualZero ADReal.setValueZero T)).1) ∧
      (∀ i j : Fin 3, i < j → absoluteFuzzyEqualZero (T._coords (idx i j)) = true →
        ∃ v, solverInputAD absoluteFuzzyEqualZero ADReal.setValueZero T j i = some v ∧
          v.value = 0 ∧ v.nude_indices = (T._coords (idx i j)).nude_indices ∧
          v.nude_data = (T._coords (idx i j)).nude_data) ∧
      (∀ i j : Fin 3, i ≤ j → (i = j ∨ absoluteFuzzyEqualZero (T._coords (idx i j)) = false) →
        solverInputAD absoluteFuzzyEqualZero ADReal.setValueZero T j i =
          some (T._coords (idx i j))) := by
  refine ⟨fun es E0 => by rw [symmetricEigenvaluesEigenvectorsAD_eq], ?_, ?_⟩
  · intro i j hij hf
    refine ⟨ADReal.setValueZero (T._coords (idx i j)), ?_, rfl, rfl, rfl⟩
    rw [solverInputAD_apply, if_pos (le_of_lt hij), if_pos ⟨ne_of_lt hij, hf⟩]
  · intro i j hij h
    rw [solverInputAD_apply, if_pos hij, if_neg]
    rintro ⟨hne, hf⟩
    rcases h with h | h
    · exact hne h
    · rw [h] at hf
      exact Bool.noConfusion hf

theorem C31_near_zero_entry_value_zeroed_witness :
    (0 : Fin 3) < 1 ∧ sampleFuzzyZero (sampleDualTensor._coords (idx 0 1)) = true ∧
      (∃ v, solverInputAD sampleFuzzyZero ADReal.setValueZero sampleDualTensor 1 0 = some v ∧
        v.value = 0 ∧ v.nude_indices = [7] ∧ v.nude_data = [1]) ∧
      solverInputAD sampleFuzzyZero ADReal.setValueZero sampleDualTensor 1 1 =
        some ⟨2, [], []⟩ := by
  have h1 : sampleFuzzyZero (sampleDualTensor._coords (idx 0 1)) = true := by
    simp [sampleFuzzyZero, sampleDualTensor, idx]
    rw [abs_of_nonneg] <;> norm_num
  have h := C31_near_zero_entry_value_zeroed sampleFuzzyZero sampleDualTensor
  obtain ⟨v, hv, hv0, hvi, hvd⟩ := h.2.1 0 1 (by decide) h1
  refine ⟨by decide, h1, ⟨v, hv, hv0, ?_, ?_⟩, ?_⟩
  · rw [hvi]
    simp [sampleDualTensor, idx]
  · rw [hvd]
    simp [sampleDualTensor, idx]
  · rw [h.2.2 1 1 (le_refl _) (Or.inl rfl)]
    simp [sampleDualTensor, idx]

/-- C32: the tensor after `fillFromInputVector` or `fillFromScalarVariable` is a function of
the input sequence (and fill method) alone: from any two prior tensor states the call gives
the same result, and for every accepted input (length 1, 3, 6 or 9 with `autodetect` or the
matching method; length 1, 3 or 6 for the scalar variable) that result is one tensor, the
same for every prior state. -/
theorem C32_fill_independent_of_receiver (s1 s2 : RankTwoTensorTempl K) (input : List K)
    (fill_method : FillMethod) (scalar_variable : List K) :
    s1.fillFromInputVector input fill_method = s2.fillFromInputVector input fill_method ∧
      s1.fillFromScalarVariable scalar_variable =
        s2.fillFromScalarVariable scalar_variable ∧
      ((input.length = 1 ∨ input.length = 3 ∨ input.length = 6 ∨ input.length = 9) →
        (fill_method = FillMethod.autodetect ∨ fill_method.toNat = input.length) →
        ∃ R, ∀ s : RankTwoTensorTempl K, s.fillFromInputVector input fill_method =
          Except.ok R) ∧
      ((scalar_variable.length = 1 ∨ scalar_variable.length = 3 ∨
          scalar_variable.length = 6) →
        ∃ R, ∀ s : RankTwoTensorTempl K, s.fillFromScalarVariable scalar_variable =
          Except.ok R) := by
  refine ⟨fillFromInputVector_receiver s1 s2 input fill_method,
    fillFromScalarVariable_receiver s1 s2 scalar_variable, ?_, ?_⟩
  · intro hlen hfm
    have hne : ¬ ∃ e, s1.fillFromInputVector input fill_method = Except.error e := by
      rw [fillFromInputVector_error_iff]
      rintro (⟨h1, h2⟩ | h)
      · rcases hfm with h | h
        · exact h1 h
        · exact h2 h
      · exact h hlen
    obtain ⟨R, hR⟩ := (except_ok_or_error _).mpr hne
    exact ⟨R, fun s => (fillFromInputVector_receiver s s1 input fill_method).trans hR⟩
  · intro hlen
    have hne : ¬ ∃ e, s1.fillFromScalarVariable scalar_variable = Except.error e := by
      rw [fillFromScalarVariable_error_iff]
      exact fun h => h hlen
    obtain ⟨R, hR⟩ := (except_ok_or_error _).mpr hne
    exact ⟨R, fun s => (fillFromScalarVariable_receiver s s1 scalar_variable).trans hR⟩

theorem C32_fill_independent_of_receiver_witness :
    sampleT.fillFromInputVector [1, 2, 3, 4, 5, 6] FillMethod.autodetect =
        sampleH.fillFromInputVector [1, 2, 3, 4, 5, 6] FillMethod.autodetect ∧
      (∃ R, ∀ s : RankTwoTensorTempl ℚ,
        s.fillFromInputVector [1, 2, 3, 4, 5, 6] FillMethod.autodetect = Except.ok R) ∧
      ∃ R, ∀ s : RankTwoTensorTempl ℚ, s.fillFromScalarVariable [1, 2, 3] = Except.ok R :=
  have h := C32_fill_independent_of_receiver sampleT sampleH [1, 2, 3, 4, 5, 6]
    FillMethod.autodetect [1, 2, 3]
  ⟨h.1, h.2.2.1 (Or.inr (Or.inr (Or.inl rfl))) (Or.inl rfl), h.2.2.2 (Or.inr (Or.inl rfl))⟩

/-- C33: for every tensor `T`, `ddet()` is the cofactor matrix of `T` (the transpose of the
adjugate): `ddet()(i, j)` is the partial derivative of the 3x3 determinant with respect to
`T(i, j)` (the determinant is affine in each entry, with slope `ddet()(i, j)`), and
`T * ddet()^T = det(T) * identity`. -/
theorem C33_ddet_is_cofactor (T : RankTwoTensorTempl K) :
    toMatrix T.ddet = (Matrix.adjugate (toMatrix T)).transpose ∧
      (∀ (i j : Fin 3) (eps : K), Matrix.det (toMatrix (T.set i j (T.get i j + eps))) =
        Matrix.det (toMatrix T) + eps * T.ddet.get i j) ∧
      T.mul T.ddet.transpose = smul (Matrix.det (toMatrix T)) initIdentity ∧
      ∀ i j, (T.mul T.ddet.transpose).get i j =
        if i = j then Matrix.det (toMatrix T) else 0 := by
  refine ⟨toMatrix_ddet T, det_set_add T, mul_ddet_transpose T, fun i j => ?_⟩
  rw [mul_ddet_transpose, get_smul, get_initIdentity]
  split_ifs <;> simp

/-- C34: for every tensor `T`, symmetric or not, `secondInvariant()` equals
`0.5 * sum_ij S(i, j)^2` with `S = dsecondInvariant() = 0.5 * (D + D^T)`, `D = T.deviatoric()`;
over an ordered field it is therefore `>= 0`, and it is `0` exactly when the symmetric part
of `T` is a multiple of the identity. -/
theorem C34_secondInvariant_half_norm {F : Type} [LinearOrderedField F]
    (T : RankTwoTensorTempl F) :
    T.secondInvariant =
        1 / 2 * ∑ i, ∑ j, T.dsecondInvariant.get i j * T.dsecondInvariant.get i j ∧
      (∀ i j, T.dsecondInvariant.get i j =
        1 / 2 * (T.deviatoric.get i j + T.deviatoric.get j i)) ∧
      0 ≤ T.secondInvariant ∧
      (T.secondInvariant = 0 ↔
        ∃ c, ∀ i j, 1 / 2 * (T.get i j + T.get j i) = if i = j then c else 0) :=
  ⟨secondInvariant_eq_half_sq T, get_dsecondInvariant T, secondInvariant_nonneg T,
    (secondInvariant_eq_zero_iff T).trans (dsecondInvariant_eq_zero_iff T)⟩

/-- C35: the solver returning three orthonormal eigenvectors, in every branch of
`dsymmetricEigenvalues` (no degeneracy, two eigenvalues equal, all three equal) the three
returned derivative tensors sum to the identity tensor, and each of them is symmetric with
trace 1. -/
theorem C35_dsymmetricEigenvalues_sum_identity [DecidableEq K] [CharZero K]
    (kind : ScalarKind)
    (LAPACKsyev_ : CalculationType → (Fin 9 → K) → Int × (Fin 3 → K) × (Fin 9 → K))
    (T : RankTwoTensorTempl K) (eigvals : Fin 3 → K) (a : Fin 9 → K)
    (hs : syev kind LAPACKsyev_ T CalculationType.V = Except.ok (eigvals, a))
    (horth : ∀ i j, ∑ m, a (idx i m) * a (idx j m) = if i = j then 1 else 0) :
    ∃ deigvals,
      dsymmetricEigenvalues kind LAPACKsyev_ T = Except.ok (eigvals, deigvals) ∧
      ((deigvals 0).add (deigvals 1)).add (deigvals 2) = initIdentity ∧
      ∀ i, (deigvals i).transpose = deigvals i ∧ (deigvals i).trace = 1 :=
  dsymmetricEigenvalues_sumsToIdentity kind LAPACKsyev_ T eigvals a hs horth

theorem C35_dsymmetricEigenvalues_sum_identity_witness :
    ∃ deigvals,
      dsymmetricEigenvalues ScalarKind.real (sampleSyev ![1, 1, 3])
        (ofCoords 1 0 0 0 1 0 0 0 3) = Except.ok (![1, 1, 3], deigvals) ∧
      ((deigvals 0).add (deigvals 1)).add (deigvals 2) = initIdentity ∧
      ∀ i, (deigvals i).transpose = deigvals i ∧ (deigvals i).trace = 1 :=
  C35_dsymmetricEigenvalues_sum_identity ScalarKind.real (sampleSyev ![1, 1, 3])
    (ofCoords 1 0 0 0 1 0 0 0 3) ![1, 1, 3] sampleRows rfl sampleRows_orthonormal

/-- C36: for every set of eigenvalues and eigenvectors returned by the solver, degenerate or
not, the three rank-four tensors produced by `d2symmetricEigenvalues` sum to the zero tensor:
the contribution of `(alpha, beta)` and that of `(beta, alpha)` cancel exactly. -/
theorem C36_d2symmetricEigenvalues_sum_zero [DecidableEq K] (kind : ScalarKind)
    (LAPACKsyev_ : CalculationType → (Fin 9 → K) → Int × (Fin 3 → K) × (Fin 9 → K))
    (T : RankTwoTensorTempl K) (eigvals : Fin 3 → K) (eigvec : Fin 9 → K)
    (hs : syev kind LAPACKsyev_ T CalculationType.V = Except.ok (eigvals, eigvec)) :
    ∃ deriv, d2symmetricEigenvalues kind LAPACKsyev_ T = Except.ok deriv ∧
      (∀ i j k l, (deriv 0).get i j k l + (deriv 1).get i j k l + (deriv 2).get i j k l = 0) ∧
      ∀ alpha beta i j k l,
        1 / 2 * (eigvec (idx beta i) * eigvec (idx alpha j) +
              eigvec (idx alpha i) * eigvec (idx beta j)) *
            (eigvec (idx beta k) * eigvec (idx alpha l) +
              eigvec (idx beta l) * eigvec (idx alpha k)) /
            (eigvals alpha - eigvals beta) +
          1 / 2 * (eigvec (idx alpha i) * eigvec (idx beta j) +
              eigvec (idx beta i) * eigvec (idx alpha j)) *
            (eigvec (idx alpha k) * eigvec (idx beta l) +
              eigvec (idx alpha l) * eigvec (idx beta k)) /
            (eigvals beta - eigvals alpha) = 0 := by
  obtain ⟨deriv, hd, hget⟩ := d2symmetricEigenvalues_get kind LAPACKsyev_ T eigvals eigvec hs
  have hpair := d2Term_antisymm eigvals (fun p q => eigvec (idx p q))
  refine ⟨deriv, hd, fun i j k l => ?_, fun alpha beta i j k l => hpair alpha beta i j k l⟩
  have hcancel : ∀ alpha beta : Fin 3,
      (if eigvals alpha = eigvals beta then 0
        else d2Term eigvals (fun p q => eigvec (idx p q)) alpha beta i j k l) +
      (if eigvals beta = eigvals alpha then 0
        else d2Term eigvals (fun p q => eigvec (idx p q)) beta alpha i j k l) = 0 := by
    intro alpha beta
    by_cases h : eigvals alpha = eigvals beta
    · rw [if_pos h, if_pos h.symm, add_zero]
    · rw [if_neg h, if_neg (fun hn => h hn.symm)]
      exact hpair alpha beta i j k l
  have h00 := hcancel 0 0
  have h11 := hcancel 1 1
  have h22 := hcancel 2 2
  have h01 := hcancel 0 1
  have h02 := hcancel 0 2
  have h12 := hcancel 1 2
  simp only [if_true] at h00 h11 h22
  rw [hget, hget, hget]
  simp only [Fin.sum_univ_three, if_true]
  linear_combination h01 + h02 + h12

theorem C36_d2symmetricEigenvalues_sum_zero_witness :
    syev ScalarKind.real (sampleSyev ![1, 1, 3]) sampleSpectral CalculationType.V =
        Except.ok (![1, 1, 3], sampleRows) ∧
      ∃ deriv,
        d2symmetricEigenvalues ScalarKind.real (sampleSyev ![1, 1, 3]) sampleSpectral =
          Except.ok deriv ∧
        ∀ i j k l, (deriv 0).get i j k l + (deriv 1).get i j k l + (deriv 2).get i j k l = 0 :=
  have hs : syev ScalarKind.real (sampleSyev ![1, 1, 3]) sampleSpectral CalculationType.V =
      Except.ok (![1, 1, 3], sampleRows) := rfl
  ⟨hs, (C36_d2symmetricEigenvalues_sum_zero ScalarKind.real (sampleSyev ![1, 1, 3])
    sampleSpectral ![1, 1, 3] sampleRows hs).imp (fun _ h => ⟨h.1, h.2.1⟩)⟩

/-- C37: for every tensor `T` with `T(0,1) = T(1,0)` and all `c`, `s` (the values of
`std::cos` and `std::sin` at `a`), the entries `(0,0)`, `(0,1)`, `(1,0)`, `(1,1)` of
`T.rotateXyPlane(a)` are those of `T.rotated(R)` with `R = [[c, s, 0], [-s, c, 0], [0, 0, 1]]`;
if moreover `T(0,2) = T(1,2) = T(2,0) = T(2,1) = 0` the two tensors are equal. For a tensor
with `T(0,1) != T(1,0)`, `rotateXyPlane` with `c = 1`, `s = 0` does not return `T`: entry
`(1, 0)` is overwritten with the new `(0, 1)` value. -/
theorem C37_rotateXyPlane_vs_rotated (cos sin : K → K) (T : RankTwoTensorTempl K) (a : K) :
    (T.get 0 1 = T.get 1 0 → ∀ i j : Fin 3, i ≠ 2 → j ≠ 2 →
      (T.rotateXyPlane cos sin a).2.get i j =
        (T.rotated (ofCoords (cos a) (sin a) 0 (-sin a) (cos a) 0 0 0 1)).2.get i j) ∧
      (T.get 0 1 = T.get 1 0 → T.get 0 2 = 0 → T.get 1 2 = 0 → T.get 2 0 = 0 →
        T.get 2 1 = 0 →
        (T.rotateXyPlane cos sin a).2 =
          (T.rotated (ofCoords (cos a) (sin a) 0 (-sin a) (cos a) 0 0 0 1)).2) ∧
      (T.get 0 1 ≠ T.get 1 0 → cos a = 1 → sin a = 0 →
        (T.rotateXyPlane cos sin a).2 ≠ T ∧
          (T.rotateXyPlane cos sin a).2.get 1 0 = (T.rotateXyPlane cos sin a).2.get 0 1) := by
  have hrot : ∀ i j : Fin 3,
      (T.rotated (ofCoords (cos a) (sin a) 0 (-sin a) (cos a) 0 0 0 1)).2.get i j =
        (T.rotate (ofCoords (cos a) (sin a) 0 (-sin a) (cos a) 0 0 0 1)).get i j :=
    fun _ _ => rfl
  refine ⟨?_, ?_, ?_⟩
  · intro hsym i j hi hj
    rw [hrot, get_rotate, get_rotateXyPlane]
    fin_cases i <;> fin_cases j <;>
      simp [Fin.sum_univ_three, get_ofCoords_0_0, get_ofCoords_0_1, get_ofCoords_0_2,
        get_ofCoords_1_0, get_ofCoords_1_1, get_ofCoords_1_2, get_ofCoords_2_0,
        get_ofCoords_2_1, get_ofCoords_2_2] at hi hj ⊢ <;>
      (rw [← hsym]; ring)
  · intro hsym h02 h12 h20 h21
    apply ext_get
    intro i j
    rw [hrot, get_rotate, get_rotateXyPlane]
    fin_cases i <;> fin_cases j <;>
      simp [Fin.sum_univ_three, get_ofCoords_0_0, get_ofCoords_0_1, get_ofCoords_0_2,
        get_ofCoords_1_0, get_ofCoords_1_1, get_ofCoords_1_2, get_ofCoords_2_0,
        get_ofCoords_2_1, get_ofCoords_2_2, h02, h12, h20, h21] <;>
      (try rw [← hsym]) <;> ring
  · intro hne hc hs
    refine ⟨fun h => hne ?_, ?_⟩
    · have h10 := congrArg (fun X : RankTwoTensorTempl K => X.get 1 0) h
      simp only [get_rotateXyPlane] at h10
      simp [hc, hs] at h10
      exact h10
    · simp only [get_rotateXyPlane]
      simp

theorem C37_rotateXyPlane_vs_rotated_witness :
    sampleSpectral.get 0 1 = sampleSpectral.get 1 0 ∧
      (sampleSpectral.rotateXyPlane (fun _ => 3 / 5) (fun _ => 4 / 5) 0).2 =
        (sampleSpectral.rotated (ofCoords (3 / 5) (4 / 5) 0 (-(4 / 5)) (3 / 5) 0 0 0 1)).2 ∧
      sampleE01.get 0 1 ≠ sampleE01.get 1 0 ∧
      (sampleE01.rotateXyPlane (fun _ => 1) (fun _ => 0) 0).2 ≠ sampleE01 := by
  have hsym : sampleSpectral.get 0 1 = sampleSpectral.get 1 0 := rfl
  have hne : sampleE01.get 0 1 ≠ sampleE01.get 1 0 := by
    simp [sampleE01, get_ofCoords_0_1, get_ofCoords_1_0]
  have h1 := (C37_rotateXyPlane_vs_rotated (fun _ => 3 / 5) (fun _ => 4 / 5) sampleSpectral
    0).2.1 hsym rfl rfl rfl rfl
  have h2 := ((C37_rotateXyPlane_vs_rotated (fun _ => 1) (fun _ => 0) sampleE01 0).2.2 hne rfl
    rfl).1
  exact ⟨hsym, h1, hne, h2⟩

/-- C38: the matrix the dual-real path hands to its solver depends only on the entries
`T(i, j)` with `i <= j` (lower-triangle slot `(j, i)` is made from `T(i, j)`, the slots above
the diagonal are not written), whereas the plain-real path hands over
`0.5 * (T(i, j) + T(j, i))`; the values in the two lower triangles coincide for every `T` with
symmetric values whose off-diagonal entries are not fuzzy-equal to zero, and they differ for
the non-symmetric `sampleT`. -/
theorem C38_solver_inputs [CharZero K] (absoluteFuzzyEqualZero : ADReal K → Bool)
    (T T2 : RankTwoTensorTempl (ADReal K)) :
    (∀ es E0, (symmetricEigenvaluesEigenvectorsAD absoluteFuzzyEqualZero ADReal.setValueZero
        es T E0).1 = (es (solverInputAD absoluteFuzzyEqualZero ADReal.setValueZero T)).1) ∧
      (∀ L ct, syev ScalarKind.real L (valueTensor T) ct =
        if (L ct (syevInput (valueTensor T))).1 ≠ 0 then
          Except.error MooseError.syevReturnedErrorCode
        else Except.ok ((L ct (syevInput (valueTensor T))).2.1,
          (L ct (syevInput (valueTensor T))).2.2)) ∧
      (∀ i j : Fin 3, solverInputAD absoluteFuzzyEqualZero ADReal.setValueZero T j i =
        if i ≤ j then
          some (if i ≠ j ∧ absoluteFuzzyEqualZero (T._coords (idx i j)) = true then
            ADReal.setValueZero (T._coords (idx i j)) else T._coords (idx i j))
        else none) ∧
      ((∀ i j : Fin 3, i ≤ j → T._coords (idx i j) = T2._coords (idx i j)) →
        solverInputAD absoluteFuzzyEqualZero ADReal.setValueZero T =
          solverInputAD absoluteFuzzyEqualZero ADReal.setValueZero T2) ∧
      (∀ i j : Fin 3, syevInput (valueTensor T) (idx i j) =
        1 / 2 * ((valueTensor T).get i j + (valueTensor T).get j i)) ∧
      ((∀ i j : Fin 3, (valueTensor T).get i j = (valueTensor T).get j i) →
        (∀ i j : Fin 3, i ≠ j → absoluteFuzzyEqualZero (T._coords (idx i j)) = false) →
        ∀ i j : Fin 3, i ≤ j →
          (solverInputAD absoluteFuzzyEqualZero ADReal.setValueZero T j i).map ADReal.value =
            some (syevInput (valueTensor T) (idx j i))) ∧
      (solverInputAD sampleFuzzyZero ADReal.setValueZero (seededDual sampleT) 1 0).map
          ADReal.value = some 2 ∧
        syevInput (valueTensor (seededDual sampleT)) (idx 1 0) = 3 := by
  refine ⟨fun es E0 => by rw [symmetricEigenvaluesEigenvectorsAD_eq],
    fun L ct => syev_real_eq L _ ct, solverInputAD_apply _ _ T, ?_,
    syevInput_apply _, ?_, ?_, ?_⟩
  · intro h
    funext j i
    rw [solverInputAD_apply, solverInputAD_apply]
    by_cases hij : i ≤ j
    · rw [if_pos hij, if_pos hij, h i j hij]
    · rw [if_neg hij, if_neg hij]
  · intro hsym hnf i j hij
    rw [solverInputAD_apply, if_pos hij, syevInput_apply, ← hsym i j]
    have hv : (valueTensor T).get i j = (T._coords (idx i j)).value := rfl
    by_cases e : i = j
    · subst e
      rw [if_neg (fun h => h.1 rfl), Option.map_some', hv]
      congr 1
      ring
    · rw [if_neg, Option.map_some', hv]
      · congr 1
        ring
      · rintro ⟨-, hf⟩
        rw [hnf i j e] at hf
        exact Bool.noConfusion hf
  · have hf : sampleFuzzyZero ((seededDual sampleT)._coords (idx 0 1)) = false := by
      rw [sampleFuzzyZero, seededDual_value]
      simp [sampleT, get_ofCoords_0_1]
      norm_num [abs_of_nonneg]
    rw [solverInputAD_apply, if_pos (by decide), if_neg]
    · rw [Option.map_some', seededDual_value]
      simp [sampleT, get_ofCoords_0_1]
    · rintro ⟨-, h⟩
      rw [hf] at h
      exact Bool.noConfusion h
  · rw [syevInput_apply]
    have h10 : (valueTensor (seededDual sampleT)).get 1 0 = sampleT.get 1 0 := rfl
    have h01 : (valueTensor (seededDual sampleT)).get 0 1 = sampleT.get 0 1 := rfl
    rw [h10, h01]
    simp only [sampleT, get_ofCoords_0_1, get_ofCoords_1_0]
    norm_num

theorem C38_solver_inputs_witness :
    solverInputAD sampleFuzzyZero ADReal.setValueZero (seededDual sampleSym) =
        solverInputAD sampleFuzzyZero ADReal.setValueZero (seededDual sampleUpper) ∧
      ∀ i j : Fin 3, i ≤ j →
        (solverInputAD sampleFuzzyZero ADReal.setValueZero (seededDual sampleSym) j i).map
          ADReal.value = some (syevInput (valueTensor (seededDual sampleSym)) (idx j i)) :=
  have h := C38_solver_inputs sampleFuzzyZero (seededDual sampleSym) (seededDual sampleUpper)
  ⟨h.2.2.2.1 sampleUpper_agrees,
    h.2.2.2.2.2.1 (fun i j => sampleSym_symmetric i j) sampleSym_not_fuzzy⟩

/-- C39: for every dual number whose derivatives are stored as parallel index and value
arrays of equal length, and every index `r`, `trimDerivative(r, x)` leaves exactly the
(index, value) pairs whose index differs from `r`, in their original relative order, both
arrays having the same length; the value part is unchanged, no remaining index equals `r`,
and applying it a second time changes nothing. -/
theorem C39_trimDerivative_filters (r : Nat) (x : ADReal K)
    (hlen : x.nude_indices.length = x.nude_data.length) :
    (ADMortarConstraint.trimDerivative r x).value = x.value ∧
      (ADMortarConstraint.trimDerivative r x).nude_indices =
        ((x.nude_indices.zip x.nude_data).filter (fun p => decide (p.1 ≠ r))).map Prod.fst ∧
      (ADMortarConstraint.trimDerivative r x).nude_data =
        ((x.nude_indices.zip x.nude_data).filter (fun p => decide (p.1 ≠ r))).map Prod.snd ∧
      (ADMortarConstraint.trimDerivative r x).nude_indices.length =
        (ADMortarConstraint.trimDerivative r x).nude_data.length ∧
      r ∉ (ADMortarConstraint.trimDerivative r x).nude_indices ∧
      ADMortarConstraint.trimDerivative r (ADMortarConstraint.trimDerivative r x) =
        ADMortarConstraint.trimDerivative r x := by
  have h := trimDerivative_spec r x hlen
  have hlen2 : (ADMortarConstraint.trimDerivative r x).nude_indices.length =
      (ADMortarConstraint.trimDerivative r x).nude_data.length := by
    rw [h]
    simp
  refine ⟨by rw [h], by rw [h]; rfl, by rw [h]; rfl, hlen2, ?_, ?_⟩
  · rw [h]
    simp only [keptPairs, List.mem_map, List.mem_filter, not_exists, not_and]
    rintro ⟨i, d⟩ ⟨-, hk⟩ rfl
    simp at hk
  · rw [trimDerivative_spec r _ hlen2, h]
    simp only [keptPairs_idem]

theorem C39_trimDerivative_filters_witness :
    sampleDual.nude_indices.length = sampleDual.nude_data.length ∧
      (ADMortarConstraint.trimDerivative 3 sampleDual).value = 5 ∧
      (ADMortarConstraint.trimDerivative 3 sampleDual).nude_indices = [1, 2] ∧
      (ADMortarConstraint.trimDerivative 3 sampleDual).nude_data = [20, 40] :=
  have h := C39_trimDerivative_filters 3 sampleDual rfl
  ⟨rfl, h.1, h.2.1.trans (by simp [sampleDual]), h.2.2.1.trans (by simp [sampleDual])⟩

end Claims
